import Mathlib

/-!
# fusedav: the leveldb-backed file cache (`src/ldb-filecache.c`) and callbacks of
`src/fusedav.c`

A shallow embedding of the file cache of fusedav.  The C code is stateful: it
talks to a leveldb store, to the local file system, to the clock and to the
WebDAV server.  Here every function takes the state of the world (`World`) and
the behaviour of the environment during the call (`Env`) and returns its C
return value together with the new world.

Conventions of the embedding

* C strings are `List Char`; `time_t`, `int`, `ssize_t` and descriptors are `Int`.
  Buffers are long enough (`PATH_MAX` is never reached by a cache file name) and
  `malloc`/`ne_request_create` do not fail.
* Every `time(NULL)` of one call reads the same clock value `Env.now`.
* `flock` changes nothing that the model observes (one thread), so it is left out.
* Flags are non-negative 32-bit values, so `flags & ~O_TRUNC` is `flags &&& NOT_O_TRUNC`.
* A header that is absent is `none`; a header sent with an empty value is `some []`.
* Logging is left out.
* The leveldb iterator visits the keys in byte order; the maintenance sweep is the side of
  the unresolved merge in `cleanup_orphans` that compares `st_mtime` with the start time.
* The callbacks of `fusedav.c` work on a state of their own (`Dav`): the stat cache, the
  variable `last_failure` and a trace of the calls they make; the environment of one
  callback is a `DavEnv`.
* A `GError` is the error code it carries; `none` is the NULL pointer.  The callbacks are
  given paths that are not NULL, except `dav_readdir` and `path_cvt`, which test for it.
-/

namespace Fusedav

/-! ## Constants -/

/-- Value of `REFRESH_INTERVAL` in ldb-filecache.c. -/
def REFRESH_INTERVAL : Int := 3

/-- Value of `AGE_OUT_THRESHOLD` in ldb-filecache.c. -/
def AGE_OUT_THRESHOLD : Int := 691200

/-- Value of `ETAG_MAX` in ldb-filecache.c. -/
def ETAG_MAX : Nat := 256

/-- The string `filecache_prefix` of ldb-filecache.c, "fc:". -/
def filecache_prefix : List Char := ['f', 'c', ':']

/-- Linux value of `O_RDONLY` (fcntl.h). -/
def O_RDONLY : Nat := 0
/-- Linux value of `O_WRONLY` (fcntl.h). -/
def O_WRONLY : Nat := 1
/-- Linux value of `O_RDWR` (fcntl.h). -/
def O_RDWR : Nat := 2
/-- Linux value of `O_ACCMODE` (fcntl.h). -/
def O_ACCMODE : Nat := 3
/-- Linux value of `O_CREAT` (fcntl.h), octal 0100. -/
def O_CREAT : Nat := 64
/-- Linux value of `O_TRUNC` (fcntl.h), octal 01000. -/
def O_TRUNC : Nat := 512
/-- The 32-bit complement of `O_TRUNC`, the mask of the C expression `~O_TRUNC`. -/
def NOT_O_TRUNC : Nat := 0xFFFFFFFF - 512

/-- Linux errno `ENOENT`. -/
def ENOENT : Int := 2
/-- Linux errno `EIO`. -/
def EIO : Int := 5
/-- Linux errno `EBADF`. -/
def EBADF : Int := 9
/-- Linux errno `EEXIST`. -/
def EEXIST : Int := 17
/-- Linux errno `EINVAL`. -/
def EINVAL : Int := 22
/-- Linux errno `EBADFD`. -/
def EBADFD : Int := 77

/-- Value of `S_IFREG` (sys/stat.h), octal 0100000. -/
def S_IFREG : Nat := 32768

/-- The neon result code `NE_OK`. -/
def NE_OK : Int := 0
/-- The neon result code `NE_ERROR`. -/
def NE_ERROR : Int := 1

/-- C truth of `flags & bit`. -/
def has_flag (flags bit : Nat) : Bool := decide (flags &&& bit ≠ 0)

/-! ## Association tables -/

/-- Look a key up in an association table. -/
def tbl_get {α β : Type} [DecidableEq α] (k : α) : List (α × β) → Option β
  | [] => none
  | (a, b) :: rest => if a = k then some b else tbl_get k rest

/-- Remove a key from an association table. -/
def tbl_del {α β : Type} [DecidableEq α] (k : α) (t : List (α × β)) : List (α × β) :=
  t.filter (fun e => decide (e.1 ≠ k))

/-- Bind a key in an association table, replacing an older binding. -/
def tbl_put {α β : Type} [DecidableEq α] (k : α) (v : β) (t : List (α × β)) : List (α × β) :=
  (k, v) :: tbl_del k t

/-! ## Data model -/

/-- Session data, `struct ldb_filecache_sdata`. -/
structure ldb_filecache_sdata where
  fd : Int
  readable : Bool
  writable : Bool
  modified : Bool
deriving DecidableEq, Repr

/-- Persistent data stored in leveldb, `struct ldb_filecache_pdata`. -/
structure ldb_filecache_pdata where
  filename : List Char
  etag : List Char
  last_server_update : Int
deriving DecidableEq, Repr

/-- The fields of `struct stat` that the file cache fills in. -/
structure stat where
  st_mode : Nat
  st_nlink : Nat
  st_size : Int
  st_atime : Int
  st_mtime : Int
  st_ctime : Int
  st_blksize : Nat
  st_blocks : Nat
  st_uid : Nat
  st_gid : Nat
deriving DecidableEq, Repr

/-- The fields of `struct stat_cache_value` that the file cache fills in. -/
structure stat_cache_value where
  st : stat
  prepopulated : Bool
deriving DecidableEq, Repr

/-- A file of the local file system: its bytes and its modification time. -/
structure Inode where
  content : List Nat
  mtime : Int
deriving DecidableEq, Repr

/-- An open file description: the inode it refers to and the flags of the `open`. -/
structure OpenFile where
  ino : Nat
  flags : Nat
deriving DecidableEq, Repr

/-- A request sent to the WebDAV server. -/
inductive Request where
  | GET (path : List Char) (if_none_match : Option (List Char))
  | PUT (path : List Char) (body : List Nat)
deriving DecidableEq, Repr

/-- The state the file cache works on.

* `kv`: the leveldb store, key to value; the file cache reads each value through
  the cast to `struct ldb_filecache_pdata`.
* `stat`: the stat cache, a partition of its own (see `stat_cache_value_set`).
* `names`: the directory entries of the local file system, file name to inode number.
* `inodes`: the files, by inode number (position); an unlinked file keeps its inode,
  so that descriptors open on it stay usable.
* `fds`: the descriptor table, by descriptor number (position).
* `requests`: every request handed to neon for sending so far, oldest first (one entry
  per `ne_begin_request` or `ne_request_dispatch`).
* `errno`: the C variable `errno`. -/
structure World where
  kv : List (List Char × ldb_filecache_pdata)
  stat : List (List Char × stat_cache_value)
  names : List (List Char × Nat)
  inodes : List Inode
  fds : List OpenFile
  requests : List Request
  errno : Int
deriving DecidableEq, Repr

/-- The answer of the server to one attempt of a request. -/
structure Response where
  code : Nat
  etag : Option (List Char)
  body : List Nat
deriving DecidableEq, Repr

/-- The `klass` field of `ne_status`: the first digit of the status code. -/
def Response.klass (r : Response) : Nat := r.code / 100

/-- What happens in the turns of the `do ... while (ne_ret == NE_RETRY)` loop of a GET:
`begin_failed` when `ne_begin_request` is not `NE_OK`; `final r` for an answer after
which `ne_end_request` does not ask for a retry; `retry r suffix next` for an answer after
which `ne_end_request` returns `NE_RETRY`, where `next` is the turn that follows and
`suffix` is what `mkstemp` yields in it (six characters, or `none` when it fails). -/
inductive Exchange where
  | begin_failed
  | final (r : Response)
  | retry (r : Response) (suffix : Option (List Char)) (next : Exchange)
deriving DecidableEq, Repr

/-- What `ne_request_dispatch` does for a PUT: a transport error (a result code other
than `NE_OK`) or an answer of the server. -/
inductive Dispatch where
  | failed (k : Nat)
  | answered (r : Response)
deriving DecidableEq, Repr

/-- The behaviour of the environment during one call of a file cache function. -/
structure Env where
  /-- Value returned by `time(NULL)`. -/
  now : Int
  /-- Whether `session_get(1)` returns a session. -/
  session_ok : Bool
  /-- The six characters `mkstemp` puts in place of `XXXXXX`; `none` when it fails.  In
  the loop of a GET this is its behaviour in the first turn. -/
  mkstemp_suffix : Option (List Char)
  /-- Whether `leveldb_get` reports an error. -/
  get_err : Bool
  /-- Whether `leveldb_put` reports an error. -/
  put_err : Bool
  /-- Whether `leveldb_delete` reports an error. -/
  del_err : Bool
  /-- The behaviour of the server for a GET. -/
  get_exchange : Exchange
  /-- The behaviour of the server for a PUT. -/
  put_dispatch : Dispatch
  /-- Value returned by `getuid()`. -/
  uid : Nat
  /-- Value returned by `getgid()`. -/
  gid : Nat
deriving DecidableEq, Repr

/-! ## The local file system (POSIX calls used by the file cache) -/

/-- Whether a descriptor opened with `flags` may be written: access mode
`O_WRONLY` or `O_RDWR`. -/
def file_writable (flags : Nat) : Bool :=
  decide (flags &&& O_ACCMODE = O_WRONLY) || decide (flags &&& O_ACCMODE = O_RDWR)

/-- Cut or zero-extend a file body to `len` bytes. -/
def set_len (len : Nat) (c : List Nat) : List Nat :=
  c.take len ++ List.replicate (len - c.length) 0

/-- The open file description behind a descriptor, if the descriptor is open. -/
def fd_lookup (w : World) (fd : Int) : Option OpenFile :=
  if fd < 0 then none else w.fds[fd.toNat]?

/-- Replace the body of an inode and stamp its modification time. -/
def inode_write (now : Int) (ino : Nat) (c : List Nat) (inodes : List Inode) : List Inode :=
  inodes.set ino { content := c, mtime := now }

/-- The body of the file a name refers to, if the name exists. -/
def file_content (w : World) (name : List Char) : Option (List Nat) :=
  match tbl_get name w.names with
  | none => none
  | some ino => (w.inodes[ino]?).map Inode.content

/-- The body of the file a descriptor refers to, if the descriptor is open. -/
def fd_content (w : World) (fd : Int) : Option (List Nat) :=
  match fd_lookup w fd with
  | none => none
  | some f => (w.inodes[f.ino]?).map Inode.content

/-- The call `open(name, flags)`: the new descriptor, or -1 with `errno` set. -/
def posix_open (now : Int) (w : World) (name : List Char) (flags : Nat) : Int × World :=
  match tbl_get name w.names with
  | some ino =>
    let inodes := if has_flag flags O_TRUNC && file_writable flags
      then inode_write now ino [] w.inodes else w.inodes
    ((w.fds.length : Int), { w with inodes := inodes, fds := w.fds ++ [⟨ino, flags⟩] })
  | none =>
    if has_flag flags O_CREAT then
      ((w.fds.length : Int),
        { w with names := tbl_put name w.inodes.length w.names,
                 inodes := w.inodes ++ [⟨[], now⟩],
                 fds := w.fds ++ [⟨w.inodes.length, flags⟩] })
    else (-1, { w with errno := ENOENT })

/-- The call `ftruncate(fd, len)`: 0, or -1 with `errno` set when the descriptor is
not open (`EBADF`) or not open for writing (`EINVAL`). -/
def posix_ftruncate (now : Int) (w : World) (fd : Int) (len : Nat) : Int × World :=
  match fd_lookup w fd with
  | none => (-1, { w with errno := EBADF })
  | some f =>
    if file_writable f.flags then
      match w.inodes[f.ino]? with
      | some i => (0, { w with inodes := inode_write now f.ino (set_len len i.content) w.inodes })
      | none => (-1, { w with errno := EBADF })
    else (-1, { w with errno := EINVAL })

/-- The call `unlink(name)`: removes the name; the inode stays for open descriptors. -/
def posix_unlink (w : World) (name : List Char) : Int × World :=
  match tbl_get name w.names with
  | some _ => (0, { w with names := tbl_del name w.names })
  | none => (-1, { w with errno := ENOENT })

/-- The call `mkstemp(template)`: replaces the last six characters of the template by
the suffix the environment picks, creates that file (it must not exist) empty and opens
it read-write.  Returns the descriptor and the file name, or -1 and the template. -/
def posix_mkstemp (now : Int) (w : World) (template : List Char)
    (suffix : Option (List Char)) : Int × List Char × World :=
  match suffix with
  | none => (-1, template, { w with errno := EEXIST })
  | some s =>
    let name := template.take (template.length - 6) ++ s
    if s.length ≠ 6 ∨ (tbl_get name w.names).isSome then
      (-1, template, { w with errno := EEXIST })
    else
      ((w.fds.length : Int), name,
        { w with names := tbl_put name w.inodes.length w.names,
                 inodes := w.inodes ++ [⟨[], now⟩],
                 fds := w.fds ++ [⟨w.inodes.length, O_RDWR⟩] })

/-- The call `pwrite(fd, buf, size, offset)`: the number of bytes written, or -1 with
`errno = EBADF` when the descriptor is not open for writing. -/
def posix_pwrite (now : Int) (w : World) (fd : Int) (buf : List Nat) (size offset : Nat) :
    Int × World :=
  match fd_lookup w fd with
  | none => (-1, { w with errno := EBADF })
  | some f =>
    if file_writable f.flags then
      match w.inodes[f.ino]? with
      | some i =>
        let data := buf.take size
        if data = [] then (0, w)
        else
          let c := set_len offset i.content ++ data ++ i.content.drop (offset + data.length)
          ((data.length : Int), { w with inodes := inode_write now f.ino c w.inodes })
      | none => (-1, { w with errno := EBADF })
    else (-1, { w with errno := EBADF })

/-- The call `lseek(fd, 0, SEEK_SET)`: 0, or -1 when the descriptor is not open. -/
def posix_lseek_set (w : World) (fd : Int) : Int × World :=
  match fd_lookup w fd with
  | none => (-1, { w with errno := EBADF })
  | some _ => (0, w)

/-- The call `lseek(fd, 0, SEEK_END)`: the size of the file, or -1. -/
def posix_lseek_end (w : World) (fd : Int) : Int :=
  match fd_content w fd with
  | none => -1
  | some c => (c.length : Int)

/-- The neon call `ne_read_response_to_fd(req, fd)`: the body of the answer is written
to the descriptor. -/
def ne_read_response_to_fd (now : Int) (w : World) (fd : Int) (body : List Nat) : World :=
  (posix_pwrite now w fd body body.length 0).2

/-! ## The stat cache -/

/-- Modelled from the spec: `stat_cache_value_set` of statcache.c, which is not among the
sources.  The spec gives the stat cache a partition of its own and says that `set`
overwrites the entry of the path. -/
def stat_cache_value_set (w : World) (path : List Char) (value : stat_cache_value) : World :=
  { w with stat := tbl_put path value w.stat }

/-- The stat record that `create_file` and `ldb_filecache_sync` synthesize. -/
def synth_stat (env : Env) (size : Int) : stat_cache_value :=
  { st := { st_mode := 432 ||| S_IFREG, st_nlink := 1, st_size := size,
            st_atime := env.now, st_mtime := env.now, st_ctime := env.now,
            st_blksize := 0, st_blocks := 8, st_uid := env.uid, st_gid := env.gid },
    prepopulated := false }

/-! ## ldb-filecache.c -/

/-- The function `path2key`: the key of a path is "fc:" followed by the path. -/
def path2key (path : List Char) : List Char := filecache_prefix ++ path

/-- The function `ldb_filecache_pdata_get`: the entry of a path, `none` on a miss or on
a leveldb error. -/
def ldb_filecache_pdata_get (env : Env) (w : World) (path : List Char) :
    Option ldb_filecache_pdata :=
  if env.get_err then none else tbl_get (path2key path) w.kv

/-- The function `ldb_filecache_pdata_set`: writes the entry of a path; -1 for a null
entry or a leveldb error, else 0. -/
def ldb_filecache_pdata_set (env : Env) (w : World) (path : List Char)
    (pdata : Option ldb_filecache_pdata) : Int × World :=
  match pdata with
  | none => (-1, w)
  | some p =>
    if env.put_err then (-1, w)
    else (0, { w with kv := tbl_put (path2key path) p w.kv })

/-- The function `new_cache_file`: result, cache file name, descriptor, world. -/
def new_cache_file (env : Env) (w : World) (cache_path : List Char) :
    Int × List Char × Int × World :=
  let template := cache_path ++ "/files/fusedav-cache-XXXXXX".toList
  match posix_mkstemp env.now w template env.mkstemp_suffix with
  | (fd, name, w1) => if fd < 0 then (-1, name, fd, w1) else (0, name, fd, w1)

/-- The function `create_file`: result, world, session data. -/
def create_file (env : Env) (w : World) (sdata : ldb_filecache_sdata)
    (cache_path path : List Char) : Int × World × ldb_filecache_sdata :=
  let sdata := { sdata with modified := true, writable := true }
  let pdata : ldb_filecache_pdata := { filename := [], etag := [], last_server_update := 0 }
  match new_cache_file env w cache_path with
  | (rc, name, fd, w1) =>
    let pdata := { pdata with filename := name }
    let sdata := { sdata with fd := fd }
    if rc < 0 then (-1, w1, sdata)
    else
      let w2 := stat_cache_value_set w1 path (synth_stat env 0)
      let pdata := { pdata with last_server_update := env.now }
      let w3 := (ldb_filecache_pdata_set env w2 path (some pdata)).2
      (0, w3, sdata)

/-- The body of the `do ... while` loop of `ldb_get_fresh_fd` from the status code on,
up to but not including `ne_end_request`.  The first component tells whether the body
left through `goto finish`; the others are `ret_fd`, `pdata` and the world. -/
def ldb_get_fresh_fd_on_status (env : Env) (cache_path path : List Char) (flags : Nat)
    (r : Response) (ret_fd : Int) (pdata : Option ldb_filecache_pdata) (w : World) :
    Bool × Int × Option ldb_filecache_pdata × World :=
  if r.code = 304 then
    match pdata with
    | some p =>
      let p := { p with last_server_update := env.now }
      let w1 := (ldb_filecache_pdata_set env w path (some p)).2
      match posix_open env.now w1 p.filename flags with
      | (fd, w2) => (false, fd, some p, w2)
    | none => (false, ret_fd, none, w)
  else if r.code = 200 then
    let old_filename : Option (List Char) := pdata.map (fun p => p.filename)
    let p : ldb_filecache_pdata := match pdata with
      | some p => p
      | none => { filename := [], etag := [], last_server_update := 0 }
    let p := match r.etag with
      | some e => { p with etag := e.take ETAG_MAX }
      | none => { p with etag := [] }
    match new_cache_file env w cache_path with
    | (rc, name, fd, w1) =>
      let p := { p with filename := name }
      if rc < 0 then (true, fd, some p, w1)
      else
        let w2 := ne_read_response_to_fd env.now w1 fd r.body
        let p := { p with last_server_update := env.now }
        let w3 := (ldb_filecache_pdata_set env w2 path (some p)).2
        let w4 := match old_filename with
          | some old => (posix_unlink w3 old).2
          | none => w3
        (false, fd, some p, w4)
  else if r.code = 404 then (false, - ENOENT, pdata, w)
  else (false, ret_fd, pdata, w)

/-- The `do ... while (ne_ret == NE_RETRY)` loop of `ldb_get_fresh_fd`.  Each turn hands
the request `req` to the server once; a turn after a retry calls `mkstemp` anew. -/
def ldb_get_fresh_fd_loop (env : Env) (cache_path path : List Char) (flags : Nat)
    (req : Request) : Exchange → Int → Option ldb_filecache_pdata → World → Int × World
  | .begin_failed, ret_fd, _, w => (ret_fd, { w with requests := w.requests ++ [req] })
  | .final r, ret_fd, pdata, w =>
    match ldb_get_fresh_fd_on_status env cache_path path flags r ret_fd pdata
        { w with requests := w.requests ++ [req] } with
    | (_, fd, _, w1) => (fd, w1)
  | .retry r suffix next, ret_fd, pdata, w =>
    match ldb_get_fresh_fd_on_status env cache_path path flags r ret_fd pdata
        { w with requests := w.requests ++ [req] } with
    | (true, fd, _, w1) => (fd, w1)
    | (false, fd, pdata1, w1) =>
      ldb_get_fresh_fd_loop { env with mkstemp_suffix := suffix } cache_path path flags req
        next fd pdata1 w1

/-- The test of `ldb_get_fresh_fd` that the cache file is usable as it is:
`pdata != NULL && ((flags & O_TRUNC) || (time(NULL) - pdata->last_server_update) <= REFRESH_INTERVAL)`. -/
def usable_as_is (env : Env) (pdata : Option ldb_filecache_pdata) (flags : Nat) : Bool :=
  match pdata with
  | none => false
  | some p => has_flag flags O_TRUNC || decide (env.now - p.last_server_update ≤ REFRESH_INTERVAL)

/-- The function `ldb_get_fresh_fd`: a descriptor on the latest full copy of the file
(negative on failure) and the new world. -/
def ldb_get_fresh_fd (env : Env) (w : World) (cache_path path : List Char)
    (pdata : Option ldb_filecache_pdata) (flags : Nat) : Int × World :=
  match pdata, usable_as_is env pdata flags with
  | some p, true =>
    match posix_open env.now w p.filename (flags &&& NOT_O_TRUNC) with
    | (ret_fd, w1) =>
      if has_flag flags O_TRUNC then (ret_fd, (posix_ftruncate env.now w1 ret_fd 0).2)
      else (ret_fd, w1)
  | _, _ =>
    let req := Request.GET path (pdata.map (fun p => p.etag))
    ldb_get_fresh_fd_loop env cache_path path flags req env.get_exchange (- EBADFD) pdata w

/-- The end of `ldb_filecache_open`, from the `readable`/`writable` assignments on;
`ret` is the value of the C variable `ret` at that point. -/
def ldb_filecache_open_finish (flags : Nat) (ret : Int) (sdata : ldb_filecache_sdata)
    (w : World) : Int × Option ldb_filecache_sdata × World :=
  let sdata := if has_flag flags O_RDONLY || has_flag flags O_RDWR
    then { sdata with readable := true } else sdata
  let sdata := if has_flag flags O_WRONLY || has_flag flags O_RDWR
    then { sdata with writable := true } else sdata
  if sdata.fd ≥ 0 then (0, some sdata, w)
  else (ret, none, w)

/-- The function `ldb_filecache_open`: the return value, the session stored in
`info->fh` (`none` for NULL) and the new world. -/
def ldb_filecache_open (env : Env) (w : World) (cache_path path : List Char) (flags : Nat) :
    Int × Option ldb_filecache_sdata × World :=
  if !env.session_ok then (- EIO, none, w)
  else
    let sdata : ldb_filecache_sdata :=
      { fd := 0, readable := false, writable := false, modified := false }
    let pdata := ldb_filecache_pdata_get env w path
    if has_flag flags O_CREAT || (has_flag flags O_TRUNC && pdata.isNone) then
      match create_file env w sdata cache_path path with
      | (ret, w1, sdata) =>
        if ret < 0 then (ret, none, w1)
        else ldb_filecache_open_finish flags ret sdata w1
    else
      match ldb_get_fresh_fd env w cache_path path pdata flags with
      | (fd, w1) =>
        if fd < 0 then (fd, none, w1)
        else ldb_filecache_open_finish flags (- EBADF) { sdata with fd := fd } w1

/-- The function `ldb_filecache_write`: the return value, the new world and the
session data. -/
def ldb_filecache_write (env : Env) (w : World) (sdata : ldb_filecache_sdata)
    (buf : List Nat) (size offset : Nat) : Int × World × ldb_filecache_sdata :=
  if !sdata.writable then (0, { w with errno := EBADF }, sdata)
  else
    match posix_pwrite env.now w sdata.fd buf size offset with
    | (ret, w1) =>
      if ret < 0 then (- w1.errno, w1, sdata)
      else (ret, w1, { sdata with modified := true })

/-- The function `ne_put_return_etag`: the neon result code, the buffer `etag`
(`none` for a NULL pointer) and the new world.  A transport error `failed k` stands for
the result code `k + 1`, any code other than `NE_OK`. -/
def ne_put_return_etag (env : Env) (w : World) (path : List Char) (fd : Int)
    (etag : Option (List Char)) : Int × Option (List Char) × World :=
  match fd_content w fd with
  | none => (NE_ERROR, etag, w)
  | some body =>
    let w1 := { w with requests := w.requests ++ [Request.PUT path body] }
    let ret : Int := match env.put_dispatch with
      | .failed k => (k : Int) + 1
      | .answered r => if r.klass ≠ 2 then NE_ERROR else NE_OK
    let value : Option (List Char) := match env.put_dispatch with
      | .failed _ => none
      | .answered r => r.etag
    if ret = NE_OK ∧ etag.isSome then
      match value with
      | some v => (ret, some (v.take ETAG_MAX), w1)
      | none => (ret, etag, w1)
    else
      (ret, etag.map (fun _ => []), w1)

/-- The end of `ldb_filecache_sync`, from `if (pdata)` on: the entry is stamped and
written, the stat cache is updated, the result is 0. -/
def ldb_filecache_sync_finish (env : Env) (w : World) (path : List Char)
    (sdata : ldb_filecache_sdata) (pdata : Option ldb_filecache_pdata) :
    Int × World × ldb_filecache_sdata :=
  let w1 := match pdata with
    | some p =>
      (ldb_filecache_pdata_set env w path (some { p with last_server_update := env.now })).2
    | none => w
  let w2 := stat_cache_value_set w1 path (synth_stat env (posix_lseek_end w1 sdata.fd))
  (0, w2, sdata)

/-- The function `ldb_filecache_sync`: the return value, the new world and the session
data. -/
def ldb_filecache_sync (env : Env) (w : World) (path : List Char)
    (sdata : ldb_filecache_sdata) (do_put : Bool) : Int × World × ldb_filecache_sdata :=
  if !sdata.writable then (0, w, sdata)
  else
    let pdata := ldb_filecache_pdata_get env w path
    if do_put then
      if !sdata.modified then (0, w, sdata)
      else
        match posix_lseek_set w sdata.fd with
        | (off, w0) =>
          if off = -1 then (-1, w0, sdata)
          else if !env.session_ok then (-1, { w0 with errno := EIO }, sdata)
          else
            match ne_put_return_etag env w0 path sdata.fd (pdata.map (fun p => p.etag)) with
            | (rc, etag, w1) =>
              if rc ≠ 0 then (-1, { w1 with errno := ENOENT }, sdata)
              else
                ldb_filecache_sync_finish env w1 path { sdata with modified := false }
                  (pdata.map (fun p => { p with etag := etag.getD p.etag }))
    else
      ldb_filecache_sync_finish env w path sdata (pdata.map (fun p => { p with etag := [] }))

/-! ## Derived notions used in the statements -/

/-- The name `mkstemp` gives a cache file: the pattern of `new_cache_file` with the six
`X` replaced by the suffix. -/
def cache_file_name (cache_path suffix : List Char) : List Char :=
  cache_path ++ "/files/fusedav-cache-".toList ++ suffix

/-- The world after `mkstemp` created the file `name`. -/
def world_with_new_file (now : Int) (w : World) (name : List Char) : World :=
  { w with names := tbl_put name w.inodes.length w.names,
           inodes := w.inodes ++ [⟨[], now⟩],
           fds := w.fds ++ [⟨w.inodes.length, O_RDWR⟩] }

/-- The world after `open` gave a new descriptor on inode `ino`. -/
def world_with_fd (w : World) (ino flags : Nat) : World :=
  { w with fds := w.fds ++ [⟨ino, flags⟩] }

/-- The entity-tag `ldb_get_fresh_fd` stores for a 200 answer: the `ETag` header cut to
`ETAG_MAX` characters, or the empty string without the header. -/
def etag_of_response (r : Response) : List Char :=
  match r.etag with
  | some e => e.take ETAG_MAX
  | none => []

/-- Whether the PUT of `ne_put_return_etag` succeeds: the request is dispatched and the
answer has a status of class 2. -/
def put_succeeds (d : Dispatch) : Bool :=
  match d with
  | .failed _ => false
  | .answered r => decide (r.klass = 2)

/-! ## Concrete worlds and environments -/

/-- An environment in which everything works: the clock reads 100, the server answers a GET
with 200, entity-tag "E1" and three bytes, and a PUT with 201 and entity-tag "E2". -/
def ex_env : Env :=
  { now := 100, session_ok := true, mkstemp_suffix := some "abc123".toList,
    get_err := false, put_err := false, del_err := false,
    get_exchange := .final ⟨200, some "E1".toList, [1, 2, 3]⟩,
    put_dispatch := .answered ⟨201, some "E2".toList, []⟩, uid := 1000, gid := 1000 }

/-- The world with nothing in it. -/
def ex_empty : World :=
  { kv := [], stat := [], names := [], inodes := [], fds := [], requests := [], errno := 0 }

/-- The name of the body file of the example entry. -/
def ex_old_name : List Char := "/c/files/fusedav-cache-old001".toList

/-- A world with one cached file: "/a" has an entry revalidated at time 90, its body file
holds three bytes and descriptor 0 is open on it read-write. -/
def ex_world : World :=
  { kv := [("fc:/a".toList, ⟨ex_old_name, "tag".toList, 90⟩)], stat := [],
    names := [(ex_old_name, 0)], inodes := [⟨[7, 8, 9], 90⟩], fds := [⟨0, 2⟩],
    requests := [], errno := 0 }

/-- The file entry of "/a" in `ex_world`. -/
def ex_entry : ldb_filecache_pdata := ⟨ex_old_name, "tag".toList, 90⟩

/-- An entry like `ex_entry` whose entity-tag is not known (empty). -/
def ex_entry_no_tag : ldb_filecache_pdata := ⟨ex_old_name, [], 90⟩

/-- The server answers a GET with 200 and an entity-tag of 257 characters. -/
def ex_env_long_etag : Env :=
  { ex_env with get_exchange := .final ⟨200, some (List.replicate 257 'a'), []⟩ }

/-- The server answers a GET with 500. -/
def ex_env_500 : Env :=
  { ex_env with get_exchange := .final ⟨500, none, []⟩ }

/-- The server answers a GET with 404. -/
def ex_env_404 : Env :=
  { ex_env with get_exchange := .final ⟨404, none, []⟩ }

/-- The server answers a PUT with 201 and no `ETag` header. -/
def ex_env_put_no_etag : Env := { ex_env with put_dispatch := .answered ⟨201, none, []⟩ }

/-- The server answers a PUT with 500. -/
def ex_env_put_500 : Env := { ex_env with put_dispatch := .answered ⟨500, none, []⟩ }

/-- The server answers a PUT with 404. -/
def ex_env_put_404 : Env := { ex_env with put_dispatch := .answered ⟨404, none, []⟩ }

/-- A writable, modified session on descriptor 0. -/
def ex_session : ldb_filecache_sdata := { fd := 0, readable := true, writable := true, modified := true }

/-- A read-only session on descriptor 0. -/
def ex_session_ro : ldb_filecache_sdata := { fd := 0, readable := true, writable := false, modified := false }

/-- The clock reads 93, three seconds after the example entry was revalidated. -/
def ex_env_93 : Env := { ex_env with now := 93 }

/-! ## More POSIX calls -/

/-- The call `access(name, F_OK)`: 0 when the name exists, else -1 with `errno = ENOENT`. -/
def posix_access (w : World) (name : List Char) : Int × World :=
  match tbl_get name w.names with
  | some _ => (0, w)
  | none => (-1, { w with errno := ENOENT })

/-- Stamp the modification time of an inode, if the inode is there. -/
def inode_touch (now : Int) (ino : Nat) (inodes : List Inode) : List Inode :=
  match inodes[ino]? with
  | some i => inodes.set ino { i with mtime := now }
  | none => inodes

/-- The call `utime(name, NULL)`: sets the times of the file to the current time. -/
def posix_utime (now : Int) (w : World) (name : List Char) : Int × World :=
  match tbl_get name w.names with
  | some ino => (0, { w with inodes := inode_touch now ino w.inodes })
  | none => (-1, { w with errno := ENOENT })

/-- The field `st_mtime` that `stat(name, &stbuf)` reads; `none` when `stat` fails. -/
def posix_stat_mtime (w : World) (name : List Char) : Option Int :=
  match tbl_get name w.names with
  | none => none
  | some ino => (w.inodes[ino]?).map Inode.mtime

/-! ## ldb-filecache.c: delete, move, cleanup -/

/-- The function `ldb_filecache_delete`: removes the key of the path from leveldb and
unlinks the body file the entry named; -1 on a leveldb error, else 0. -/
def ldb_filecache_delete (env : Env) (w : World) (path : List Char) : Int × World :=
  let pdata := ldb_filecache_pdata_get env w path
  let w1 := if env.del_err then w else { w with kv := tbl_del (path2key path) w.kv }
  let w2 := match pdata with
    | some p => (posix_unlink w1 p.filename).2
    | none => w1
  (if env.del_err then -1 else 0, w2)

/-- The function `ldb_filecache_pdata_move`.  The C variable `ret` is initialised to -1
and never assigned afterwards. -/
def ldb_filecache_pdata_move (env : Env) (w : World) (old_path new_path : List Char) :
    Int × World :=
  match ldb_filecache_pdata_get env w old_path with
  | none => (-1, w)
  | some pdata =>
    let pdata := { pdata with last_server_update := env.now }
    match ldb_filecache_pdata_set env w new_path (some pdata) with
    | (rc, w1) =>
      if rc < 0 then (-1, w1)
      else (-1, (ldb_filecache_delete env w1 old_path).2)

/-- The function `key2path`: the path of a key that starts with "fc:", else `none` (NULL). -/
def key2path (key : List Char) : Option (List Char) :=
  if filecache_prefix.isPrefixOf key then some (key.drop 3) else none

/-- Byte order of keys, the order of the leveldb iterator. -/
def key_lt : List Char → List Char → Bool
  | [], [] => false
  | [], _ :: _ => true
  | _ :: _, [] => false
  | a :: as, b :: bs =>
    if a.toNat < b.toNat then true
    else if b.toNat < a.toNat then false
    else key_lt as bs

/-- Insert a key in an ascending list of keys without repeating it. -/
def key_insert (k : List Char) : List (List Char) → List (List Char)
  | [] => [k]
  | x :: xs =>
    if key_lt k x then k :: x :: xs
    else if k = x then x :: xs
    else x :: key_insert k xs

/-- The keys of a store in ascending byte order, each once. -/
def sorted_keys (kv : List (List Char × ldb_filecache_pdata)) : List (List Char) :=
  kv.foldr (fun e acc => key_insert e.1 acc) []

/-- The calls `leveldb_create_iterator` and `leveldb_iter_seek(iter, start)`: the keys
at or after `start` with their values, in ascending byte order (a snapshot). -/
def leveldb_iter_seek (kv : List (List Char × ldb_filecache_pdata)) (start : List Char) :
    List (List Char × ldb_filecache_pdata) :=
  ((sorted_keys kv).filter (fun k => !key_lt k start)).filterMap
    (fun k => (tbl_get k kv).map (fun p => (k, p)))

/-- The body of the `while` loop of `ldb_filecache_cleanup` for one entry of the
iterator (`pdata` is never NULL for a key that is in the store). -/
def ldb_filecache_cleanup_visit (env : Env) (w : World) (path : List Char)
    (pdata : ldb_filecache_pdata) : World :=
  match posix_access w pdata.filename with
  | (ret, w1) =>
    if ret ≠ 0 then (ldb_filecache_delete env w1 path).2
    else if env.now - pdata.last_server_update > AGE_OUT_THRESHOLD then
      (posix_unlink (ldb_filecache_delete env w1 path).2 pdata.filename).2
    else (posix_utime env.now w1 pdata.filename).2

/-- The `while (leveldb_iter_valid(iter))` loop of `ldb_filecache_cleanup`: it stops at
the first key that `key2path` does not accept. -/
def ldb_filecache_cleanup_loop (env : Env) :
    List (List Char × ldb_filecache_pdata) → World → World
  | [], w => w
  | (key, pdata) :: rest, w =>
    match key2path key with
    | none => w
    | some path =>
      ldb_filecache_cleanup_loop env rest (ldb_filecache_cleanup_visit env w path pdata)

/-- The name `readdir` gives for a file that lies directly in the directory `dir`. -/
def dir_entry_name (dir name : List Char) : Option (List Char) :=
  if (dir ++ ['/']).isPrefixOf name then
    let d := name.drop (dir.length + 1)
    if d ≠ [] ∧ '/' ∉ d then some d else none
  else none

/-- The string that `snprintf(cachefile_path, PATH_MAX, "%s/%s", dir, d_name)` prints. -/
def path_join (dir d_name : List Char) : List Char := dir ++ ['/'] ++ d_name

/-- The `while ((diriter = readdir(dir)) != NULL)` loop of `cleanup_orphans` over the
files of the directory: the issue counter `ret` and the world. -/
def cleanup_orphans_loop (dir : List Char) (stamped_time : Int) :
    List (List Char) → Int → World → Int × World
  | [], ret, w => (ret, w)
  | d_name :: rest, ret, w =>
    let cachefile_path := path_join dir d_name
    match posix_stat_mtime w cachefile_path with
    | none => cleanup_orphans_loop dir stamped_time rest (ret - 1) w
    | some st_mtime =>
      if st_mtime < stamped_time then
        match posix_unlink w cachefile_path with
        | (rc, w1) =>
          cleanup_orphans_loop dir stamped_time rest (if rc ≠ 0 then ret - 1 else ret) w1
      else cleanup_orphans_loop dir stamped_time rest ret w

/-- The function `cleanup_orphans` (the `HEAD` side of the merge).  The directory
`cache_path/files` is taken to exist; it holds the files whose names lie directly in it
(the entries "." and ".." and other directories are skipped by the C code). -/
def cleanup_orphans (w : World) (cache_path : List Char) (stamped_time : Int) : Int × World :=
  let filecache_path := cache_path ++ "/files".toList
  cleanup_orphans_loop filecache_path stamped_time
    (w.names.filterMap (fun e => dir_entry_name filecache_path e.1)) 0 w

/-- The function `ldb_filecache_cleanup`. -/
def ldb_filecache_cleanup (env : Env) (w : World) (cache_path : List Char) : World :=
  let starttime := env.now
  let w1 := ldb_filecache_cleanup_loop env (leveldb_iter_seek w.kv filecache_prefix) w
  (cleanup_orphans w1 cache_path starttime).2

/-- Whether the orphan pass unlinks a file: `stat` succeeds and the file is older than the
stamp. -/
def is_orphan (w : World) (stamped_time : Int) (name : List Char) : Bool :=
  match posix_stat_mtime w name with
  | some m => decide (m < stamped_time)
  | none => false

/-- The entries the loop still has to visit are in the store, under keys that start with
"fc:". -/
def loop_ready (l : List (List Char × ldb_filecache_pdata)) (w : World) : Prop :=
  ∀ e ∈ l, tbl_get e.1 w.kv = some e.2 ∧ ∃ path, key2path e.1 = some path

/-- The inodes `b` are the inodes `a` with some modification times set to `now`. -/
def stamp_rel (now : Int) (a b : List Inode) : Prop :=
  ∀ j : Nat, (a[j]? = none → b[j]? = none) ∧
    (∀ i : Inode, a[j]? = some i → ∃ i' : Inode, b[j]? = some i' ∧ i'.content = i.content ∧
      (i'.mtime = i.mtime ∨ i'.mtime = now))

/-- No two file entries of the store name the same body file. -/
def no_shared_body (w : World) : Prop :=
  ∀ (k1 k2 : List Char) (p1 p2 : ldb_filecache_pdata),
    tbl_get k1 w.kv = some p1 → tbl_get k2 w.kv = some p2 →
    (key2path k1).isSome = true → (key2path k2).isSome = true →
    p1.filename = p2.filename → k1 = k2

/-- The entries the cleanup loop visits: those of the iterator whose keys start with "fc:". -/
def cleanup_visited (w : World) : List (List Char × ldb_filecache_pdata) :=
  (leveldb_iter_seek w.kv filecache_prefix).filter (fun e => (key2path e.1).isSome)

/-! ## fusedav.c: saint mode, directory refresh, readdir

The stat cache (statcache.c), the PROPFIND transport (props.c) and the helpers of util.c and
session.c are not among the sources.  The stat cache is modelled from the spec; what the
other modules do is given by the environment (`DavEnv`) or passed as a function (`Lib`).
The calls that `update_directory` and `dav_readdir` themselves make to them are recorded in
a trace. -/

/-- Value of `CLOCK_SKEW` in fusedav.c. -/
def CLOCK_SKEW : Int := 10

/-- Value of `SAINT_MODE_DURATION` in fusedav.c. -/
def SAINT_MODE_DURATION : Int := 10

/-- Linux errno `ESTALE`. -/
def ESTALE : Int := 116

/-- Modelled from the spec: the value of `PROPFIND_DEPTH_ONE` (props.h is not among the
sources), the depth of a listing. -/
def PROPFIND_DEPTH_ONE : Nat := 1

/-- Modelled from the spec: the value of `STAT_CACHE_NO_DATA` (statcache.h is not among the
sources); `stat_cache_enumerate` returns its negation for "no data". -/
def STAT_CACHE_NO_DATA : Int := 1

/-- Modelled from the spec: the value of `STAT_CACHE_OLD_DATA` (statcache.h is not among the
sources); `stat_cache_enumerate` returns its negation for "too old". -/
def STAT_CACHE_OLD_DATA : Int := 2

/-- The fields of `struct fusedav_config` that the callbacks read. -/
structure fusedav_config where
  progressive_propfind : Bool
  refresh_dir_for_file_stat : Bool
  grace : Bool
deriving DecidableEq, Repr

/-- Modelled from the spec: a record of the stat cache, the stat data and the generation
recorded by `set`. -/
structure stat_entry where
  st : stat
  local_generation : Nat
deriving DecidableEq, Repr

/-- Modelled from the spec: the state of the stat cache (statcache.c is not among the
sources): the records by path, the children-updated timestamps by directory, and the
local generation counter. -/
structure StatCache where
  entries : List (List Char × stat_entry)
  updated_children : List (List Char × Int)
  generation : Nat
deriving DecidableEq, Repr

/-- A call made by fusedav.c to the transport, to the stat cache, to the file cache or to
the directory filler.  In `propfind`, `changes_since` is the number that `%lu` prints in the
query `?changes_since=`, absent for a complete listing.  A `request` is a
`curl_easy_perform` with `CURLOPT_CUSTOMREQUEST` set to `method` on the session of `path`;
`destination` is the path that follows the base host in a `Destination:` header. -/
inductive DavCall where
  | propfind (path : List Char) (changes_since : Option Nat) (depth : Nat)
  | read_updated_children (path : List Char)
  | get_local_generation (sample : Nat)
  | delete_older (path : List Char) (min_generation : Nat)
  | updated_children (path : List Char) (timestamp : Int)
  | enumerate (path : List Char) (ignore_freshness : Bool)
  | filler (name : List Char)
  | request (method path : List Char) (destination : Option (List Char))
  | filecache_pdata_move (old_path new_path : List Char)
  | filecache_delete (path : List Char)
deriving DecidableEq, Repr

/-- What `simple_propfind` does for one request: its return value and the entries it
hands to the callback, each with path, stat data and status code. -/
structure Listing where
  result : Int
  responses : List (List Char × stat × Nat)
deriving DecidableEq, Repr

/-- Functions and constants of modules that are not among the sources. -/
structure Lib where
  /-- Value of `get_base_directory()`. -/
  base_directory : List Char
  /-- The function `path_escape` of util.c. -/
  path_escape : List Char → List Char
  /-- The function `curl_easy_unescape`. -/
  unescape : List Char → List Char
  /-- The records that `stat_cache_prune` leaves. -/
  prune : List (List Char × stat_entry) → List (List Char × stat_entry)
  /-- Value of `STAT_CACHE_NEGATIVE_TTL`. -/
  negative_ttl : Int
  /-- The function `path_parent` of util.c. -/
  path_parent : List Char → List Char

/-- The behaviour of the environment during one filesystem callback. -/
structure DavEnv where
  /-- Value of `time(NULL)` inside `stat_cache_enumerate`. -/
  time_enumerate : Int
  /-- Value of `time(NULL)` read before the windowed PROPFIND. -/
  time_progressive : Int
  /-- Value of `time(NULL)` read before the complete PROPFIND. -/
  time_complete : Int
  /-- Seconds of `clock_gettime(CLOCK_MONOTONIC)` read by `use_saint_mode`. -/
  monotonic_use : Int
  /-- Seconds of `clock_gettime(CLOCK_MONOTONIC)` read by `set_saint_mode`. -/
  monotonic_set : Int
  /-- Error code that `stat_cache_read_updated_children` sets, if it fails. -/
  read_updated_error : Option Int
  /-- The windowed PROPFIND. -/
  progressive : Listing
  /-- The complete PROPFIND. -/
  complete : Listing
  /-- Value of `fusedav_inject_error(0)`. -/
  inject_0 : Bool
  /-- Value of `fusedav_inject_error(1)`. -/
  inject_1 : Bool
  /-- Error code that `stat_cache_delete_older` sets, if it fails. -/
  delete_older_error : Option Int
  /-- Error code that `stat_cache_updated_children` sets, if it fails. -/
  updated_children_error : Option Int
deriving DecidableEq, Repr

/-- The state the callbacks of fusedav.c work on: the stat cache, the variable
`last_failure` and the trace of calls made so far, oldest first. -/
structure Dav where
  cache : StatCache
  last_failure : Int
  calls : List DavCall
deriving DecidableEq, Repr

/-- The function `use_saint_mode`, for the stored `last_failure` and the seconds of the
monotonic clock. -/
def use_saint_mode (last_failure now_sec : Int) : Bool :=
  decide (last_failure + SAINT_MODE_DURATION ≥ now_sec)

/-- The function `set_saint_mode`. -/
def set_saint_mode (d : Dav) (now_sec : Int) : Dav :=
  { d with last_failure := now_sec }

/-- The function `path_cvt`; `none` is the NULL pointer.  A byte read past the end of
the string `t` is not a slash. -/
def path_cvt (lib : Lib) (path : Option (List Char)) : Option (List Char) :=
  match path with
  | none => none
  | some p =>
    let base_dir := lib.base_directory
    let l := base_dir.length + p.length
    let t := if base_dir.getLast? = some '/' then p else base_dir ++ p
    let t := if l > 1 ∧ t[l - 1]? = some '/' then t.take (l - 1) else t
    some (lib.path_escape t)

/-- The function `processed_gerror`: the negated error code. -/
def processed_gerror (code : Int) : Int := - code

/-- The number that `asprintf` prints for `last_updated - CLOCK_SKEW` under `%lu` in
`update_directory`: the value of the 64-bit `time_t` read as an unsigned long. -/
def changes_since (last_updated : Int) : Nat :=
  ((last_updated - CLOCK_SKEW) % 2 ^ 64).toNat

/-- Whether a recorded call is a PROPFIND request. -/
def is_propfind : DavCall → Bool
  | DavCall.propfind _ _ _ => true
  | _ => false

/-- Modelled from the spec: `stat_cache_get_local_generation` returns the generation and
increments it. -/
def stat_cache_get_local_generation (c : StatCache) : Nat × StatCache :=
  (c.generation, { c with generation := c.generation + 1 })

/-- Modelled from the spec: `stat_cache_value_set` overwrites the record of the path and
records a fresh generation. -/
def stat_cache_set (c : StatCache) (path : List Char) (st : stat) : StatCache :=
  match stat_cache_get_local_generation c with
  | (g, c1) => { c1 with entries := tbl_put path ⟨st, g⟩ c1.entries }

/-- Modelled from the spec: `stat_cache_delete` removes the record of the path. -/
def stat_cache_delete (c : StatCache) (path : List Char) : StatCache :=
  { c with entries := tbl_del path c.entries }

/-- Modelled from the spec: `stat_cache_prune` removes records; which ones is left to
`Lib.prune`. -/
def stat_cache_prune (lib : Lib) (c : StatCache) : StatCache :=
  { c with entries := lib.prune c.entries }

/-- Modelled from the spec: `stat_cache_read_updated_children`, 0 if absent. -/
def stat_cache_read_updated_children (c : StatCache) (path : List Char) : Int :=
  (tbl_get path c.updated_children).getD 0

/-- Modelled from the spec: `stat_cache_updated_children` writes the timestamp. -/
def stat_cache_updated_children (c : StatCache) (path : List Char) (timestamp : Int) :
    StatCache :=
  { c with updated_children := tbl_put path timestamp c.updated_children }

/-- Modelled from the spec: `stat_cache_delete_older` deletes the records under the
prefix `path/` whose generation is strictly less than `min_generation`. -/
def stat_cache_delete_older (c : StatCache) (path : List Char) (min_generation : Nat) :
    StatCache :=
  { c with entries := c.entries.filter (fun e =>
      !((path ++ ['/']).isPrefixOf e.1 && decide (e.2.local_generation < min_generation))) }

/-- Modelled from the spec: `stat_cache_enumerate` returns "too old" when freshness counts
and the children-updated timestamp of the directory is older than the clock minus
`STAT_CACHE_NEGATIVE_TTL`, "no data" when the directory has no direct child, and else
streams the names of the direct children and returns 0. -/
def stat_cache_enumerate (lib : Lib) (c : StatCache) (now : Int) (path : List Char)
    (ignore_freshness : Bool) : Int × List (List Char) :=
  if !ignore_freshness && decide (stat_cache_read_updated_children c path < now - lib.negative_ttl)
  then (- STAT_CACHE_OLD_DATA, [])
  else
    let children := c.entries.filterMap (fun e => dir_entry_name path e.1)
    if children = [] then (- STAT_CACHE_NO_DATA, []) else (0, children)

/-- The function `getdir_propfind_callback` for one entry of a listing. -/
def getdir_propfind_callback (lib : Lib) (c : StatCache) (r : List Char × stat × Nat) :
    StatCache :=
  if r.2.2 = 410 then stat_cache_prune lib (stat_cache_delete c r.1)
  else stat_cache_set c r.1 r.2.1

/-- The function `simple_propfind_with_redirect` with `getdir_propfind_callback`: the
callback runs on every entry, the result of the transport is returned. -/
def simple_propfind_with_redirect (lib : Lib) (c : StatCache) (listing : Listing) :
    Int × StatCache :=
  (listing.result, listing.responses.foldl (getdir_propfind_callback lib) c)

/-- The end of `update_directory`, from "Mark the directory contents as updated" on. -/
def update_directory_mark (env : DavEnv) (d : Dav) (path : List Char) (timestamp : Int) :
    Option Int × Dav :=
  let d1 := { d with calls := d.calls ++ [DavCall.updated_children path timestamp] }
  match env.updated_children_error with
  | some code => (some code, d1)
  | none => (none, { d1 with cache := stat_cache_updated_children d1.cache path timestamp })

/-- The block `if (needs_update)` of `update_directory` with `needs_update` true, and what
follows it. -/
def update_directory_complete (lib : Lib) (env : DavEnv) (d : Dav) (path : List Char) :
    Option Int × Dav :=
  let timestamp := env.time_complete
  match stat_cache_get_local_generation d.cache with
  | (min_generation, c1) =>
    match simple_propfind_with_redirect lib c1 env.complete with
    | (propfind_result, c2) =>
      let d2 := { d with cache := c2, calls := d.calls ++
        [DavCall.get_local_generation min_generation,
         DavCall.propfind path none PROPFIND_DEPTH_ONE] }
      if propfind_result < 0 ∨ env.inject_1 = true then (some EIO, d2)
      else
        let d3 := { d2 with calls := d2.calls ++ [DavCall.delete_older path min_generation] }
        match env.delete_older_error with
        | some code => (some code, d3)
        | none =>
          update_directory_mark env
            { d3 with cache := stat_cache_delete_older d3.cache path min_generation }
            path timestamp

/-- The function `update_directory`: the error it sets (`none` for no error) and the
new state. -/
def update_directory (cfg : fusedav_config) (lib : Lib) (env : DavEnv) (d : Dav)
    (path : List Char) (attempt_progessive_update : Bool) : Option Int × Dav :=
  if attempt_progessive_update && cfg.progressive_propfind then
    let timestamp := env.time_progressive
    let last_updated := stat_cache_read_updated_children d.cache path
    let d1 := { d with calls := d.calls ++ [DavCall.read_updated_children path] }
    match env.read_updated_error with
    | some code => (some code, d1)
    | none =>
      match simple_propfind_with_redirect lib d1.cache env.progressive with
      | (propfind_result, c2) =>
        let d2 := { d1 with cache := c2, calls := d1.calls ++
          [DavCall.propfind path (some (changes_since last_updated)) PROPFIND_DEPTH_ONE] }
        if propfind_result = 0 ∧ env.inject_0 = false then
          update_directory_mark env d2 path timestamp
        else if propfind_result = - ESTALE ∧ env.inject_0 = false then
          update_directory_complete lib env d2 path
        else (some EIO, d2)
  else update_directory_complete lib env d path

/-- The function `getdir_cache_callback`: the unescaped name goes to the filler. -/
def getdir_cache_callback (lib : Lib) (fn : List Char) : DavCall :=
  DavCall.filler (lib.unescape fn)

/-- The call `stat_cache_enumerate(config->cache, path, getdir_cache_callback, &f,
ignore_freshness)` inside `dav_readdir`: its return value and the state with the call
and the names given to the filler recorded. -/
def dav_readdir_enumerate (lib : Lib) (env : DavEnv) (d : Dav) (path : List Char)
    (ignore_freshness : Bool) : Int × Dav :=
  match stat_cache_enumerate lib d.cache env.time_enumerate path ignore_freshness with
  | (ret, names) =>
    let fills := names.map (getdir_cache_callback lib)
    (ret, { d with calls := d.calls ++ [DavCall.enumerate path ignore_freshness] ++ fills })

/-- The function `dav_readdir`: its return value and the new state. -/
def dav_readdir (cfg : fusedav_config) (lib : Lib) (env : DavEnv) (d : Dav)
    (path : Option (List Char)) : Int × Dav :=
  match path_cvt lib path with
  | none => (- ENOENT, d)
  | some path =>
    let d1 := { d with calls := d.calls ++
      [DavCall.filler ".".toList, DavCall.filler "..".toList] }
    let ignore_freshness := cfg.grace && use_saint_mode d1.last_failure env.monotonic_use
    match dav_readdir_enumerate lib env d1 path ignore_freshness with
    | (ret, d2) =>
      if ret < 0 then
        match update_directory cfg lib env d2 path (decide (ret = - STAT_CACHE_OLD_DATA)) with
        | (gerr, d3) =>
          match gerr, cfg.grace with
          | some code, false => (processed_gerror code, d3)
          | some _, true =>
            (0, (dav_readdir_enumerate lib env (set_saint_mode d3 env.monotonic_set) path true).2)
          | none, _ => (0, (dav_readdir_enumerate lib env d3 path true).2)
      else (0, d2)

/-! ## fusedav.c: get_stat, rmdir, rename, open

`get_stat` fills a `struct stat` and reports failure through a `GError`; here it returns the
error code it sets (`none` for no error), the record and the new state.  GLib is a library:
`g_set_error` sets a code, `g_propagate_prefixed_error` moves an error. -/

/-- Linux errno `ENOTDIR`. -/
def ENOTDIR : Int := 20

/-- Linux errno `ENOTEMPTY`. -/
def ENOTEMPTY : Int := 39

/-- Linux errno `EKEYEXPIRED`. -/
def EKEYEXPIRED : Int := 127

/-- File type mask `S_IFMT`. -/
def S_IFMT : Nat := 61440

/-- File type bits `S_IFDIR`. -/
def S_IFDIR : Nat := 16384

/-- Modelled from the spec: the value of `PROPFIND_DEPTH_ZERO` (props.h is not among the
sources), the depth of a lookup of one path. -/
def PROPFIND_DEPTH_ZERO : Nat := 0

/-- The macro `S_ISDIR`. -/
def S_ISDIR (mode : Nat) : Bool := decide (mode &&& S_IFMT = S_IFDIR)

/-- The macro `S_ISREG`. -/
def S_ISREG (mode : Nat) : Bool := decide (mode &&& S_IFMT = S_IFREG)

/-- A `struct stat` after `memset(stbuf, 0, sizeof(struct stat))`. -/
def stat_zero : stat :=
  { st_mode := 0, st_nlink := 0, st_size := 0, st_atime := 0, st_mtime := 0, st_ctime := 0,
    st_blksize := 0, st_blocks := 0, st_uid := 0, st_gid := 0 }

/-- The function `fill_stat_generic` for `fd = -1` (no descriptor to take the size from);
`now` is the value of `time(NULL)`. -/
def fill_stat_generic (now : Int) (mode : Nat) (is_dir : Bool) : stat :=
  let st := { stat_zero with st_mode := mode }
  let st := if is_dir
    then { st with st_mode := st.st_mode ||| S_IFDIR, st_nlink := 3, st_size := 4096 }
    else { st with st_mode := st.st_mode ||| S_IFREG, st_nlink := 1, st_size := 0 }
  let st := { st with st_atime := now, st_mtime := now, st_ctime := now, st_blksize := 4096 }
  { st with st_blocks := ((st.st_size + 511) / 512).toNat }

/-- The function `strip_trailing_slash`: the string without one trailing slash, and
`is_dir`.  Its assertion `l > 0` holds for the strings it is given. -/
def strip_trailing_slash (fn : List Char) : List Char × Bool :=
  if fn.getLast? = some '/' then (fn.dropLast, true) else (fn, false)

/-- The GLib function `g_propagate_prefixed_error(dest, src, ...)` on error codes: `src` is
moved to `*dest` when `*dest` is NULL.  With `src` NULL the precondition check of
`g_propagate_error` fails and `*dest` stays as it was. -/
def g_propagate_prefixed_error (dest src : Option Int) : Option Int :=
  match src with
  | none => dest
  | some code =>
    match dest with
    | none => some code
    | some d => some d

/-- Modelled from the spec: `stat_cache_value_get` returns the record of the path, and
nothing (NULL) when the path has no record or when freshness counts and the
children-updated timestamp of the parent is older than the clock minus
`STAT_CACHE_NEGATIVE_TTL`. -/
def stat_cache_value_get (lib : Lib) (c : StatCache) (now : Int) (path : List Char)
    (ignore_freshness : Bool) : Option stat_entry :=
  match tbl_get path c.entries with
  | none => none
  | some v =>
    if !ignore_freshness &&
        decide (stat_cache_read_updated_children c (strip_trailing_slash (lib.path_parent path)).1
          < now - lib.negative_ttl)
    then none else some v

/-- Modelled from the spec: `stat_cache_dir_has_child` is true if a record exists under
the prefix `path/`. -/
def stat_cache_dir_has_child (c : StatCache) (path : List Char) : Bool :=
  c.entries.any (fun e => (path ++ ['/']).isPrefixOf e.1)

/-- The function `getattr_propfind_callback` for one entry of a listing. -/
def getattr_propfind_callback (c : StatCache) (r : List Char × stat × Nat) : StatCache :=
  if r.2.2 = 410 then stat_cache_delete c r.1
  else stat_cache_set c r.1 r.2.1

/-- The behaviour of the environment during one call of `get_stat`. -/
structure StatEnv where
  /-- The environment of the call of `update_directory`, and the monotonic clock. -/
  dir : DavEnv
  /-- Value of `time(NULL)` in `fill_stat_generic`. -/
  time_fill : Int
  /-- The clock that `stat_cache_value_get` compares with in the first lookup. -/
  time_get : Int
  /-- Error code that the first `stat_cache_value_get` sets, if it fails. -/
  get_error : Option Int
  /-- The zero-depth PROPFIND. -/
  zero_depth : Listing
  /-- Error code that `stat_cache_delete` sets after a failed zero-depth PROPFIND, if it
  fails. -/
  delete_error : Option Int
  /-- Error code that `stat_cache_value_get` sets in the lookup after the refresh, if it
  fails. -/
  get_error_after : Option Int
  /-- Error code that `stat_cache_read_updated_children` sets for the parent, if it
  fails. -/
  parent_read_error : Option Int
  /-- Value of `time(NULL)` compared with the timestamp of the parent. -/
  time_parent : Int
deriving DecidableEq, Repr

/-- The function `get_stat_from_cache`: its return value, the error code it sets and the
record `*stbuf`.  `err` is the error that `stat_cache_value_get` sets, if it fails. -/
def get_stat_from_cache (lib : Lib) (c : StatCache) (now : Int) (err : Option Int)
    (path : List Char) (stbuf : stat) (ignore_freshness : Bool) : Int × Option Int × stat :=
  match err with
  | some code => (-1, g_propagate_prefixed_error none (some code), stat_zero)
  | none =>
    match stat_cache_value_get lib c now path ignore_freshness with
    | none =>
      if ignore_freshness then (-1, some ENOENT, stat_zero)
      else (- EKEYEXPIRED, none, stbuf)
    | some response =>
      if response.st.st_mode = 0 then (-1, some ENOENT, response.st)
      else (0, none, response.st)

/-- The zero-depth branch of `get_stat`, from `simple_propfind_with_redirect` to `finish`.
After a failed PROPFIND and a failed `stat_cache_delete` the C code propagates `tmpgerr`,
which is NULL at this point, instead of `subgerr`. -/
def get_stat_zero_depth (lib : Lib) (env : StatEnv) (d : Dav) (path : List Char)
    (stbuf : stat) : Option Int × stat × Dav :=
  let gerr : Option Int := none
  let tmpgerr : Option Int := none
  let c1 := env.zero_depth.responses.foldl getattr_propfind_callback d.cache
  let d1 := { d with cache := c1, calls := d.calls ++
    [DavCall.propfind path none PROPFIND_DEPTH_ZERO] }
  if env.zero_depth.result < 0 then
    match env.delete_error with
    | some _ => (g_propagate_prefixed_error gerr tmpgerr, stat_zero, d1)
    | none => (some EIO, stat_zero, { d1 with cache := stat_cache_delete d1.cache path })
  else
    match get_stat_from_cache lib d1.cache env.time_get env.get_error_after path stbuf true with
    | (_, subgerr, stbuf1) =>
      match subgerr with
      | some code => (g_propagate_prefixed_error gerr (some code), stat_zero, d1)
      | none => (none, stbuf1, d1)

/-- The block `if (parent_children_update_ts < (time(NULL) - STAT_CACHE_NEGATIVE_TTL))` of
`get_stat`: the error with which `get_stat` fails, if it does, and the state. -/
def get_stat_refresh (cfg : fusedav_config) (lib : Lib) (env : StatEnv) (d : Dav)
    (parent_path : List Char) (parent_children_update_ts : Int) : Option Int × Dav :=
  if parent_children_update_ts < env.time_parent - lib.negative_ttl then
    match update_directory cfg lib env.dir d parent_path
        (decide (parent_children_update_ts > 0)) with
    | (some code, d2) =>
      if code ≠ EIO ∨ cfg.grace = false then (some code, d2)
      else (none, set_saint_mode d2 env.dir.monotonic_set)
    | (none, d2) => (none, d2)
  else (none, d)

/-- The end of `get_stat`, from "Try again to hit the file in the stat cache" on. -/
def get_stat_retry (lib : Lib) (env : StatEnv) (d : Dav) (path : List Char) (stbuf : stat) :
    Option Int × stat × Dav :=
  match get_stat_from_cache lib d.cache env.time_get env.get_error_after path stbuf true with
  | (ret, tmpgerr, stbuf1) =>
    match tmpgerr with
    | some code => (g_propagate_prefixed_error none (some code), stat_zero, d)
    | none => if ret = 0 then (none, stbuf1, d) else (none, stat_zero, d)

/-- The parent-refresh branch of `get_stat`, from `path_parent` to `finish`. -/
def get_stat_parent (cfg : fusedav_config) (lib : Lib) (env : StatEnv) (d : Dav)
    (path : List Char) (stbuf : stat) : Option Int × stat × Dav :=
  let nepp := lib.path_parent path
  let parent_path := (strip_trailing_slash nepp).1
  let parent_children_update_ts := stat_cache_read_updated_children d.cache parent_path
  let d1 := { d with calls := d.calls ++ [DavCall.read_updated_children parent_path] }
  match env.parent_read_error with
  | some code => (g_propagate_prefixed_error none (some code), stat_zero, d1)
  | none =>
    match get_stat_refresh cfg lib env d1 parent_path parent_children_update_ts with
    | (some code, d2) => (g_propagate_prefixed_error none (some code), stat_zero, d2)
    | (none, d2) => get_stat_retry lib env d2 path stbuf

/-- The function `get_stat`: the error code it sets (`none` for no error), the record
`*stbuf` and the new state. -/
def get_stat (cfg : fusedav_config) (lib : Lib) (env : StatEnv) (d : Dav)
    (path : List Char) : Option Int × stat × Dav :=
  let stbuf := stat_zero
  let is_base_directory := decide (path = lib.base_directory)
  if is_base_directory then (none, fill_stat_generic env.time_fill 0 true, d)
  else
    let skip_freshness_check := cfg.grace && use_saint_mode d.last_failure env.dir.monotonic_use
    match get_stat_from_cache lib d.cache env.time_get env.get_error path stbuf
        skip_freshness_check with
    | (ret, tmpgerr, stbuf) =>
      match tmpgerr with
      | some code => (g_propagate_prefixed_error none (some code), stbuf, d)
      | none =>
        if ret = 0 then (none, stbuf, d)
        else if !cfg.refresh_dir_for_file_stat || is_base_directory then
          get_stat_zero_depth lib env d path stbuf
        else get_stat_parent cfg lib env d path stbuf

/-- The string that `path_cvt` returns for a path that is not NULL. -/
def path_cvt_str (lib : Lib) (path : List Char) : List Char :=
  (path_cvt lib (some path)).getD []

/-- The behaviour of the environment during one call of `dav_rmdir`. -/
structure RmdirEnv where
  /-- The environment of `get_stat`. -/
  stat : StatEnv
  /-- Whether `session_request_init` returns a session. -/
  session_ok : Bool
  /-- Whether `curl_easy_perform` returns `CURLE_OK` for the DELETE. -/
  delete_ok : Bool
  /-- Error code that `stat_cache_delete` sets, if it fails. -/
  cache_delete_error : Option Int
  /-- Error code that `stat_cache_updated_children` sets, if it fails. -/
  updated_children_error : Option Int
deriving DecidableEq, Repr

/-- The function `dav_rmdir` for a path that is not NULL: its return value and the new
state. -/
def dav_rmdir (cfg : fusedav_config) (lib : Lib) (env : RmdirEnv) (d : Dav)
    (path : List Char) : Int × Dav :=
  let path := path_cvt_str lib path
  match get_stat cfg lib env.stat d path with
  | (gerr, st, d1) =>
    match gerr with
    | some code => (processed_gerror code, d1)
    | none =>
      if !S_ISDIR st.st_mode then (- ENOTDIR, d1)
      else
        let fn := path ++ ['/']
        let has_child := stat_cache_dir_has_child d1.cache path
        if has_child then (- ENOTEMPTY, d1)
        else if !env.session_ok then (- EIO, d1)
        else
          let d2 := { d1 with calls := d1.calls ++ [DavCall.request "DELETE".toList fn none] }
          if !env.delete_ok then (- ENOENT, d2)
          else
            match env.cache_delete_error with
            | some code => (processed_gerror code, d2)
            | none =>
              let d3 := { d2 with cache := stat_cache_delete d2.cache path }
              match env.updated_children_error with
              | some code => (processed_gerror code, d3)
              | none => (0, { d3 with cache := stat_cache_updated_children d3.cache path 0 })

/-- The behaviour of the environment during one call of `dav_rename`. -/
structure RenameEnv where
  /-- The environment of `get_stat`. -/
  stat : StatEnv
  /-- Whether `session_request_init` returns a session. -/
  session_ok : Bool
  /-- The MOVE: `none` when `curl_easy_perform` returns `CURLE_OK`, else the response
  code that `curl_easy_getinfo` reports. -/
  move : Option Int
  /-- Error code that `stat_cache_value_get` sets, if it fails. -/
  value_get_error : Option Int
  /-- Error code that `stat_cache_value_set` sets, if it fails. -/
  value_set_error : Option Int
  /-- Error code that `stat_cache_delete` sets, if it fails. -/
  delete_error : Option Int
  /-- Error code that `filecache_pdata_move` sets, if it fails. -/
  pdata_move_error : Option Int
deriving DecidableEq, Repr

/-- The local move of `dav_rename`, from `stat_cache_value_get` to the label `finish`:
the value of `local_ret` there, and the state. -/
def dav_rename_local (lib : Lib) (env : RenameEnv) (d : Dav) (src dst : List Char) :
    Int × Dav :=
  match env.value_get_error with
  | some code => (processed_gerror code, d)
  | none =>
    match stat_cache_value_get lib d.cache env.stat.time_get src true with
    | none => (- ENOENT, d)
    | some entry =>
      match env.value_set_error with
      | some code => (processed_gerror code, d)
      | none =>
        let d1 := { d with cache := stat_cache_set d.cache dst entry.st }
        match env.delete_error with
        | some code => (processed_gerror code, d1)
        | none =>
          let d2 := { d1 with cache := stat_cache_delete d1.cache src,
                              calls := d1.calls ++ [DavCall.filecache_pdata_move src dst] }
          match env.pdata_move_error with
          | some code =>
            (processed_gerror code,
              { d2 with calls := d2.calls ++ [DavCall.filecache_delete dst] })
          | none => (0, d2)

/-- The value of `from` in `dav_rename` after `if (S_ISDIR(st.st_mode))`: the path of a
directory with a slash appended. -/
def dav_rename_from (st : stat) (src : List Char) : List Char :=
  if S_ISDIR st.st_mode then src ++ ['/'] else src

/-- The end of `dav_rename`, from the label `finish`. -/
def dav_rename_finish (server_ret local_ret : Int) : Int :=
  if server_ret = 0 ∨ local_ret = 0 then 0 else server_ret

/-- The function `dav_rename` for paths that are not NULL: its return value and the new
state.  The variable `from` of the C code is `src`, `to` is `dst`. -/
def dav_rename (cfg : fusedav_config) (lib : Lib) (env : RenameEnv) (d : Dav)
    (src dst : List Char) : Int × Dav :=
  let server_ret : Int := - EIO
  let local_ret : Int := - EIO
  let src := path_cvt_str lib src
  let dst := path_cvt_str lib dst
  match get_stat cfg lib env.stat d src with
  | (gerr, st, d1) =>
    match gerr with
    | some code => (dav_rename_finish (processed_gerror code) local_ret, d1)
    | none =>
      let src := dav_rename_from st src
      if !env.session_ok then (dav_rename_finish server_ret local_ret, d1)
      else
        let d2 := { d1 with calls := d1.calls ++
          [DavCall.request "MOVE".toList src (some dst)] }
        match env.move with
        | some response_code =>
          if response_code = 404 ∨ response_code = 500 then
            match dav_rename_local lib env d2 src dst with
            | (local_ret, d3) => (dav_rename_finish server_ret local_ret, d3)
          else (dav_rename_finish server_ret local_ret, d2)
        | none =>
          match dav_rename_local lib env d2 src dst with
          | (local_ret, d3) => (dav_rename_finish 0 local_ret, d3)

/-- The block of `do_open` that chooses the grace level passed to `filecache_open`. -/
def do_open_grace_level (cfg : fusedav_config) (last_failure now_sec : Int) : Nat :=
  if cfg.grace then
    if use_saint_mode last_failure now_sec then 2 else 1
  else 0

/-- Whether a recorded call is a request to the server other than a PROPFIND. -/
def is_request : DavCall → Bool
  | DavCall.request _ _ _ => true
  | _ => false

/-- The trace `b` is the trace `a` followed by calls none of which is a request. -/
def no_request_added (a b : List DavCall) : Prop :=
  ∃ rest, b = a ++ rest ∧ ∀ c ∈ rest, is_request c = false

/-- The children-updated table `b` is the table `a`, or `a` with a timestamp written for
the directory `dir`. -/
def only_timestamp_of (dir : List Char) (a b : List (List Char × Int)) : Prop :=
  b = a ∨ ∃ ts, b = tbl_put dir ts a

/-! ## Further concrete worlds and environments -/

/-- A world with one body file of time 5 that no entry names, and one key outside the
file cache. -/
def ex_orphan_world : World :=
  { kv := [("st:/a".toList, ⟨[], [], 0⟩)], stat := [],
    names := [("/c/files/fusedav-cache-orphan".toList, 0)], inodes := [⟨[1], 5⟩], fds := [],
    requests := [], errno := 0 }

/-- A world in which the entries of "/a" (revalidated at 100000) and "/b" (revalidated at 1)
name the same body file. -/
def ex_shared_world : World :=
  { kv := [("fc:/a".toList, ⟨ex_old_name, [], 100000⟩), ("fc:/b".toList, ⟨ex_old_name, [], 1⟩)],
    stat := [], names := [(ex_old_name, 0)], inodes := [⟨[7], 90⟩], fds := [],
    requests := [], errno := 0 }

/-- The clock reads 5. -/
def ex_env_5 : Env := { ex_env with now := 5 }

/-- The clock reads 700000. -/
def ex_env_700000 : Env := { ex_env with now := 700000 }

/-- The clock reads 691290, which is 691200 seconds after time 90. -/
def ex_env_691290 : Env := { ex_env with now := 691290 }

/-- The clock reads 691291. -/
def ex_env_691291 : Env := { ex_env with now := 691291 }

/-- Stat data of a regular file. -/
def ex_st : stat :=
  { st_mode := 33200, st_nlink := 1, st_size := 0, st_atime := 0, st_mtime := 0, st_ctime := 0,
    st_blksize := 0, st_blocks := 0, st_uid := 0, st_gid := 0 }

/-- A parent function for the examples: the path up to and including its last slash. -/
def ex_path_parent (p : List Char) : List Char :=
  (p.reverse.dropWhile (fun c => c ≠ '/')).reverse

/-- Helper functions that change nothing: the base directory is "/", escaping and
unescaping are the identity, pruning removes no record. -/
def ex_lib : Lib :=
  { base_directory := "/".toList, path_escape := fun p => p, unescape := fun p => p,
    prune := fun e => e, negative_ttl := 2, path_parent := ex_path_parent }

/-- A configuration with progressive PROPFIND and grace enabled. -/
def ex_cfg : fusedav_config :=
  { progressive_propfind := true, refresh_dir_for_file_stat := false, grace := true }

/-- A configuration with progressive PROPFIND enabled and grace disabled. -/
def ex_cfg_no_grace : fusedav_config :=
  { progressive_propfind := true, refresh_dir_for_file_stat := false, grace := false }

/-- An environment in which both listings succeed; the windowed one reports "/d/y", the
complete one "/d/z".  The monotonic clock reads 55 in `use_saint_mode`. -/
def ex_dav_env : DavEnv :=
  { time_enumerate := 1000, time_progressive := 1001, time_complete := 1002,
    monotonic_use := 55, monotonic_set := 56, read_updated_error := none,
    progressive := ⟨0, [("/d/y".toList, ex_st, 200)]⟩,
    complete := ⟨0, [("/d/z".toList, ex_st, 200)]⟩,
    inject_0 := false, inject_1 := false, delete_older_error := none,
    updated_children_error := none }

/-- An environment in which both listings fail with -5. -/
def ex_dav_env_fail : DavEnv :=
  { ex_dav_env with progressive := ⟨-5, []⟩, complete := ⟨-5, []⟩ }

/-- An environment in which both listings fail with -5 and the monotonic clock reads 100 in
`use_saint_mode`. -/
def ex_dav_env_fail_late : DavEnv :=
  { ex_dav_env_fail with monotonic_use := 100 }

/-- An environment in which the windowed listing returns `-ESTALE` and the complete listing
succeeds. -/
def ex_dav_env_stale : DavEnv :=
  { ex_dav_env with progressive := ⟨-116, []⟩ }

/-- A state whose stat cache holds the child "/d/x" of "/d", last listed at time 900, with
`last_failure = 50`. -/
def ex_dav : Dav :=
  { cache := { entries := [("/d/x".toList, ⟨ex_st, 3⟩)],
               updated_children := [("/d".toList, 900)], generation := 7 },
    last_failure := 50, calls := [] }

/-- A state with an empty stat cache and `last_failure = 50`. -/
def ex_dav_empty : Dav :=
  { cache := { entries := [], updated_children := [], generation := 0 },
    last_failure := 50, calls := [] }

/-- Helper functions with the base directory "/b". -/
def ex_lib_b : Lib := { ex_lib with base_directory := "/b".toList }

/-- Stat data of a directory. -/
def ex_st_dir : stat := fill_stat_generic 0 0 true

/-- An environment of `get_stat` in which nothing fails and the zero-depth PROPFIND
reports the regular file "/f". -/
def ex_stat_env : StatEnv :=
  { dir := ex_dav_env, time_fill := 1000, time_get := 1000, get_error := none,
    zero_depth := ⟨0, [("/f".toList, ex_st, 200)]⟩, delete_error := none,
    get_error_after := none, parent_read_error := none, time_parent := 1000 }

/-- An environment of `get_stat` in which the zero-depth PROPFIND fails and the
`stat_cache_delete` that follows fails with error 5. -/
def ex_stat_env_fail : StatEnv :=
  { ex_stat_env with zero_depth := ⟨-1, []⟩, delete_error := some 5 }

/-- A state whose stat cache holds the regular file "/a" and the directory "/d" with its
child "/d/x"; `last_failure = 50`. -/
def ex_dav_files : Dav :=
  { cache := { entries := [("/a".toList, ⟨ex_st, 1⟩), ("/d".toList, ⟨ex_st_dir, 2⟩),
                           ("/d/x".toList, ⟨ex_st, 3⟩)],
               updated_children := [("/".toList, 999), ("/d".toList, 900)], generation := 7 },
    last_failure := 50, calls := [] }

/-- An environment of `dav_rmdir` in which nothing fails. -/
def ex_rmdir_env : RmdirEnv :=
  { stat := ex_stat_env, session_ok := true, delete_ok := true, cache_delete_error := none,
    updated_children_error := none }

/-- An environment of `dav_rename` in which nothing fails. -/
def ex_rename_env : RenameEnv :=
  { stat := ex_stat_env, session_ok := true, move := none, value_get_error := none,
    value_set_error := none, delete_error := none, pdata_move_error := none }

/-- An environment of `dav_rename` in which the MOVE fails with response code 404 and
nothing else fails. -/
def ex_rename_env_404 : RenameEnv := { ex_rename_env with move := some 404 }

/-- A configuration in which `get_stat` refreshes the parent directory, with progressive
PROPFIND enabled and grace disabled. -/
def ex_cfg_refresh : fusedav_config :=
  { progressive_propfind := true, refresh_dir_for_file_stat := true, grace := false }

/-- A state whose stat cache holds the directory "/p/d" with its child "/p/d/x" and the
regular file "/p/old"; the directory "/p" was last listed at time 900. -/
def ex_dav_nested : Dav :=
  { cache := { entries := [("/p/d".toList, ⟨ex_st_dir, 2⟩), ("/p/d/x".toList, ⟨ex_st, 3⟩),
                           ("/p/old".toList, ⟨ex_st, 1⟩)],
               updated_children := [("/p".toList, 900)], generation := 7 },
    last_failure := 50, calls := [] }

/-- An environment of `get_stat` in which the windowed listing succeeds and reports that
"/p/old" is gone (status 410). -/
def ex_stat_env_gone : StatEnv :=
  { ex_stat_env with
    dir := { ex_dav_env with progressive := ⟨0, [("/p/old".toList, ex_st, 410)]⟩ } }

/-- An environment of `dav_rmdir` in which nothing fails and the windowed listing reports
that "/p/old" is gone. -/
def ex_rmdir_env_gone : RmdirEnv := { ex_rmdir_env with stat := ex_stat_env_gone }

/-- An environment of `dav_rename` in which the MOVE succeeds and the `stat_cache_value_set`
of the local move fails with error 5. -/
def ex_rename_env_set_fails : RenameEnv := { ex_rename_env with value_set_error := some 5 }

/-- An environment in which the first answer to the GET is a 200 after which
`ne_end_request` asks for a retry, and the second answer is a 200; `mkstemp` yields
"abc123" in the first turn and "def456" in the second. -/
def ex_env_retry : Env :=
  { ex_env with
    get_exchange := Exchange.retry ⟨200, some "E1".toList, [1]⟩ (some "def456".toList)
      (Exchange.final ⟨200, some "E2".toList, [2, 3]⟩) }

/-! ## Lemmas -/

set_option maxRecDepth 100000

/-- A deleted key is absent. -/
theorem tbl_get_del_self {α β : Type} [DecidableEq α] (k : α) (t : List (α × β)) :
    tbl_get k (tbl_del k t) = none := by
  induction t with
  | nil => rfl
  | cons e rest ih =>
    obtain ⟨a, b⟩ := e
    by_cases h : a = k
    · simp [tbl_del, List.filter, h] at ih ⊢
      exact ih
    · simp [tbl_del, List.filter, h, tbl_get] at ih ⊢
      exact ih

/-- Deleting a key leaves the other keys as they were. -/
theorem tbl_get_del_ne {α β : Type} [DecidableEq α] {k k' : α} (h : k' ≠ k) (t : List (α × β)) :
    tbl_get k' (tbl_del k t) = tbl_get k' t := by
  induction t with
  | nil => rfl
  | cons e rest ih =>
    obtain ⟨a, b⟩ := e
    by_cases h1 : a = k
    · have h2 : a ≠ k' := fun h3 => h (h3 ▸ h1)
      simp [tbl_del, List.filter, h1, tbl_get] at ih ⊢
      rw [ih]
      have h4 : ¬ k = k' := fun h5 => h h5.symm
      simp [h4]
    · simp [tbl_del, List.filter, h1, tbl_get] at ih ⊢
      rw [ih]

/-- A key holds the value last bound to it. -/
theorem tbl_get_put_self {α β : Type} [DecidableEq α] (k : α) (v : β) (t : List (α × β)) :
    tbl_get k (tbl_put k v t) = some v := by
  simp [tbl_put, tbl_get]

/-- Binding a key leaves the other keys as they were. -/
theorem tbl_get_put_ne {α β : Type} [DecidableEq α] {k k' : α} (h : k' ≠ k) (v : β)
    (t : List (α × β)) : tbl_get k' (tbl_put k v t) = tbl_get k' t := by
  have h4 : ¬ k = k' := fun h5 => h h5.symm
  simp [tbl_put, tbl_get, h4, tbl_get_del_ne h]

/-- The pattern of `new_cache_file` with its six `X` replaced is `cache_file_name`. -/
theorem template_take (cache_path suffix : List Char) :
    (cache_path ++ "/files/fusedav-cache-XXXXXX".toList).take
      ((cache_path ++ "/files/fusedav-cache-XXXXXX".toList).length - 6) ++ suffix
    = cache_file_name cache_path suffix := by
  have h : "/files/fusedav-cache-XXXXXX".toList
      = "/files/fusedav-cache-".toList ++ "XXXXXX".toList := by decide
  rw [h, ← List.append_assoc]
  have hl : (cache_path ++ "/files/fusedav-cache-".toList ++ "XXXXXX".toList).length - 6
      = (cache_path ++ "/files/fusedav-cache-".toList).length := by
    simp
  rw [hl, List.take_left']
  · rfl
  · rfl

/-- What `new_cache_file` does when `mkstemp` picks a name that is not taken. -/
theorem new_cache_file_ok (env : Env) (w : World) (cache_path suffix : List Char)
    (hsuf : env.mkstemp_suffix = some suffix) (hlen : suffix.length = 6)
    (hnew : tbl_get (cache_file_name cache_path suffix) w.names = none) :
    new_cache_file env w cache_path =
      (0, cache_file_name cache_path suffix, (w.fds.length : Int),
        world_with_new_file env.now w (cache_file_name cache_path suffix)) := by
  unfold new_cache_file posix_mkstemp
  simp only [hsuf, template_take, hnew, hlen]
  simp [world_with_new_file]

/-- With a valid descriptor the end of `ldb_filecache_open` hands the session out. -/
theorem ldb_filecache_open_finish_ok (flags : Nat) (ret : Int) (sdata : ldb_filecache_sdata)
    (w : World) (h : 0 ≤ sdata.fd) :
    ldb_filecache_open_finish flags ret sdata w =
      (0, some { fd := sdata.fd,
                 readable := sdata.readable || (has_flag flags O_RDONLY || has_flag flags O_RDWR),
                 writable := sdata.writable || (has_flag flags O_WRONLY || has_flag flags O_RDWR),
                 modified := sdata.modified }, w) := by
  unfold ldb_filecache_open_finish
  cases h1 : (has_flag flags O_RDONLY || has_flag flags O_RDWR) <;>
  cases h2 : (has_flag flags O_WRONLY || has_flag flags O_RDWR) <;>
  simp [h]

/-- The flags passed to `open` in the reuse branch have `O_TRUNC` off. -/
theorem land_not_trunc_trunc (flags : Nat) : has_flag (flags &&& NOT_O_TRUNC) O_TRUNC = false := by
  have h : NOT_O_TRUNC &&& O_TRUNC = 0 := by decide
  simp [has_flag, Nat.land_assoc, h]

/-- Masking `O_TRUNC` out keeps the access mode. -/
theorem file_writable_not_trunc (flags : Nat) :
    file_writable (flags &&& NOT_O_TRUNC) = file_writable flags := by
  have h : NOT_O_TRUNC &&& O_ACCMODE = O_ACCMODE := by decide
  simp [file_writable, Nat.land_assoc, h]

/-- The reuse test for a path that has an entry. -/
theorem usable_as_is_some (env : Env) (p : ldb_filecache_pdata) (flags : Nat) :
    usable_as_is env (some p) flags = true ↔
      (has_flag flags O_TRUNC = true ∨ env.now - p.last_server_update ≤ 3) := by
  simp [usable_as_is, REFRESH_INTERVAL]

/-- The reuse branch of `ldb_get_fresh_fd` when the body file exists. -/
theorem fresh_fd_reuse (env : Env) (w : World) (cache_path path : List Char)
    (p : ldb_filecache_pdata) (flags ino : Nat)
    (hname : tbl_get p.filename w.names = some ino)
    (hcond : usable_as_is env (some p) flags = true) :
    ldb_get_fresh_fd env w cache_path path (some p) flags =
      ((w.fds.length : Int),
        if has_flag flags O_TRUNC then
          (posix_ftruncate env.now (world_with_fd w ino (flags &&& NOT_O_TRUNC)) (w.fds.length : Int) 0).2
        else world_with_fd w ino (flags &&& NOT_O_TRUNC)) := by
  unfold ldb_get_fresh_fd
  simp only [hcond, posix_open, hname, land_not_trunc_trunc, Bool.false_and]
  cases h : has_flag flags O_TRUNC <;> simp [world_with_fd]

/-- Outside the reuse branch `ldb_get_fresh_fd` is its GET loop. -/
theorem fresh_fd_get (env : Env) (w : World) (cache_path path : List Char)
    (pdata : Option ldb_filecache_pdata) (flags : Nat)
    (hcond : usable_as_is env pdata flags = false) :
    ldb_get_fresh_fd env w cache_path path pdata flags =
      ldb_get_fresh_fd_loop env cache_path path flags
        (Request.GET path (pdata.map (fun p => p.etag))) env.get_exchange (- EBADFD) pdata w := by
  unfold ldb_get_fresh_fd
  cases pdata <;> simp [hcond]

/-- Writing an entry sends nothing. -/
theorem pdata_set_requests (env : Env) (w : World) (path : List Char)
    (pd : Option ldb_filecache_pdata) :
    (ldb_filecache_pdata_set env w path pd).2.requests = w.requests := by
  unfold ldb_filecache_pdata_set
  cases pd with
  | none => rfl
  | some p => cases env.put_err <;> rfl

/-- The call `open` sends nothing. -/
theorem posix_open_requests (now : Int) (w : World) (name : List Char) (flags : Nat) :
    (posix_open now w name flags).2.requests = w.requests := by
  unfold posix_open
  cases tbl_get name w.names with
  | none => cases has_flag flags O_CREAT <;> rfl
  | some ino => rfl

/-- The call `unlink` sends nothing. -/
theorem posix_unlink_requests (w : World) (name : List Char) :
    (posix_unlink w name).2.requests = w.requests := by
  unfold posix_unlink
  cases tbl_get name w.names <;> rfl

/-- The call `pwrite` sends nothing. -/
theorem posix_pwrite_requests (now : Int) (w : World) (fd : Int) (buf : List Nat)
    (size offset : Nat) : (posix_pwrite now w fd buf size offset).2.requests = w.requests := by
  unfold posix_pwrite
  repeat' split
  all_goals first | rfl | (dsimp only; split_ifs <;> rfl)

/-- Creating a cache file sends nothing. -/
theorem new_cache_file_requests (env : Env) (w : World) (cache_path : List Char) :
    (new_cache_file env w cache_path).2.2.2.requests = w.requests := by
  unfold new_cache_file posix_mkstemp
  repeat' split
  all_goals first | rfl | (dsimp only; split_ifs <;> rfl)

/-- Handling an answer sends nothing. -/
theorem on_status_requests (env : Env) (cache_path path : List Char) (flags : Nat)
    (r : Response) (ret_fd : Int) (pdata : Option ldb_filecache_pdata) (w : World) :
    (ldb_get_fresh_fd_on_status env cache_path path flags r ret_fd pdata w).2.2.2.requests
      = w.requests := by
  unfold ldb_get_fresh_fd_on_status
  by_cases h304 : r.code = 304
  · simp only [h304, ↓reduceIte]
    cases pdata with
    | none => rfl
    | some p => simp [posix_open_requests, pdata_set_requests]
  · by_cases h200 : r.code = 200
    · rw [if_neg h304, if_pos h200]
      have hn := new_cache_file_requests env w cache_path
      rcases hr : new_cache_file env w cache_path with ⟨rc, name, fd, w1⟩
      rw [hr] at hn
      simp only at hn ⊢
      split_ifs
      · exact hn
      · cases pdata <;> dsimp only [Option.map] <;>
          simp [pdata_set_requests, posix_unlink_requests, ne_read_response_to_fd,
            posix_pwrite_requests, hn]
    · by_cases h404 : r.code = 404
      · simp [h304, h200, h404]
      · simp [h304, h200, h404]

/-- The GET loop adds one or more copies of its request to the trace, and nothing else. -/
theorem loop_requests (env : Env) (cache_path path : List Char) (flags : Nat) (req : Request)
    (ex : Exchange) (ret_fd : Int) (pdata : Option ldb_filecache_pdata) (w : World) :
    ∃ n, (ldb_get_fresh_fd_loop env cache_path path flags req ex ret_fd pdata w).2.requests
      = w.requests ++ List.replicate (n + 1) req := by
  induction ex generalizing env ret_fd pdata w with
  | begin_failed => exact ⟨0, rfl⟩
  | final r =>
    refine ⟨0, ?_⟩
    unfold ldb_get_fresh_fd_loop
    have h := on_status_requests env cache_path path flags r ret_fd pdata
      { w with requests := w.requests ++ [req] }
    rcases hs : ldb_get_fresh_fd_on_status env cache_path path flags r ret_fd pdata
      { w with requests := w.requests ++ [req] } with ⟨a, fd, pd, w1⟩
    rw [hs] at h
    simpa using h
  | retry r suffix next ih =>
    unfold ldb_get_fresh_fd_loop
    have h := on_status_requests env cache_path path flags r ret_fd pdata
      { w with requests := w.requests ++ [req] }
    rcases hs : ldb_get_fresh_fd_on_status env cache_path path flags r ret_fd pdata
      { w with requests := w.requests ++ [req] } with ⟨a, fd, pd, w1⟩
    rw [hs] at h
    simp only at h
    cases a with
    | true => exact ⟨0, by simpa using h⟩
    | false =>
      obtain ⟨n, hn⟩ := ih { env with mkstemp_suffix := suffix } fd pd w1
      refine ⟨n + 1, ?_⟩
      simp only [hn, h]
      simp [List.replicate_succ]

/-- The call `ftruncate` touches neither the trace, the descriptors, the names nor leveldb. -/
theorem posix_ftruncate_frame (now : Int) (w : World) (fd : Int) (len : Nat) :
    (posix_ftruncate now w fd len).2.requests = w.requests ∧
    (posix_ftruncate now w fd len).2.fds = w.fds ∧
    (posix_ftruncate now w fd len).2.names = w.names ∧
    (posix_ftruncate now w fd len).2.kv = w.kv := by
  unfold posix_ftruncate
  repeat' split
  all_goals exact ⟨rfl, rfl, rfl, rfl⟩

/-- The descriptor just added to the table is found under the old table length. -/
theorem fd_lookup_new (w : World) (f : OpenFile) :
    fd_lookup { w with fds := w.fds ++ [f] } (w.fds.length : Int) = some f := by
  have hn : ¬ ((w.fds.length : Int) < 0) := by omega
  simp [fd_lookup, hn]

/-- Cutting to length zero gives the empty body. -/
theorem set_len_zero (c : List Nat) : set_len 0 c = [] := by
  simp [set_len]

/-- The call `ftruncate(fd, 0)` on a fresh writable descriptor empties its file. -/
theorem ftruncate_new_fd (now : Int) (w : World) (ino flags : Nat) (i : Inode)
    (hino : w.inodes[ino]? = some i) (hw : file_writable flags = true) :
    (posix_ftruncate now (world_with_fd w ino flags) (w.fds.length : Int) 0).2 =
      { world_with_fd w ino flags with inodes := inode_write now ino [] w.inodes } := by
  unfold posix_ftruncate world_with_fd
  rw [fd_lookup_new]
  simp [hw, hino, set_len_zero]

/-- Reading an answer into the fresh cache file gives the file the body of the answer. -/
theorem ne_read_response_new (now : Int) (w : World) (name : List Char) (body : List Nat) :
    ne_read_response_to_fd now (world_with_new_file now w name) (w.fds.length : Int) body =
      { world_with_new_file now w name with inodes := w.inodes ++ [⟨body, now⟩] } := by
  unfold ne_read_response_to_fd posix_pwrite
  have hl : fd_lookup (world_with_new_file now w name) (w.fds.length : Int)
      = some ⟨w.inodes.length, O_RDWR⟩ := fd_lookup_new w _
  rw [hl]
  have hw : file_writable O_RDWR = true := by decide
  simp only [hw, ↓reduceIte]
  have hi : (world_with_new_file now w name).inodes[w.inodes.length]? = some ⟨[], now⟩ := by
    simp [world_with_new_file]
  rw [hi]
  by_cases hb : body = []
  · simp [hb, world_with_new_file]
  · simp [hb, world_with_new_file, inode_write, set_len]

/-- The whole effect of `ldb_get_fresh_fd` for a stale entry and a final 200 answer. -/
theorem fresh_fd_200 (env : Env) (w : World) (cache_path path suffix : List Char)
    (p : ldb_filecache_pdata) (flags ino : Nat) (r : Response)
    (hstale : usable_as_is env (some p) flags = false)
    (hex : env.get_exchange = .final r) (hcode : r.code = 200)
    (hsuf : env.mkstemp_suffix = some suffix) (hlen : suffix.length = 6)
    (hnew : tbl_get (cache_file_name cache_path suffix) w.names = none)
    (hput : env.put_err = false)
    (hold : tbl_get p.filename w.names = some ino) :
    ldb_get_fresh_fd env w cache_path path (some p) flags =
      ((w.fds.length : Int),
        { kv := tbl_put (path2key path)
            { filename := cache_file_name cache_path suffix,
              etag := etag_of_response r, last_server_update := env.now } w.kv,
          stat := w.stat,
          names := tbl_del p.filename
            (tbl_put (cache_file_name cache_path suffix) w.inodes.length w.names),
          inodes := w.inodes ++ [⟨r.body, env.now⟩],
          fds := w.fds ++ [⟨w.inodes.length, O_RDWR⟩],
          requests := w.requests ++ [Request.GET path (some p.etag)],
          errno := w.errno }) := by
  have hne : p.filename ≠ cache_file_name cache_path suffix := by
    intro h
    rw [h, hnew] at hold
    cases hold
  rw [fresh_fd_get env w cache_path path (some p) flags hstale, hex]
  unfold ldb_get_fresh_fd_loop ldb_get_fresh_fd_on_status
  have h304 : ¬ r.code = 304 := by omega
  rw [if_neg h304, if_pos hcode]
  have hnf := new_cache_file_ok env { w with requests := w.requests ++ [Request.GET path (some p.etag)] }
    cache_path suffix hsuf hlen hnew
  simp only [Option.map] at hnf ⊢
  rw [hnf]
  have h0 : ¬ ((0 : Int) < 0) := by omega
  simp only [h0, ↓reduceIte]
  have hrd := ne_read_response_new env.now
    { w with requests := w.requests ++ [Request.GET path (some p.etag)] }
    (cache_file_name cache_path suffix) r.body
  simp only at hrd
  rw [hrd]
  simp only [ldb_filecache_pdata_set, hput, posix_unlink, world_with_new_file]
  simp only [Bool.false_eq_true, ↓reduceIte, tbl_get_put_ne hne, hold]
  cases hr : r.etag <;> simp [etag_of_response, hr]

/-- The result of `ldb_filecache_open` when the GET is answered by a status that is
neither 200 nor 304. -/
theorem open_get_final (env : Env) (w : World) (cache_path path : List Char) (flags : Nat)
    (r : Response)
    (hsess : env.session_ok = true)
    (hcreat : has_flag flags O_CREAT = false) (htrunc : has_flag flags O_TRUNC = false)
    (hstale : usable_as_is env (ldb_filecache_pdata_get env w path) flags = false)
    (hex : env.get_exchange = .final r) (h200 : r.code ≠ 200) (h304 : r.code ≠ 304) :
    ldb_filecache_open env w cache_path path flags =
      (if r.code = 404 then - ENOENT else - EBADFD, none,
        { w with requests := w.requests ++
          [Request.GET path ((ldb_filecache_pdata_get env w path).map (fun p => p.etag))] }) := by
  unfold ldb_filecache_open
  simp only [hsess, hcreat, htrunc, Bool.not_true, Bool.false_eq_true, ↓reduceIte, Bool.false_and,
    Bool.or_self]
  rw [fresh_fd_get env w cache_path path _ flags hstale, hex]
  unfold ldb_get_fresh_fd_loop ldb_get_fresh_fd_on_status
  rw [if_neg h304, if_neg h200]
  by_cases h404 : r.code = 404
  · simp [h404, ENOENT]
  · simp [h404, EBADFD]

/-- A descriptor that has a body is open. -/
theorem fd_lookup_of_content {w : World} {fd : Int} {body : List Nat}
    (h : fd_content w fd = some body) : ∃ f, fd_lookup w fd = some f := by
  unfold fd_content at h
  cases hf : fd_lookup w fd with
  | none => rw [hf] at h; cases h
  | some f => exact ⟨f, rfl⟩

/-- The result of `ldb_filecache_sync` when the PUT does not succeed. -/
theorem sync_put_failed (env : Env) (w : World) (path : List Char)
    (sdata : ldb_filecache_sdata) (body : List Nat)
    (hw : sdata.writable = true) (hm : sdata.modified = true)
    (hfd : fd_content w sdata.fd = some body) (hsess : env.session_ok = true)
    (hfail : put_succeeds env.put_dispatch = false) :
    ldb_filecache_sync env w path sdata true =
      (-1, { w with requests := w.requests ++ [Request.PUT path body], errno := ENOENT }, sdata) := by
  obtain ⟨f, hf⟩ := fd_lookup_of_content hfd
  unfold ldb_filecache_sync
  simp only [hw, hm, Bool.not_true, Bool.false_eq_true, ↓reduceIte, posix_lseek_set, hf, hsess,
    ne_put_return_etag, hfd]
  cases hd : env.put_dispatch with
  | failed k =>
    have hk : ¬ ((k : Int) + 1 = 0) := by
      intro hk0
      omega
    simp [NE_OK, hk]
  | answered r =>
    rw [hd] at hfail
    have hk : ¬ r.klass = 2 := by simpa [put_succeeds] using hfail
    simp [hk, NE_OK, NE_ERROR]

/-- After a sync with `do_put` that returned 0 the session is not writable or not modified. -/
theorem sync_ok_state (env : Env) (w w1 : World) (path : List Char)
    (s s1 : ldb_filecache_sdata)
    (h : ldb_filecache_sync env w path s true = (0, w1, s1)) :
    s1.writable = false ∨ s1.modified = false := by
  unfold ldb_filecache_sync at h
  cases hw : s.writable with
  | false =>
    simp only [hw, Bool.not_false, ↓reduceIte, Prod.mk.injEq, true_and] at h
    left; rw [← h.2]; exact hw
  | true =>
    cases hm : s.modified with
    | false =>
      simp only [hw, hm, Bool.not_true, Bool.not_false, Bool.false_eq_true, ↓reduceIte,
        Prod.mk.injEq, true_and] at h
      right; rw [← h.2]; exact hm
    | true =>
      right
      simp only [hw, hm, Bool.not_true, Bool.false_eq_true, ↓reduceIte] at h
      split at h
      · simp at h
      · split at h
        · simp at h
        · split at h
          · simp at h
          · simp only [ldb_filecache_sync_finish, Prod.mk.injEq, true_and] at h
            rw [← h.2]

/-! ## The claims -/

/-- C1. A call of `ldb_filecache_open` whose flags contain `O_CREAT`, or contain `O_TRUNC`
while the path has no file entry, takes the create branch.  When the environment lets it
through (a session is available, `mkstemp` gives a name that is not taken, leveldb accepts
the write) the call returns 0 and: the body file `cache_path/files/fusedav-cache-<suffix>`
exists and is empty, the entry of the path holds that file name, an empty entity-tag and
`last_server_update = now`, the session handed out is modified and writable and its
descriptor is open on the new body, and no request was sent to the server. -/
theorem C1_open_create_branch (env : Env) (w : World) (cache_path path suffix : List Char) (flags : Nat)
    (hflags : has_flag flags O_CREAT = true ∨
      (has_flag flags O_TRUNC = true ∧ tbl_get (path2key path) w.kv = none))
    (hsess : env.session_ok = true)
    (hsuf : env.mkstemp_suffix = some suffix) (hlen : suffix.length = 6)
    (hnew : tbl_get (cache_file_name cache_path suffix) w.names = none)
    (hput : env.put_err = false) :
    (ldb_filecache_open env w cache_path path flags).1 = 0 ∧
    (∃ s, (ldb_filecache_open env w cache_path path flags).2.1 = some s ∧
      s.modified = true ∧ s.writable = true ∧
      fd_content (ldb_filecache_open env w cache_path path flags).2.2 s.fd = some []) ∧
    file_content (ldb_filecache_open env w cache_path path flags).2.2
      (cache_file_name cache_path suffix) = some [] ∧
    tbl_get (path2key path) (ldb_filecache_open env w cache_path path flags).2.2.kv =
      some { filename := cache_file_name cache_path suffix, etag := [],
             last_server_update := env.now } ∧
    (ldb_filecache_open env w cache_path path flags).2.2.requests = w.requests := by
  have hcond : (has_flag flags O_CREAT ||
      (has_flag flags O_TRUNC && (ldb_filecache_pdata_get env w path).isNone)) = true := by
    rcases hflags with h | ⟨h1, h2⟩
    · simp [h]
    · simp [h1, ldb_filecache_pdata_get, h2]
  have hopen : ldb_filecache_open env w cache_path path flags =
      ldb_filecache_open_finish flags 0
        { fd := (w.fds.length : Int), readable := false, writable := true, modified := true }
        { world_with_new_file env.now w (cache_file_name cache_path suffix) with
          stat := tbl_put path (synth_stat env 0) w.stat,
          kv := tbl_put (path2key path)
            { filename := cache_file_name cache_path suffix, etag := [],
              last_server_update := env.now } w.kv } := by
    unfold ldb_filecache_open
    simp only [hsess, hcond, create_file, new_cache_file_ok env w cache_path suffix hsuf hlen hnew,
      ldb_filecache_pdata_set, hput, stat_cache_value_set]
    simp [world_with_new_file]
  have hfd : (0 : Int) ≤ (w.fds.length : Int) := by omega
  rw [hopen, ldb_filecache_open_finish_ok _ _ _ _ hfd]
  refine ⟨rfl, ⟨_, rfl, rfl, rfl, ?_⟩, ?_, ?_, ?_⟩
  · have hn : ¬ ((w.fds.length : Int) < 0) := by omega
    simp [fd_content, fd_lookup, world_with_new_file, hn]
  · simp [file_content, world_with_new_file, tbl_get_put_self]
  · simp [tbl_get_put_self]
  · simp [world_with_new_file]

/-- C1, witness: creating "/a" in the empty world. -/
theorem C1_open_create_branch_witness :
    has_flag 66 O_CREAT = true ∧
    (ldb_filecache_open ex_env ex_empty "/c".toList "/a".toList 66).1 = 0 ∧
    tbl_get (path2key "/a".toList)
      (ldb_filecache_open ex_env ex_empty "/c".toList "/a".toList 66).2.2.kv =
      some { filename := cache_file_name "/c".toList "abc123".toList, etag := [],
             last_server_update := 100 } :=
  ⟨by decide,
    (C1_open_create_branch ex_env ex_empty "/c".toList "/a".toList "abc123".toList 66
      (Or.inl (by decide)) rfl rfl (by decide) (by decide) rfl).1,
    (C1_open_create_branch ex_env ex_empty "/c".toList "/a".toList "abc123".toList 66
      (Or.inl (by decide)) rfl rfl (by decide) (by decide) rfl).2.2.2.1⟩

/-- C2 (amended). For a path whose entry `p` names an existing body file,
`ldb_get_fresh_fd` sends no request and returns a descriptor on that body file if and only
if `O_TRUNC` is set or `now - last_server_update <= 3`.  When `O_TRUNC` is set and the access
mode of the flags permits writing, the body file is empty afterwards. -/
theorem C2_reuse_without_get (env : Env) (w : World) (cache_path path : List Char)
    (p : ldb_filecache_pdata) (flags ino : Nat) (i : Inode)
    (hname : tbl_get p.filename w.names = some ino) (hino : w.inodes[ino]? = some i) :
    (((ldb_get_fresh_fd env w cache_path path (some p) flags).2.requests = w.requests ∧
        fd_lookup (ldb_get_fresh_fd env w cache_path path (some p) flags).2
          (ldb_get_fresh_fd env w cache_path path (some p) flags).1
          = some ⟨ino, flags &&& NOT_O_TRUNC⟩) ↔
      (has_flag flags O_TRUNC = true ∨ env.now - p.last_server_update ≤ 3)) ∧
    (has_flag flags O_TRUNC = true → file_writable flags = true →
      file_content (ldb_get_fresh_fd env w cache_path path (some p) flags).2 p.filename
        = some []) := by
  constructor
  · rw [← usable_as_is_some]
    cases hu : usable_as_is env (some p) flags with
    | true =>
      rw [fresh_fd_reuse env w cache_path path p flags ino hname hu]
      simp only [iff_true]
      cases ht : has_flag flags O_TRUNC with
      | false =>
        simp only [Bool.false_eq_true, ↓reduceIte]
        exact ⟨rfl, fd_lookup_new w _⟩
      | true =>
        simp only [↓reduceIte]
        obtain ⟨h1, h2, -, -⟩ := posix_ftruncate_frame env.now
          (world_with_fd w ino (flags &&& NOT_O_TRUNC)) (w.fds.length : Int) 0
        refine ⟨by rw [h1]; rfl, ?_⟩
        have hn : ¬ ((w.fds.length : Int) < 0) := by omega
        simp only [fd_lookup, hn, ↓reduceIte, Int.toNat_ofNat, h2]
        simp [world_with_fd]
    | false =>
      rw [fresh_fd_get env w cache_path path (some p) flags hu]
      obtain ⟨n, hn⟩ := loop_requests env cache_path path flags
        (Request.GET path (Option.map (fun p => p.etag) (some p))) env.get_exchange (- EBADFD)
        (some p) w
      simp only [Bool.false_eq_true, iff_false, not_and]
      intro h
      rw [hn] at h
      simp at h
  · intro ht hw
    have hu : usable_as_is env (some p) flags = true := (usable_as_is_some env p flags).2 (Or.inl ht)
    rw [fresh_fd_reuse env w cache_path path p flags ino hname hu]
    simp only [ht, ↓reduceIte]
    rw [ftruncate_new_fd env.now w ino _ i hino (by rw [file_writable_not_trunc]; exact hw)]
    have hlt : ino < w.inodes.length := by
      rcases List.getElem?_eq_some_iff.1 hino with ⟨h, -⟩
      exact h
    simp [file_content, world_with_fd, hname, inode_write, hlt]

/-- C2, witness: an entry revalidated exactly three seconds ago is reused without a GET,
and an open with `O_TRUNC | O_RDWR` empties the body file. -/
theorem C2_reuse_without_get_witness :
    (ex_env_93.now - ex_entry.last_server_update = 3 ∧
      (ldb_get_fresh_fd ex_env_93 ex_world "/c".toList "/a".toList (some ex_entry) 0).2.requests
        = ex_world.requests) ∧
    (has_flag 514 O_TRUNC = true ∧ file_writable 514 = true ∧
      file_content (ldb_get_fresh_fd ex_env ex_world "/c".toList "/a".toList (some ex_entry) 514).2
        ex_entry.filename = some []) :=
  ⟨⟨by decide,
      ((C2_reuse_without_get ex_env_93 ex_world "/c".toList "/a".toList ex_entry 0 0 ⟨[7, 8, 9], 90⟩
        (by decide) (by decide)).1.2 (Or.inr (by decide))).1⟩,
    ⟨by decide, by decide,
      (C2_reuse_without_get ex_env ex_world "/c".toList "/a".toList ex_entry 514 0 ⟨[7, 8, 9], 90⟩
        (by decide) (by decide)).2 (by decide) (by decide)⟩⟩

/-- C2, counterexample: an open with `O_TRUNC` and access mode `O_RDONLY` (flags 512) of a
path whose body file holds three bytes sends no GET, and the body file still holds the
three bytes afterwards: `ftruncate` fails on the read-only descriptor. -/
theorem C2_read_only_trunc_counterexample :
    has_flag 512 O_CREAT = false ∧ has_flag 512 O_TRUNC = true ∧
    tbl_get (path2key "/a".toList) ex_world.kv = some ex_entry ∧
    file_content ex_world ex_entry.filename = some [7, 8, 9] ∧
    (ldb_get_fresh_fd ex_env ex_world "/c".toList "/a".toList (some ex_entry) 512).2.requests = [] ∧
    file_content (ldb_get_fresh_fd ex_env ex_world "/c".toList "/a".toList (some ex_entry) 512).2
      ex_entry.filename = some [7, 8, 9] := by
  decide

/-- C3 (amended). When the GET of `ldb_get_fresh_fd` for a path with entry `p` (old body
file present) is answered with 200, and the new cache file and the leveldb write succeed:
the entry of the path names the newly created body file, which differs from the old one,
holds the `ETag` of the answer cut to `ETAG_MAX` characters (empty without the header) and
`last_server_update = now`; the new body file holds the body of the answer; the old body
file name is unlinked; the descriptor returned is open on the new body file. -/
theorem C3_get_200_replaces_body (env : Env) (w : World) (cache_path path suffix : List Char)
    (p : ldb_filecache_pdata) (flags ino : Nat) (r : Response)
    (hstale : usable_as_is env (some p) flags = false)
    (hex : env.get_exchange = .final r) (hcode : r.code = 200)
    (hsuf : env.mkstemp_suffix = some suffix) (hlen : suffix.length = 6)
    (hnew : tbl_get (cache_file_name cache_path suffix) w.names = none)
    (hput : env.put_err = false)
    (hold : tbl_get p.filename w.names = some ino) :
    tbl_get (path2key path) (ldb_get_fresh_fd env w cache_path path (some p) flags).2.kv =
      some { filename := cache_file_name cache_path suffix,
             etag := etag_of_response r, last_server_update := env.now } ∧
    cache_file_name cache_path suffix ≠ p.filename ∧
    file_content (ldb_get_fresh_fd env w cache_path path (some p) flags).2
      (cache_file_name cache_path suffix) = some r.body ∧
    tbl_get p.filename (ldb_get_fresh_fd env w cache_path path (some p) flags).2.names = none ∧
    fd_content (ldb_get_fresh_fd env w cache_path path (some p) flags).2
      (ldb_get_fresh_fd env w cache_path path (some p) flags).1 = some r.body ∧
    (∃ f, fd_lookup (ldb_get_fresh_fd env w cache_path path (some p) flags).2
        (ldb_get_fresh_fd env w cache_path path (some p) flags).1 = some f ∧
      tbl_get (cache_file_name cache_path suffix)
        (ldb_get_fresh_fd env w cache_path path (some p) flags).2.names = some f.ino) := by
  have hne : cache_file_name cache_path suffix ≠ p.filename := by
    intro h
    rw [← h, hnew] at hold
    cases hold
  have hn : ¬ ((w.fds.length : Int) < 0) := by omega
  rw [fresh_fd_200 env w cache_path path suffix p flags ino r hstale hex hcode hsuf hlen hnew
    hput hold]
  refine ⟨tbl_get_put_self _ _ _, hne, ?_, tbl_get_del_self _ _, ?_, ⟨⟨w.inodes.length, O_RDWR⟩, ?_, ?_⟩⟩
  · simp [file_content, tbl_get_del_ne hne, tbl_get_put_self]
  · simp [fd_content, fd_lookup, hn]
  · simp [fd_lookup, hn]
  · simp [tbl_get_del_ne hne, tbl_get_put_self]

/-- C3, witness: the example entry, stale at time 100, refreshed by a 200 answer. -/
theorem C3_get_200_replaces_body_witness :
    usable_as_is ex_env (some ex_entry) 0 = false ∧
    tbl_get (path2key "/a".toList)
      (ldb_get_fresh_fd ex_env ex_world "/c".toList "/a".toList (some ex_entry) 0).2.kv =
      some { filename := "/c/files/fusedav-cache-abc123".toList, etag := "E1".toList,
             last_server_update := 100 } :=
  ⟨by decide, (C3_get_200_replaces_body ex_env ex_world "/c".toList "/a".toList "abc123".toList ex_entry 0 0
    ⟨200, some "E1".toList, [1, 2, 3]⟩ (by decide) rfl rfl rfl (by decide) (by decide) rfl
    (by decide)).1⟩

/-- C3, counterexample: for an answer with an `ETag` of 257 characters the entry holds
only its first 256 characters, not the `ETag` of the answer. -/
theorem C3_long_etag_counterexample :
    usable_as_is ex_env_long_etag (some ex_entry) 0 = false ∧
    ex_env_long_etag.get_exchange = .final ⟨200, some (List.replicate 257 'a'), []⟩ ∧
    (tbl_get (path2key "/a".toList)
      (ldb_get_fresh_fd ex_env_long_etag ex_world "/c".toList "/a".toList (some ex_entry) 0).2.kv).map
        (fun e => e.etag) = some (List.replicate 256 'a') ∧
    List.replicate 256 'a' ≠ List.replicate 257 'a' := by
  decide

/-- C4 (amended). Every GET that `ldb_get_fresh_fd` sends carries `If-None-Match` exactly
when the path has a file entry, and the value is the stored entity-tag, empty or not: the
requests added to the trace are one or more copies of `GET path` with header
`pdata.map etag`. -/
theorem C4_if_none_match_header (env : Env) (w : World) (cache_path path : List Char)
    (pdata : Option ldb_filecache_pdata) (flags : Nat)
    (hget : usable_as_is env pdata flags = false) :
    ∃ n, (ldb_get_fresh_fd env w cache_path path pdata flags).2.requests =
      w.requests ++ List.replicate (n + 1) (Request.GET path (pdata.map (fun p => p.etag))) := by
  rw [fresh_fd_get env w cache_path path pdata flags hget]
  exact loop_requests env cache_path path flags _ env.get_exchange (- EBADFD) pdata w

/-- C4, witness: the stale example entry is revalidated with `If-None-Match: tag`. -/
theorem C4_if_none_match_header_witness :
    usable_as_is ex_env (some ex_entry) 0 = false ∧
    ∃ n, (ldb_get_fresh_fd ex_env ex_world "/c".toList "/a".toList (some ex_entry) 0).2.requests =
      ex_world.requests ++ List.replicate (n + 1) (Request.GET "/a".toList (some "tag".toList)) :=
  ⟨by decide, C4_if_none_match_header ex_env ex_world "/c".toList "/a".toList (some ex_entry) 0 (by decide)⟩

/-- C4, counterexample: for an entry whose entity-tag is empty the GET still carries an
`If-None-Match` header, with the empty value. -/
theorem C4_empty_tag_counterexample :
    ex_entry_no_tag.etag = [] ∧
    (ldb_get_fresh_fd ex_env ex_world "/c".toList "/a".toList (some ex_entry_no_tag) 0).2.requests =
      [Request.GET "/a".toList (some [])] := by
  decide

/-- C5 (amended). When `ldb_filecache_open` issues the GET (no `O_CREAT`, no `O_TRUNC`, no
fresh entry) and the server answers with a status other than 200 and 304, the open fails
with `-ENOENT` for 404 and with `-EBADFD` for every other status, and `info->fh` is null. -/
theorem C5_get_failure_codes (env : Env) (w : World) (cache_path path : List Char) (flags : Nat)
    (r : Response)
    (hsess : env.session_ok = true)
    (hcreat : has_flag flags O_CREAT = false) (htrunc : has_flag flags O_TRUNC = false)
    (hstale : usable_as_is env (ldb_filecache_pdata_get env w path) flags = false)
    (hex : env.get_exchange = .final r) (h200 : r.code ≠ 200) (h304 : r.code ≠ 304) :
    (ldb_filecache_open env w cache_path path flags).1
      = (if r.code = 404 then - ENOENT else - EBADFD) ∧
    (ldb_filecache_open env w cache_path path flags).2.1 = none := by
  rw [open_get_final env w cache_path path flags r hsess hcreat htrunc hstale hex h200 h304]
  exact ⟨rfl, rfl⟩

/-- C5, witness: a 404 answer makes the open of the example file fail with `-ENOENT`. -/
theorem C5_get_failure_codes_witness :
    ex_env_404.get_exchange = .final ⟨404, none, []⟩ ∧
    (ldb_filecache_open ex_env_404 ex_world "/c".toList "/a".toList 0).1 = - ENOENT ∧
    (ldb_filecache_open ex_env_404 ex_world "/c".toList "/a".toList 0).2.1 = none :=
  ⟨rfl, C5_get_failure_codes ex_env_404 ex_world "/c".toList "/a".toList 0 ⟨404, none, []⟩ rfl (by decide)
    (by decide) (by decide) rfl (by decide) (by decide)⟩

/-- C5, counterexample: a 500 answer makes the open fail with -77 (`-EBADFD`), not `-EIO`. -/
theorem C5_status_500_counterexample :
    ex_env_500.get_exchange = .final ⟨500, none, []⟩ ∧
    (ldb_filecache_open ex_env_500 ex_world "/c".toList "/a".toList 0).1 = -77 ∧
    (ldb_filecache_open ex_env_500 ex_world "/c".toList "/a".toList 0).1 ≠ - EIO := by
  decide

/-- C6, evaluation at the failing input: a writable, modified session on "/a", whose
entry holds the entity-tag "tag", is synced with `do_put = true`; the PUT is answered 201
without an `ETag` header.  The sync returns 0 and clears `modified`, but the entry written
still holds "tag" instead of the empty string. -/
theorem C6_put_without_etag_keeps_old_tag :
    ex_session.writable = true ∧ ex_session.modified = true ∧
    tbl_get (path2key "/a".toList) ex_world.kv = some ⟨ex_old_name, "tag".toList, 90⟩ ∧
    ex_env_put_no_etag.put_dispatch = .answered ⟨201, none, []⟩ ∧
    (ldb_filecache_sync ex_env_put_no_etag ex_world "/a".toList ex_session true).1 = 0 ∧
    (ldb_filecache_sync ex_env_put_no_etag ex_world "/a".toList ex_session true).2.2.modified = false ∧
    tbl_get (path2key "/a".toList)
      (ldb_filecache_sync ex_env_put_no_etag ex_world "/a".toList ex_session true).2.1.kv
      = some ⟨ex_old_name, "tag".toList, 100⟩ := by
  decide

/-- C7 (amended). When the PUT of `ldb_filecache_sync` does not succeed (transport error or
any answer outside class 2, 404 included) the sync returns -1 with `errno = ENOENT`; the
session stays modified and the leveldb store is not written. -/
theorem C7_put_failure (env : Env) (w : World) (path : List Char)
    (sdata : ldb_filecache_sdata) (body : List Nat)
    (hw : sdata.writable = true) (hm : sdata.modified = true)
    (hfd : fd_content w sdata.fd = some body) (hsess : env.session_ok = true)
    (hfail : put_succeeds env.put_dispatch = false) :
    (ldb_filecache_sync env w path sdata true).1 = -1 ∧
    (ldb_filecache_sync env w path sdata true).2.1.errno = ENOENT ∧
    (ldb_filecache_sync env w path sdata true).2.2.modified = true ∧
    (ldb_filecache_sync env w path sdata true).2.1.kv = w.kv := by
  rw [sync_put_failed env w path sdata body hw hm hfd hsess hfail]
  exact ⟨rfl, rfl, hm, rfl⟩

/-- C7, witness: a PUT answered 404. -/
theorem C7_put_failure_witness :
    put_succeeds ex_env_put_404.put_dispatch = false ∧
    (ldb_filecache_sync ex_env_put_404 ex_world "/a".toList ex_session true).1 = -1 ∧
    (ldb_filecache_sync ex_env_put_404 ex_world "/a".toList ex_session true).2.1.errno = ENOENT :=
  ⟨by decide,
    (C7_put_failure ex_env_put_404 ex_world "/a".toList ex_session [7, 8, 9] rfl rfl (by decide) rfl
      (by decide)).1,
    (C7_put_failure ex_env_put_404 ex_world "/a".toList ex_session [7, 8, 9] rfl rfl (by decide) rfl
      (by decide)).2.1⟩

/-- C7, counterexample: a PUT answered 500 leaves `errno = ENOENT`, not `EIO`. -/
theorem C7_status_500_counterexample :
    ex_env_put_500.put_dispatch = .answered ⟨500, none, []⟩ ∧
    (ldb_filecache_sync ex_env_put_500 ex_world "/a".toList ex_session true).1 = -1 ∧
    (ldb_filecache_sync ex_env_put_500 ex_world "/a".toList ex_session true).2.1.errno = ENOENT ∧
    (ldb_filecache_sync ex_env_put_500 ex_world "/a".toList ex_session true).2.1.errno ≠ EIO := by
  decide

/-- C8. After an `ldb_filecache_sync` with `do_put = true` returned 0, a second one on the
resulting session and world, whatever the environment does, returns 0 and changes neither
the world (no PUT in the trace, the file entry as it was) nor the session. -/
theorem C8_second_sync_noop (env1 env2 : Env) (w w1 : World) (path : List Char)
    (s s1 : ldb_filecache_sdata)
    (h : ldb_filecache_sync env1 w path s true = (0, w1, s1)) :
    ldb_filecache_sync env2 w1 path s1 true = (0, w1, s1) := by
  unfold ldb_filecache_sync
  rcases sync_ok_state env1 w w1 path s s1 h with hw | hm
  · simp [hw]
  · cases hw : s1.writable <;> simp [hm]

/-- C8, witness: the first sync of the example session sends one PUT, the second none. -/
theorem C8_second_sync_noop_witness :
    (ldb_filecache_sync ex_env ex_world "/a".toList ex_session true).2.1.requests
      = [Request.PUT "/a".toList [7, 8, 9]] ∧
    ldb_filecache_sync ex_env_put_500
        (ldb_filecache_sync ex_env ex_world "/a".toList ex_session true).2.1 "/a".toList
        (ldb_filecache_sync ex_env ex_world "/a".toList ex_session true).2.2 true
      = (0, (ldb_filecache_sync ex_env ex_world "/a".toList ex_session true).2.1,
          (ldb_filecache_sync ex_env ex_world "/a".toList ex_session true).2.2) :=
  ⟨by decide, C8_second_sync_noop ex_env ex_env_put_500 ex_world _ "/a".toList ex_session _ (by decide)⟩

/-- C9. `ldb_filecache_sync` with `do_put = false` on a writable session whose path has
the entry `p` (leveldb working) returns 0, sends no request, writes the entry with the same
body file name, an empty entity-tag and `last_server_update = now`, and leaves the session
(its modified flag included) as it was.  On a session that is not writable the sync
returns 0 and changes neither the world nor the session. -/
theorem C9_sync_without_put (env : Env) (w : World) (path : List Char) (sdata : ldb_filecache_sdata)
    (p : ldb_filecache_pdata) (do_put : Bool) :
    (sdata.writable = true → env.get_err = false → env.put_err = false →
      tbl_get (path2key path) w.kv = some p →
      (ldb_filecache_sync env w path sdata false).1 = 0 ∧
      (ldb_filecache_sync env w path sdata false).2.1.requests = w.requests ∧
      tbl_get (path2key path) (ldb_filecache_sync env w path sdata false).2.1.kv =
        some { filename := p.filename, etag := [], last_server_update := env.now } ∧
      (ldb_filecache_sync env w path sdata false).2.2 = sdata) ∧
    (sdata.writable = false → ldb_filecache_sync env w path sdata do_put = (0, w, sdata)) := by
  constructor
  · intro hw hget hput hentry
    unfold ldb_filecache_sync ldb_filecache_sync_finish
    simp [hw, ldb_filecache_pdata_get, hget, hentry, ldb_filecache_pdata_set, hput,
      stat_cache_value_set, tbl_get_put_self]
  · intro hw
    unfold ldb_filecache_sync
    simp [hw]

/-- C9, witness: both cases on the example world. -/
theorem C9_sync_without_put_witness :
    (ex_session.writable = true ∧
      tbl_get (path2key "/a".toList)
        (ldb_filecache_sync ex_env ex_world "/a".toList ex_session false).2.1.kv =
        some { filename := ex_old_name, etag := [], last_server_update := 100 }) ∧
    (ex_session_ro.writable = false ∧
      ldb_filecache_sync ex_env ex_world "/a".toList ex_session_ro true
        = (0, ex_world, ex_session_ro)) :=
  ⟨⟨rfl, ((C9_sync_without_put ex_env ex_world "/a".toList ex_session ex_entry true).1 rfl rfl rfl
      (by decide)).2.2.1⟩,
    ⟨rfl, (C9_sync_without_put ex_env ex_world "/a".toList ex_session_ro ex_entry true).2 rfl⟩⟩

/-- C10, evaluation at the failing input: `ldb_filecache_write` on a session that is not
writable sets `errno = EBADF`, writes nothing, leaves the session as it was, and returns 0,
which is not negative. -/
theorem C10_write_not_writable_returns_zero :
    ex_session_ro.writable = false ∧
    ldb_filecache_write ex_env ex_world ex_session_ro [1, 2] 2 0
      = (0, { ex_world with errno := EBADF }, ex_session_ro) ∧
    ¬ ((ldb_filecache_write ex_env ex_world ex_session_ro [1, 2] 2 0).1 < 0) := by
  decide

/-! ## Lemmas on the maintenance sweep and on the directory refresh -/

/-- Deleting a key that is absent leaves the table as it was. -/
theorem tbl_del_absent {α β : Type} [DecidableEq α] (k : α) (t : List (α × β))
    (h : tbl_get k t = none) : tbl_del k t = t := by
  induction t with
  | nil => rfl
  | cons e rest ih =>
    obtain ⟨a, b⟩ := e
    by_cases hk : a = k
    · simp [tbl_get, hk] at h
    · simp only [tbl_get, hk, ↓reduceIte] at h
      have := ih h
      simp only [tbl_del] at this ⊢
      rw [List.filter_cons_of_pos (by simpa using hk), this]

/-- What `unlink` does to the names: the name is gone, whether it was there or not. -/
theorem posix_unlink_names (w : World) (name : List Char) :
    (posix_unlink w name).2.names = tbl_del name w.names := by
  unfold posix_unlink
  cases h : tbl_get name w.names with
  | none => simp [tbl_del_absent name w.names h]
  | some ino => rfl

/-- The call `unlink` touches neither leveldb nor the inodes. -/
theorem posix_unlink_frame (w : World) (name : List Char) :
    (posix_unlink w name).2.kv = w.kv ∧ (posix_unlink w name).2.inodes = w.inodes := by
  unfold posix_unlink
  cases tbl_get name w.names <;> exact ⟨rfl, rfl⟩

/-- What `ldb_filecache_delete` does to leveldb when leveldb works. -/
theorem ldb_filecache_delete_kv (env : Env) (w : World) (path : List Char)
    (hdel : env.del_err = false) :
    (ldb_filecache_delete env w path).2.kv = tbl_del (path2key path) w.kv := by
  unfold ldb_filecache_delete
  simp only [hdel, Bool.false_eq_true, ↓reduceIte]
  cases ldb_filecache_pdata_get env w path with
  | none => rfl
  | some p => exact (posix_unlink_frame _ _).1

/-- What `ldb_filecache_delete` does to the names: it unlinks the body file the entry names. -/
theorem ldb_filecache_delete_names (env : Env) (w : World) (path : List Char) :
    (ldb_filecache_delete env w path).2.names =
      match ldb_filecache_pdata_get env w path with
      | some p => tbl_del p.filename w.names
      | none => w.names := by
  unfold ldb_filecache_delete
  cases h : ldb_filecache_pdata_get env w path with
  | none => cases env.del_err <;> rfl
  | some p =>
    simp only [posix_unlink_names]
    cases env.del_err <;> rfl

/-- The function `ldb_filecache_delete` leaves the inodes alone. -/
theorem ldb_filecache_delete_inodes (env : Env) (w : World) (path : List Char) :
    (ldb_filecache_delete env w path).2.inodes = w.inodes := by
  unfold ldb_filecache_delete
  cases h : ldb_filecache_pdata_get env w path with
  | none => cases env.del_err <;> rfl
  | some p =>
    simp only [(posix_unlink_frame _ _).2]
    cases env.del_err <;> rfl

/-- Reading the inode just stamped gives the stamp. -/
theorem inode_touch_self (now : Int) (ino : Nat) (inodes : List Inode) (i : Inode)
    (h : inodes[ino]? = some i) :
    (inode_touch now ino inodes)[ino]? = some { i with mtime := now } := by
  have hlt : ino < inodes.length := (List.getElem?_eq_some_iff.1 h).1
  simp [inode_touch, h, hlt]

/-- Stamping an inode leaves the other inodes as they were. -/
theorem inode_touch_ne (now : Int) (ino j : Nat) (inodes : List Inode) (h : j ≠ ino) :
    (inode_touch now ino inodes)[j]? = inodes[j]? := by
  unfold inode_touch
  cases hi : inodes[ino]? with
  | none => rfl
  | some i => simp [List.getElem?_set, h.symm]

/-- The effect of one visit of the cleanup loop when the body file is missing. -/
theorem cleanup_visit_missing (env : Env) (w : World) (path : List Char)
    (p : ldb_filecache_pdata) (hget : env.get_err = false) (hdel : env.del_err = false)
    (hcur : tbl_get (path2key path) w.kv = some p)
    (hmiss : tbl_get p.filename w.names = none) :
    (ldb_filecache_cleanup_visit env w path p).kv = tbl_del (path2key path) w.kv ∧
    (ldb_filecache_cleanup_visit env w path p).names = w.names ∧
    (ldb_filecache_cleanup_visit env w path p).inodes = w.inodes := by
  unfold ldb_filecache_cleanup_visit posix_access
  simp only [hmiss]
  rw [if_pos (by decide)]
  refine ⟨?_, ?_, ?_⟩
  · rw [ldb_filecache_delete_kv _ _ _ hdel]
  · rw [ldb_filecache_delete_names]
    simp only [ldb_filecache_pdata_get, hget, Bool.false_eq_true, ↓reduceIte, hcur]
    exact tbl_del_absent _ _ hmiss
  · rw [ldb_filecache_delete_inodes]

/-- The effect of one visit of the cleanup loop when the entry has aged out. -/
theorem cleanup_visit_aged (env : Env) (w : World) (path : List Char)
    (p : ldb_filecache_pdata) (ino : Nat) (hget : env.get_err = false)
    (hdel : env.del_err = false)
    (hcur : tbl_get (path2key path) w.kv = some p)
    (hex : tbl_get p.filename w.names = some ino)
    (hold : env.now - p.last_server_update > AGE_OUT_THRESHOLD) :
    (ldb_filecache_cleanup_visit env w path p).kv = tbl_del (path2key path) w.kv ∧
    (ldb_filecache_cleanup_visit env w path p).names = tbl_del p.filename w.names ∧
    (ldb_filecache_cleanup_visit env w path p).inodes = w.inodes := by
  unfold ldb_filecache_cleanup_visit posix_access
  simp only [hex, ne_eq, not_true_eq_false, ↓reduceIte, hold]
  refine ⟨?_, ?_, ?_⟩
  · rw [(posix_unlink_frame _ _).1, ldb_filecache_delete_kv _ _ _ hdel]
  · rw [posix_unlink_names, ldb_filecache_delete_names]
    simp only [ldb_filecache_pdata_get, hget, Bool.false_eq_true, ↓reduceIte, hcur]
    exact tbl_del_absent _ _ (tbl_get_del_self _ _)
  · rw [(posix_unlink_frame _ _).2, ldb_filecache_delete_inodes]

/-- The effect of one visit of the cleanup loop when the entry is kept. -/
theorem cleanup_visit_kept (env : Env) (w : World) (path : List Char)
    (p : ldb_filecache_pdata) (ino : Nat)
    (hex : tbl_get p.filename w.names = some ino)
    (hyoung : ¬ (env.now - p.last_server_update > AGE_OUT_THRESHOLD)) :
    (ldb_filecache_cleanup_visit env w path p).kv = w.kv ∧
    (ldb_filecache_cleanup_visit env w path p).names = w.names ∧
    (ldb_filecache_cleanup_visit env w path p).inodes = inode_touch env.now ino w.inodes := by
  unfold ldb_filecache_cleanup_visit posix_access posix_utime
  simp [hex, hyoung]

/-- The name `readdir` gives determines the file name. -/
theorem dir_entry_name_eq (dir name d : List Char) (h : dir_entry_name dir name = some d) :
    path_join dir d = name := by
  unfold dir_entry_name at h
  by_cases hp : (dir ++ ['/']).isPrefixOf name = true
  · simp only [hp, ↓reduceIte] at h
    split at h
    · injection h with h
      rw [← h]
      have := List.isPrefixOf_iff_prefix.1 hp
      obtain ⟨t, ht⟩ := this
      rw [← ht]
      simp [path_join]
    · cases h
  · simp [hp] at h

/-- The orphan loop touches neither leveldb nor the inodes. -/
theorem cleanup_orphans_loop_frame (dir : List Char) (T : Int) (l : List (List Char))
    (ret : Int) (w : World) :
    (cleanup_orphans_loop dir T l ret w).2.kv = w.kv ∧
    (cleanup_orphans_loop dir T l ret w).2.inodes = w.inodes := by
  induction l generalizing ret w with
  | nil => exact ⟨rfl, rfl⟩
  | cons d rest ih =>
    unfold cleanup_orphans_loop
    simp only
    split
    · exact ih _ _
    · split
      · obtain ⟨h1, h2⟩ := ih (if (posix_unlink w (path_join dir d)).1 ≠ 0 then ret - 1 else ret)
          (posix_unlink w (path_join dir d)).2
        rw [h1, h2]
        exact posix_unlink_frame _ _
      · exact ih _ _

/-- The time `stat` reads depends on the binding of the name and on the inodes only. -/
theorem posix_stat_mtime_congr (w w1 : World) (n : List Char)
    (hn : tbl_get n w1.names = tbl_get n w.names) (hi : w1.inodes = w.inodes) :
    posix_stat_mtime w1 n = posix_stat_mtime w n := by
  unfold posix_stat_mtime
  rw [hn, hi]

/-- The names after the orphan loop: a name is gone when the loop met it as an orphan, and is
as before otherwise. -/
theorem cleanup_orphans_loop_names (dir : List Char) (T : Int) (l : List (List Char))
    (ret : Int) (w : World) (n : List Char) :
    tbl_get n (cleanup_orphans_loop dir T l ret w).2.names =
      if (∃ d ∈ l, path_join dir d = n) ∧ is_orphan w T n = true then none
      else tbl_get n w.names := by
  induction l generalizing ret w with
  | nil => simp [cleanup_orphans_loop]
  | cons d rest ih =>
    unfold cleanup_orphans_loop
    simp only
    by_cases hdn : path_join dir d = n
    · -- the head is the name itself
      have hex : ∃ d' ∈ d :: rest, path_join dir d' = n := ⟨d, List.mem_cons_self _ _, hdn⟩
      cases hs : posix_stat_mtime w (path_join dir d) with
      | none =>
        simp only
        rw [ih]
        have ho : is_orphan w T n = false := by
          rw [← hdn]; simp only [is_orphan, hs]
        simp [ho]
      | some m =>
        simp only
        by_cases hm : m < T
        · simp only [hm, ↓reduceIte]
          rw [ih]
          have hgone : tbl_get n (posix_unlink w (path_join dir d)).2.names = none := by
            rw [posix_unlink_names, hdn]
            exact tbl_get_del_self _ _
          have ho : is_orphan w T n = true := by
            rw [← hdn]; simp only [is_orphan, hs, hm, decide_True]
          have hr : (if (∃ d' ∈ d :: rest, path_join dir d' = n) ∧ is_orphan w T n = true then none
              else tbl_get n w.names) = none := if_pos ⟨hex, ho⟩
          rw [hr]
          split
          · rfl
          · exact hgone
        · simp only [hm, ↓reduceIte]
          rw [ih]
          have ho : is_orphan w T n = false := by
            rw [← hdn]; simp only [is_orphan, hs, hm, decide_False]
          simp [ho]
    · -- the head is another name
      have hex : (∃ d' ∈ d :: rest, path_join dir d' = n) ↔ (∃ d' ∈ rest, path_join dir d' = n) := by
        constructor
        · rintro ⟨d', hd', he⟩
          rcases List.mem_cons.1 hd' with h | h
          · exact absurd (h ▸ he) hdn
          · exact ⟨d', h, he⟩
        · rintro ⟨d', hd', he⟩
          exact ⟨d', List.mem_cons_of_mem _ hd', he⟩
      cases hs : posix_stat_mtime w (path_join dir d) with
      | none =>
        simp only
        rw [ih]
        simp only [hex]
      | some m =>
        simp only
        by_cases hm : m < T
        · simp only [hm, ↓reduceIte]
          rw [ih]
          have hn : tbl_get n (posix_unlink w (path_join dir d)).2.names = tbl_get n w.names := by
            rw [posix_unlink_names]
            exact tbl_get_del_ne (fun h => hdn h.symm) _
          have ho : is_orphan (posix_unlink w (path_join dir d)).2 T n = is_orphan w T n := by
            unfold is_orphan
            rw [posix_stat_mtime_congr w _ n hn (posix_unlink_frame _ _).2]
          rw [hn, ho]
          simp only [hex]
        · simp only [hm, ↓reduceIte]
          rw [ih]
          simp only [hex]

/-- Without an orphan among the names it meets, the orphan loop changes nothing. -/
theorem cleanup_orphans_loop_none (dir : List Char) (T : Int) (l : List (List Char))
    (ret : Int) (w : World)
    (h : ∀ d ∈ l, is_orphan w T (path_join dir d) = false) :
    (cleanup_orphans_loop dir T l ret w).2 = w := by
  induction l generalizing ret with
  | nil => rfl
  | cons d rest ih =>
    unfold cleanup_orphans_loop
    have hd := h d (List.mem_cons_self _ _)
    have hrest : ∀ d' ∈ rest, is_orphan w T (path_join dir d') = false :=
      fun d' hd' => h d' (List.mem_cons_of_mem _ hd')
    simp only
    cases hs : posix_stat_mtime w (path_join dir d) with
    | none => exact ih _ hrest
    | some m =>
      have hm : ¬ m < T := by
        simp only [is_orphan, hs, decide_eq_false_iff_not] at hd
        exact hd
      simp only [hm, ↓reduceIte]
      exact ih _ hrest

/-- A key that is bound occurs in the table. -/
theorem tbl_get_mem {α β : Type} [DecidableEq α] (k : α) (v : β) (t : List (α × β))
    (h : tbl_get k t = some v) : (k, v) ∈ t := by
  induction t with
  | nil => cases h
  | cons e rest ih =>
    obtain ⟨a, b⟩ := e
    by_cases hk : a = k
    · simp only [tbl_get, hk, ↓reduceIte, Option.some.injEq] at h
      rw [hk, h]
      exact List.mem_cons_self _ _
    · simp only [tbl_get, hk, ↓reduceIte] at h
      exact List.mem_cons_of_mem _ (ih h)

/-- A key that occurs in the table is bound. -/
theorem tbl_get_of_mem {α β : Type} [DecidableEq α] (k : α) (v : β) (t : List (α × β))
    (h : (k, v) ∈ t) : ∃ v', tbl_get k t = some v' := by
  induction t with
  | nil => cases h
  | cons e rest ih =>
    obtain ⟨a, b⟩ := e
    by_cases hk : a = k
    · exact ⟨b, by simp [tbl_get, hk]⟩
    · rcases List.mem_cons.1 h with h1 | h1
      · injection h1 with h2 h3
        exact absurd h2.symm hk
      · obtain ⟨v', hv'⟩ := ih h1
        exact ⟨v', by simp [tbl_get, hk, hv']⟩

/-- An orphan has a name. -/
theorem is_orphan_bound (w : World) (T : Int) (n : List Char) (h : is_orphan w T n = true) :
    ∃ ino, tbl_get n w.names = some ino := by
  unfold is_orphan posix_stat_mtime at h
  cases hn : tbl_get n w.names with
  | none => simp [hn] at h
  | some ino => exact ⟨ino, rfl⟩

/-- The names after `cleanup_orphans`: gone are the orphans that lie directly in
`cache_path/files`, all other names are as before. -/
theorem cleanup_orphans_names (w : World) (cache_path : List Char) (T : Int) (n : List Char) :
    tbl_get n (cleanup_orphans w cache_path T).2.names =
      if (dir_entry_name (cache_path ++ "/files".toList) n).isSome = true ∧ is_orphan w T n = true
      then none else tbl_get n w.names := by
  unfold cleanup_orphans
  simp only
  rw [cleanup_orphans_loop_names]
  by_cases ho : is_orphan w T n = true
  · have hiff : (∃ d ∈ List.filterMap (fun e => dir_entry_name (cache_path ++ "/files".toList) e.1)
          w.names, path_join (cache_path ++ "/files".toList) d = n) ↔
        (dir_entry_name (cache_path ++ "/files".toList) n).isSome = true := by
      constructor
      · rintro ⟨d, hd, he⟩
        obtain ⟨e, -, hde⟩ := List.mem_filterMap.1 hd
        have := dir_entry_name_eq _ _ _ hde
        have he1 : e.1 = n := by
          rw [← this]; exact he
        rw [← he1, hde]; rfl
      · intro hs
        obtain ⟨d, hd⟩ := Option.isSome_iff_exists.1 hs
        obtain ⟨ino, hino⟩ := is_orphan_bound w T n ho
        refine ⟨d, List.mem_filterMap.2 ⟨(n, ino), tbl_get_mem _ _ _ hino, hd⟩, ?_⟩
        exact dir_entry_name_eq _ _ _ hd
    simp only [hiff]
  · simp [ho]

/-- The function `cleanup_orphans` touches neither leveldb nor the inodes. -/
theorem cleanup_orphans_frame (w : World) (cache_path : List Char) (T : Int) :
    (cleanup_orphans w cache_path T).2.kv = w.kv ∧
    (cleanup_orphans w cache_path T).2.inodes = w.inodes := by
  unfold cleanup_orphans
  exact cleanup_orphans_loop_frame _ _ _ _ _

/-- Without an orphan directly in `cache_path/files`, `cleanup_orphans` changes nothing. -/
theorem cleanup_orphans_none (w : World) (cache_path : List Char) (T : Int)
    (h : ∀ n d, dir_entry_name (cache_path ++ "/files".toList) n = some d →
      is_orphan w T n = false) :
    (cleanup_orphans w cache_path T).2 = w := by
  unfold cleanup_orphans
  apply cleanup_orphans_loop_none
  intro d hd
  obtain ⟨e, -, hde⟩ := List.mem_filterMap.1 hd
  have := dir_entry_name_eq _ _ _ hde
  rw [this]
  exact h e.1 d hde

theorem key_lt_irrefl (a : List Char) : key_lt a a = false := by
  induction a with
  | nil => rfl
  | cons x xs ih => simp [key_lt, ih]

theorem key_lt_asymm : ∀ (a b : List Char), key_lt a b = true → key_lt b a = false
  | [], [], h => by simp [key_lt] at h
  | [], _ :: _, _ => by simp [key_lt]
  | _ :: _, [], h => by simp [key_lt] at h
  | x :: xs, y :: ys, h => by
    unfold key_lt at h ⊢
    by_cases h1 : x.toNat < y.toNat
    · have h2 : ¬ y.toNat < x.toNat := by omega
      simp [h1, h2]
    · by_cases h2 : y.toNat < x.toNat
      · simp [h1, h2] at h
      · simp only [h1, h2, ↓reduceIte] at h ⊢
        exact key_lt_asymm xs ys h

theorem key_lt_trans : ∀ (a b c : List Char), key_lt a b = true → key_lt b c = true →
    key_lt a c = true
  | [], [], _, h, _ => by simp [key_lt] at h
  | [], _ :: _, [], _, h => by simp [key_lt] at h
  | [], _ :: _, _ :: _, _, _ => by simp [key_lt]
  | _ :: _, [], _, h, _ => by simp [key_lt] at h
  | _ :: _, _ :: _, [], _, h => by simp [key_lt] at h
  | x :: xs, y :: ys, z :: zs, h1, h2 => by
    unfold key_lt at h1 h2 ⊢
    by_cases hxy : x.toNat < y.toNat
    · by_cases hyz : y.toNat < z.toNat
      · have : x.toNat < z.toNat := by omega
        simp [this]
      · by_cases hzy : z.toNat < y.toNat
        · simp [hyz, hzy] at h2
        · have : x.toNat < z.toNat := by omega
          simp [this]
    · by_cases hyx : y.toNat < x.toNat
      · simp [hxy, hyx] at h1
      · simp only [hxy, hyx, ↓reduceIte] at h1
        by_cases hyz : y.toNat < z.toNat
        · have : x.toNat < z.toNat := by omega
          simp [this]
        · by_cases hzy : z.toNat < y.toNat
          · simp [hyz, hzy] at h2
          · simp only [hyz, hzy, ↓reduceIte] at h2
            have h3 : ¬ x.toNat < z.toNat := by omega
            have h4 : ¬ z.toNat < x.toNat := by omega
            simp only [h3, h4, ↓reduceIte]
            exact key_lt_trans xs ys zs h1 h2

theorem key_lt_total : ∀ (a b : List Char), key_lt a b = false → a ≠ b → key_lt b a = true
  | [], [], _, h => absurd rfl h
  | [], _ :: _, h, _ => by simp [key_lt] at h
  | _ :: _, [], _, _ => by simp [key_lt]
  | x :: xs, y :: ys, h, hne => by
    unfold key_lt at h ⊢
    by_cases hxy : x.toNat < y.toNat
    · simp [hxy] at h
    · by_cases hyx : y.toNat < x.toNat
      · simp [hyx]
      · simp only [hxy, hyx, ↓reduceIte] at h ⊢
        have hxe : x = y := by
          apply Char.ext
          apply UInt32.ext
          have : x.toNat = y.toNat := by omega
          exact this
        apply key_lt_total xs ys h
        intro hs
        exact hne (by rw [hxe, hs])

theorem mem_key_insert (k a : List Char) (l : List (List Char)) :
    k ∈ key_insert a l ↔ k = a ∨ k ∈ l := by
  induction l with
  | nil => simp [key_insert]
  | cons x xs ih =>
    unfold key_insert
    by_cases h1 : key_lt a x = true
    · simp [h1]
    · by_cases h2 : a = x
      · subst h2
        rw [if_neg h1, if_pos rfl]
        simp only [List.mem_cons]
        tauto
      · rw [if_neg h1, if_neg h2]
        simp only [List.mem_cons, ih]
        tauto

theorem pairwise_key_insert (a : List Char) (l : List (List Char))
    (h : List.Pairwise (fun x y => key_lt x y = true) l) :
    List.Pairwise (fun x y => key_lt x y = true) (key_insert a l) := by
  induction l with
  | nil => simp [key_insert]
  | cons x xs ih =>
    unfold key_insert
    obtain ⟨hx, hxs⟩ := List.pairwise_cons.1 h
    by_cases h1 : key_lt a x = true
    · simp only [h1, ↓reduceIte]
      refine List.pairwise_cons.2 ⟨?_, h⟩
      intro y hy
      rcases List.mem_cons.1 hy with hy | hy
      · rw [hy]; exact h1
      · exact key_lt_trans _ _ _ h1 (hx y hy)
    · by_cases h2 : a = x
      · rw [if_neg h1, if_pos h2]
        exact h
      · rw [if_neg h1, if_neg h2]
        refine List.pairwise_cons.2 ⟨?_, ih hxs⟩
        intro y hy
        rcases (mem_key_insert y a xs).1 hy with hy | hy
        · rw [hy]
          exact key_lt_total a x (by simpa using h1) h2
        · exact hx y hy

theorem pairwise_sorted_keys (kv : List (List Char × ldb_filecache_pdata)) :
    List.Pairwise (fun x y => key_lt x y = true) (sorted_keys kv) := by
  induction kv with
  | nil => simp [sorted_keys]
  | cons e rest ih =>
    simp only [sorted_keys, List.foldr_cons]
    exact pairwise_key_insert _ _ ih

theorem mem_sorted_keys (kv : List (List Char × ldb_filecache_pdata)) (k : List Char) :
    k ∈ sorted_keys kv ↔ ∃ v, (k, v) ∈ kv := by
  induction kv with
  | nil => simp [sorted_keys]
  | cons e rest ih =>
    obtain ⟨a, b⟩ := e
    simp only [sorted_keys, List.foldr_cons, mem_key_insert, List.mem_cons, Prod.mk.injEq]
    rw [show List.foldr (fun e acc => key_insert e.1 acc) [] rest = sorted_keys rest from rfl, ih]
    constructor
    · rintro (h | ⟨v, hv⟩)
      · exact ⟨b, Or.inl ⟨h, rfl⟩⟩
      · exact ⟨v, Or.inr hv⟩
    · rintro ⟨v, ⟨h, -⟩ | hv⟩
      · exact Or.inl h
      · exact Or.inr ⟨v, hv⟩

/-- The iterator yields exactly the bindings of the store at or after the start key. -/
theorem mem_leveldb_iter_seek (kv : List (List Char × ldb_filecache_pdata))
    (start k : List Char) (p : ldb_filecache_pdata) :
    (k, p) ∈ leveldb_iter_seek kv start ↔ tbl_get k kv = some p ∧ key_lt k start = false := by
  unfold leveldb_iter_seek
  simp only [List.mem_filterMap, List.mem_filter, Option.map_eq_some', Prod.mk.injEq,
    Bool.not_eq_true', mem_sorted_keys]
  constructor
  · rintro ⟨k', ⟨-, hlt⟩, p', hp', hk, hp⟩
    subst hk; subst hp
    exact ⟨hp', hlt⟩
  · rintro ⟨hp, hlt⟩
    exact ⟨k, ⟨⟨p, tbl_get_mem _ _ _ hp⟩, hlt⟩, p, hp, rfl, rfl⟩

/-- The iterator yields its keys in strictly ascending byte order. -/
theorem pairwise_leveldb_iter_seek (kv : List (List Char × ldb_filecache_pdata))
    (start : List Char) :
    List.Pairwise (fun x y => key_lt x.1 y.1 = true) (leveldb_iter_seek kv start) := by
  unfold leveldb_iter_seek
  apply List.Pairwise.filterMap _ _ ((pairwise_sorted_keys kv).filter _)
  intro a a' haa b hb b' hb'
  simp only [Option.mem_def, Option.map_eq_some'] at hb hb'
  obtain ⟨_, _, rfl⟩ := hb
  obtain ⟨_, _, rfl⟩ := hb'
  exact haa

/-- A key at or after a prefix that does not start with the prefix lies after every key that
starts with it. -/
theorem key_lt_of_not_prefix : ∀ (pre x : List Char), key_lt x pre = false →
    pre.isPrefixOf x = false → ∀ s, key_lt (pre ++ s) x = true
  | [], x, _, h => by simp [List.isPrefixOf] at h
  | _ :: _, [], h, _ => by simp [key_lt] at h
  | p :: ps, a :: xs, h, hp => by
    intro s
    unfold key_lt at h
    simp only [List.cons_append]
    unfold key_lt
    by_cases h1 : a.toNat < p.toNat
    · simp [h1] at h
    · by_cases h2 : p.toNat < a.toNat
      · simp [h2]
      · simp only [h1, h2, ↓reduceIte] at h ⊢
        have hxe : p = a := by
          apply Char.ext
          apply UInt32.ext
          have : p.toNat = a.toNat := by omega
          exact this
        have hp' : ps.isPrefixOf xs = false := by
          simpa [List.isPrefixOf, hxe] using hp
        exact key_lt_of_not_prefix ps xs h hp' s

theorem key2path_isSome (k : List Char) :
    (key2path k).isSome = filecache_prefix.isPrefixOf k := by
  unfold key2path
  cases h : filecache_prefix.isPrefixOf k <;> simp

/-- The path of a key gives the key back. -/
theorem path2key_of_key2path (k path : List Char) (h : key2path k = some path) :
    path2key path = k := by
  unfold key2path at h
  by_cases hp : filecache_prefix.isPrefixOf k = true
  · simp only [hp, ↓reduceIte, Option.some.injEq] at h
    obtain ⟨t, ht⟩ := List.isPrefixOf_iff_prefix.1 hp
    rw [← h, ← ht]
    simp [path2key, filecache_prefix]
  · simp [hp] at h

/-- The cleanup loop visits exactly the entries of the iterator whose keys start with "fc:":
after the first other key no such key follows. -/
theorem cleanup_loop_filter (env : Env) (l : List (List Char × ldb_filecache_pdata))
    (w : World)
    (hs : List.Pairwise (fun x y => key_lt x.1 y.1 = true) l)
    (hge : ∀ e ∈ l, key_lt e.1 filecache_prefix = false) :
    ldb_filecache_cleanup_loop env l w =
      ldb_filecache_cleanup_loop env (l.filter (fun e => (key2path e.1).isSome)) w := by
  induction l generalizing w with
  | nil => rfl
  | cons e rest ih =>
    obtain ⟨k, p⟩ := e
    obtain ⟨hk, hrest⟩ := List.pairwise_cons.1 hs
    have hge' : ∀ e ∈ rest, key_lt e.1 filecache_prefix = false :=
      fun e he => hge e (List.mem_cons_of_mem _ he)
    cases hkp : key2path k with
    | some path =>
      rw [List.filter_cons_of_pos (by simp [hkp])]
      unfold ldb_filecache_cleanup_loop
      simp only [hkp]
      exact ih _ hrest hge'
    | none =>
      rw [List.filter_cons_of_neg (by simp [hkp])]
      have hempty : rest.filter (fun e => (key2path e.1).isSome) = [] := by
        apply List.filter_eq_nil_iff.2
        intro e he
        simp only [Bool.not_eq_true, Option.not_isSome, Option.isNone_iff_eq_none]
        by_contra hne
        obtain ⟨path, hpath⟩ := Option.ne_none_iff_exists'.1 hne
        have hkey := path2key_of_key2path _ _ hpath
        have hnp : filecache_prefix.isPrefixOf k = false := by
          have := key2path_isSome k
          rw [hkp] at this
          simpa using this.symm
        have h1 := key_lt_of_not_prefix filecache_prefix k
          (hge (k, p) (List.mem_cons_self _ _)) hnp path
        have h2 := hk e he
        simp only at h2
        rw [← hkey] at h2
        have h3 := key_lt_asymm _ _ h2
        unfold path2key at h3
        rw [h1] at h3
        cases h3
      rw [hempty]
      unfold ldb_filecache_cleanup_loop
      simp only [hkp]

/-- The three outcomes of one visit of the cleanup loop, for an entry that is in the store
and a leveldb that works. -/
theorem cleanup_visit_cases (env : Env) (w : World) (path : List Char)
    (p : ldb_filecache_pdata) (hget : env.get_err = false) (hdel : env.del_err = false)
    (hcur : tbl_get (path2key path) w.kv = some p) :
    (tbl_get p.filename w.names = none ∧
      (ldb_filecache_cleanup_visit env w path p).kv = tbl_del (path2key path) w.kv ∧
      (ldb_filecache_cleanup_visit env w path p).names = w.names ∧
      (ldb_filecache_cleanup_visit env w path p).inodes = w.inodes) ∨
    ((∃ ino, tbl_get p.filename w.names = some ino) ∧
      env.now - p.last_server_update > AGE_OUT_THRESHOLD ∧
      (ldb_filecache_cleanup_visit env w path p).kv = tbl_del (path2key path) w.kv ∧
      (ldb_filecache_cleanup_visit env w path p).names = tbl_del p.filename w.names ∧
      (ldb_filecache_cleanup_visit env w path p).inodes = w.inodes) ∨
    (∃ ino, tbl_get p.filename w.names = some ino ∧
      ¬ (env.now - p.last_server_update > AGE_OUT_THRESHOLD) ∧
      (ldb_filecache_cleanup_visit env w path p).kv = w.kv ∧
      (ldb_filecache_cleanup_visit env w path p).names = w.names ∧
      (ldb_filecache_cleanup_visit env w path p).inodes = inode_touch env.now ino w.inodes) := by
  cases hn : tbl_get p.filename w.names with
  | none => exact Or.inl ⟨rfl, cleanup_visit_missing env w path p hget hdel hcur hn⟩
  | some ino =>
    by_cases ha : env.now - p.last_server_update > AGE_OUT_THRESHOLD
    · exact Or.inr (Or.inl ⟨⟨ino, rfl⟩, ha, cleanup_visit_aged env w path p ino hget hdel hcur hn ha⟩)
    · exact Or.inr (Or.inr ⟨ino, rfl, ha, cleanup_visit_kept env w path p ino hn ha⟩)

/-- One visit keeps the rest of the list ready. -/
theorem loop_ready_step (env : Env) (w : World) (k path : List Char)
    (p : ldb_filecache_pdata) (rest : List (List Char × ldb_filecache_pdata))
    (hget : env.get_err = false) (hdel : env.del_err = false)
    (hr : loop_ready ((k, p) :: rest) w)
    (hnd : List.Pairwise (fun a b => a.1 ≠ b.1) ((k, p) :: rest))
    (hk : key2path k = some path) :
    loop_ready rest (ldb_filecache_cleanup_visit env w path p) := by
  have hkey := path2key_of_key2path k path hk
  have hcur : tbl_get (path2key path) w.kv = some p := by
    rw [hkey]; exact (hr (k, p) (List.mem_cons_self _ _)).1
  intro e he
  obtain ⟨h1, h2⟩ := hr e (List.mem_cons_of_mem _ he)
  refine ⟨?_, h2⟩
  have hne : e.1 ≠ k := fun h => (List.pairwise_cons.1 hnd).1 e he h.symm
  rcases cleanup_visit_cases env w path p hget hdel hcur with
    ⟨-, hkv, -, -⟩ | ⟨-, -, hkv, -, -⟩ | ⟨ino, -, -, hkv, -, -⟩
  · rw [hkv, hkey, tbl_get_del_ne hne]; exact h1
  · rw [hkv, hkey, tbl_get_del_ne hne]; exact h1
  · rw [hkv]; exact h1

/-- A general induction principle for the cleanup loop over a ready list: a property of
worlds that every visit preserves holds after the loop. -/
theorem cleanup_loop_induct (env : Env) (hget : env.get_err = false)
    (hdel : env.del_err = false)
    (P : World → Prop)
    (l : List (List Char × ldb_filecache_pdata)) (w : World)
    (hr : loop_ready l w) (hnd : List.Pairwise (fun a b => a.1 ≠ b.1) l)
    (hstep : ∀ (w' : World) (k path : List Char) (p : ldb_filecache_pdata),
      (k, p) ∈ l → key2path k = some path → tbl_get (path2key path) w'.kv = some p →
      P w' → P (ldb_filecache_cleanup_visit env w' path p))
    (h0 : P w) : P (ldb_filecache_cleanup_loop env l w) := by
  induction l generalizing w with
  | nil => exact h0
  | cons e rest ih =>
    obtain ⟨k, p⟩ := e
    obtain ⟨hcur, path, hk⟩ := hr (k, p) (List.mem_cons_self _ _)
    unfold ldb_filecache_cleanup_loop
    simp only [hk]
    have hkey := path2key_of_key2path k path hk
    apply ih
    · exact loop_ready_step env w k path p rest hget hdel hr hnd hk
    · exact (List.pairwise_cons.1 hnd).2
    · intro w' k' path' p' hmem
      exact hstep w' k' path' p' (List.mem_cons_of_mem _ hmem)
    · exact hstep w k path p (List.mem_cons_self _ _) hk (by rw [hkey]; exact hcur) h0

theorem stamp_rel_refl (now : Int) (a : List Inode) : stamp_rel now a a :=
  fun _ => ⟨fun h => h, fun i h => ⟨i, h, rfl, Or.inl rfl⟩⟩

theorem stamp_rel_trans (now : Int) (a b c : List Inode)
    (h1 : stamp_rel now a b) (h2 : stamp_rel now b c) : stamp_rel now a c := by
  intro j
  refine ⟨fun h => (h2 j).1 ((h1 j).1 h), ?_⟩
  intro i hi
  obtain ⟨i', hi', hc, hm⟩ := (h1 j).2 i hi
  obtain ⟨i'', hi'', hc', hm'⟩ := (h2 j).2 i' hi'
  refine ⟨i'', hi'', hc'.trans hc, ?_⟩
  rcases hm' with hm' | hm'
  · rcases hm with hm | hm
    · exact Or.inl (hm'.trans hm)
    · exact Or.inr (hm'.trans hm)
  · exact Or.inr hm'

theorem stamp_rel_touch (now : Int) (ino : Nat) (a : List Inode) :
    stamp_rel now a (inode_touch now ino a) := by
  intro j
  by_cases hj : j = ino
  · subst hj
    constructor
    · intro h
      simp [inode_touch, h]
    · intro i hi
      exact ⟨_, inode_touch_self now j a i hi, rfl, Or.inr rfl⟩
  · rw [inode_touch_ne now ino j a hj]
    exact ⟨fun h => h, fun i h => ⟨i, h, rfl, Or.inl rfl⟩⟩

/-- The store only loses entries in the cleanup loop. -/
theorem loop_kv_shrink (env : Env) (hget : env.get_err = false) (hdel : env.del_err = false)
    (l : List (List Char × ldb_filecache_pdata)) (w : World)
    (hr : loop_ready l w) (hnd : List.Pairwise (fun a b => a.1 ≠ b.1) l)
    (k : List Char) (e : ldb_filecache_pdata)
    (h : tbl_get k (ldb_filecache_cleanup_loop env l w).kv = some e) :
    tbl_get k w.kv = some e := by
  have := cleanup_loop_induct env hget hdel
    (fun w' => ∀ k e, tbl_get k w'.kv = some e → tbl_get k w.kv = some e) l w hr hnd
    (by
      intro w' k' path p _ hk hcur hP k e he
      apply hP
      rcases cleanup_visit_cases env w' path p hget hdel hcur with
        ⟨-, hkv, -, -⟩ | ⟨-, -, hkv, -, -⟩ | ⟨ino, -, -, hkv, -, -⟩
      · rw [hkv] at he
        by_cases hkk : k = path2key path
        · rw [hkk, tbl_get_del_self] at he; cases he
        · rwa [tbl_get_del_ne hkk] at he
      · rw [hkv] at he
        by_cases hkk : k = path2key path
        · rw [hkk, tbl_get_del_self] at he; cases he
        · rwa [tbl_get_del_ne hkk] at he
      · rwa [hkv] at he)
    (fun _ _ h => h)
  exact this k e h

/-- The cleanup loop leaves the keys it does not visit as they were. -/
theorem loop_kv_other (env : Env) (hget : env.get_err = false) (hdel : env.del_err = false)
    (l : List (List Char × ldb_filecache_pdata)) (w : World)
    (hr : loop_ready l w) (hnd : List.Pairwise (fun a b => a.1 ≠ b.1) l)
    (k : List Char) (hk : ∀ e ∈ l, e.1 ≠ k) :
    tbl_get k (ldb_filecache_cleanup_loop env l w).kv = tbl_get k w.kv := by
  apply cleanup_loop_induct env hget hdel
    (fun w' => tbl_get k w'.kv = tbl_get k w.kv) l w hr hnd _ rfl
  intro w' k' path p hmem hk' hcur hP
  have hne : k ≠ path2key path := by
    rw [path2key_of_key2path k' path hk']
    exact fun h => hk (k', p) hmem h.symm
  rcases cleanup_visit_cases env w' path p hget hdel hcur with
    ⟨-, hkv, -, -⟩ | ⟨-, -, hkv, -, -⟩ | ⟨ino, -, -, hkv, -, -⟩
  · rw [hkv, tbl_get_del_ne hne]; exact hP
  · rw [hkv, tbl_get_del_ne hne]; exact hP
  · rw [hkv]; exact hP

/-- The file system only loses names in the cleanup loop. -/
theorem loop_names_shrink (env : Env) (hget : env.get_err = false)
    (hdel : env.del_err = false)
    (l : List (List Char × ldb_filecache_pdata)) (w : World)
    (hr : loop_ready l w) (hnd : List.Pairwise (fun a b => a.1 ≠ b.1) l)
    (n : List Char) (i : Nat)
    (h : tbl_get n (ldb_filecache_cleanup_loop env l w).names = some i) :
    tbl_get n w.names = some i := by
  have := cleanup_loop_induct env hget hdel
    (fun w' => ∀ n i, tbl_get n w'.names = some i → tbl_get n w.names = some i) l w hr hnd
    (by
      intro w' k' path p _ hk hcur hP n i he
      apply hP
      rcases cleanup_visit_cases env w' path p hget hdel hcur with
        ⟨-, -, hn, -⟩ | ⟨-, -, -, hn, -⟩ | ⟨ino, -, -, -, hn, -⟩
      · rwa [hn] at he
      · rw [hn] at he
        by_cases hkk : n = p.filename
        · rw [hkk, tbl_get_del_self] at he; cases he
        · rwa [tbl_get_del_ne hkk] at he
      · rwa [hn] at he)
    (fun _ _ h => h)
  exact this n i h

/-- A name stays through the cleanup loop unless an aged entry names it. -/
theorem loop_names_keep (env : Env) (hget : env.get_err = false) (hdel : env.del_err = false)
    (l : List (List Char × ldb_filecache_pdata)) (w : World)
    (hr : loop_ready l w) (hnd : List.Pairwise (fun a b => a.1 ≠ b.1) l)
    (n : List Char)
    (hn : ∀ e ∈ l, e.2.filename = n →
      ¬ (env.now - e.2.last_server_update > AGE_OUT_THRESHOLD)) :
    tbl_get n (ldb_filecache_cleanup_loop env l w).names = tbl_get n w.names := by
  apply cleanup_loop_induct env hget hdel
    (fun w' => tbl_get n w'.names = tbl_get n w.names) l w hr hnd _ rfl
  intro w' k' path p hmem hk' hcur hP
  rcases cleanup_visit_cases env w' path p hget hdel hcur with
    ⟨-, -, hnm, -⟩ | ⟨-, hold, -, hnm, -⟩ | ⟨ino, -, -, -, hnm, -⟩
  · rw [hnm]; exact hP
  · have hne : n ≠ p.filename := fun h => hn (k', p) hmem h.symm hold
    rw [hnm, tbl_get_del_ne hne]; exact hP
  · rw [hnm]; exact hP

/-- The cleanup loop only stamps inodes. -/
theorem loop_inodes_rel (env : Env) (hget : env.get_err = false) (hdel : env.del_err = false)
    (l : List (List Char × ldb_filecache_pdata)) (w : World)
    (hr : loop_ready l w) (hnd : List.Pairwise (fun a b => a.1 ≠ b.1) l) :
    stamp_rel env.now w.inodes (ldb_filecache_cleanup_loop env l w).inodes := by
  apply cleanup_loop_induct env hget hdel
    (fun w' => stamp_rel env.now w.inodes w'.inodes) l w hr hnd _ (stamp_rel_refl _ _)
  intro w' k' path p hmem hk' hcur hP
  rcases cleanup_visit_cases env w' path p hget hdel hcur with
    ⟨-, -, -, hi⟩ | ⟨-, -, -, -, hi⟩ | ⟨ino, -, -, -, -, hi⟩
  · rw [hi]; exact hP
  · rw [hi]; exact hP
  · rw [hi]; exact stamp_rel_trans _ _ _ _ hP (stamp_rel_touch _ _ _)

/-- An inode that no visited entry names keeps its modification time. -/
theorem loop_inode_untouched (env : Env) (hget : env.get_err = false)
    (hdel : env.del_err = false)
    (l : List (List Char × ldb_filecache_pdata)) (w : World)
    (hr : loop_ready l w) (hnd : List.Pairwise (fun a b => a.1 ≠ b.1) l)
    (j : Nat) (hj : ∀ e ∈ l, tbl_get e.2.filename w.names ≠ some j) :
    (ldb_filecache_cleanup_loop env l w).inodes[j]? = w.inodes[j]? := by
  have := cleanup_loop_induct env hget hdel
    (fun w' => (∀ n i, tbl_get n w'.names = some i → tbl_get n w.names = some i) ∧
      w'.inodes[j]? = w.inodes[j]?) l w hr hnd
    (by
      intro w' k' path p hmem hk hcur hP
      obtain ⟨hP1, hP2⟩ := hP
      rcases cleanup_visit_cases env w' path p hget hdel hcur with
        ⟨-, -, hn, hi⟩ | ⟨-, -, -, hn, hi⟩ | ⟨ino, hex, -, -, hn, hi⟩
      · rw [hn, hi]; exact ⟨hP1, hP2⟩
      · rw [hn, hi]
        refine ⟨?_, hP2⟩
        intro n i he
        apply hP1
        by_cases hkk : n = p.filename
        · rw [hkk, tbl_get_del_self] at he; cases he
        · rwa [tbl_get_del_ne hkk] at he
      · rw [hn, hi]
        refine ⟨hP1, ?_⟩
        have hne : j ≠ ino := by
          intro h
          exact hj (k', p) hmem (by rw [h]; exact hP1 _ _ hex)
        rw [inode_touch_ne _ _ _ _ hne]
        exact hP2)
    ⟨fun _ _ h => h, rfl⟩
  exact this.2

/-- When every visited entry has its body file and has not aged out, the cleanup loop
changes neither the store nor the names. -/
theorem loop_unchanged (env : Env) (hget : env.get_err = false) (hdel : env.del_err = false)
    (l : List (List Char × ldb_filecache_pdata)) (w : World)
    (hr : loop_ready l w) (hnd : List.Pairwise (fun a b => a.1 ≠ b.1) l)
    (hall : ∀ e ∈ l, (∃ ino, tbl_get e.2.filename w.names = some ino) ∧
      ¬ (env.now - e.2.last_server_update > AGE_OUT_THRESHOLD)) :
    (ldb_filecache_cleanup_loop env l w).kv = w.kv ∧
    (ldb_filecache_cleanup_loop env l w).names = w.names := by
  apply cleanup_loop_induct env hget hdel
    (fun w' => w'.kv = w.kv ∧ w'.names = w.names) l w hr hnd _ ⟨rfl, rfl⟩
  intro w' k' path p hmem hk' hcur hP
  obtain ⟨⟨ino, hex⟩, hyoung⟩ := hall (k', p) hmem
  have hex' : tbl_get p.filename w'.names = some ino := by rw [hP.2]; exact hex
  obtain ⟨h1, h2, -⟩ := cleanup_visit_kept env w' path p ino hex' hyoung
  rw [h1, h2]
  exact hP

/-- A visited entry whose body file is still there after the loop is still in the store. -/
theorem loop_entry_of_file (env : Env) (hget : env.get_err = false)
    (hdel : env.del_err = false)
    (l : List (List Char × ldb_filecache_pdata)) (w : World)
    (hr : loop_ready l w) (hnd : List.Pairwise (fun a b => a.1 ≠ b.1) l)
    (e : List Char × ldb_filecache_pdata) (he : e ∈ l) (i : Nat)
    (h : tbl_get e.2.filename (ldb_filecache_cleanup_loop env l w).names = some i) :
    tbl_get e.1 (ldb_filecache_cleanup_loop env l w).kv = some e.2 := by
  have := cleanup_loop_induct env hget hdel
    (fun w' => (∃ i, tbl_get e.2.filename w'.names = some i) → tbl_get e.1 w'.kv = some e.2)
    l w hr hnd
    (by
      intro w' k' path p hmem hk hcur hP hex
      have hkey := path2key_of_key2path k' path hk
      rcases cleanup_visit_cases env w' path p hget hdel hcur with
        ⟨hmiss, hkv, hn, -⟩ | ⟨-, -, hkv, hn, -⟩ | ⟨ino, -, -, hkv, hn, -⟩
      · rw [hn] at hex
        have h1 := hP hex
        rw [hkv]
        by_cases hkk : e.1 = path2key path
        · exfalso
          rw [hkk, hcur] at h1
          injection h1 with h1
          rw [← h1, hmiss] at hex
          obtain ⟨_, hx⟩ := hex
          cases hx
        · rw [tbl_get_del_ne hkk]; exact h1
      · rw [hn] at hex
        obtain ⟨i', hi'⟩ := hex
        have hne : e.2.filename ≠ p.filename := by
          intro hh
          rw [hh, tbl_get_del_self] at hi'
          cases hi'
        rw [tbl_get_del_ne hne] at hi'
        have h1 := hP ⟨i', hi'⟩
        rw [hkv]
        by_cases hkk : e.1 = path2key path
        · exfalso
          rw [hkk, hcur] at h1
          injection h1 with h1
          exact hne (by rw [h1])
        · rw [tbl_get_del_ne hkk]; exact h1
      · rw [hn] at hex
        rw [hkv]
        exact hP hex)
    (fun _ => (hr e he).1)
  exact this ⟨i, h⟩

/-- With body files that are not shared, an entry that is still in the store after the loop
has not aged out, and its body file is there and stamped. -/
theorem loop_kept_stamped (env : Env) (hget : env.get_err = false)
    (hdel : env.del_err = false)
    (l : List (List Char × ldb_filecache_pdata)) (w : World)
    (hr : loop_ready l w) (hnd : List.Pairwise (fun a b => a.1 ≠ b.1) l)
    (hfn : List.Pairwise (fun a b => a.2.filename ≠ b.2.filename) l)
    (e : List Char × ldb_filecache_pdata) (he : e ∈ l) (e' : ldb_filecache_pdata)
    (h : tbl_get e.1 (ldb_filecache_cleanup_loop env l w).kv = some e') :
    ¬ (env.now - e.2.last_server_update > AGE_OUT_THRESHOLD) ∧
    ∃ ino, tbl_get e.2.filename (ldb_filecache_cleanup_loop env l w).names = some ino ∧
      ∀ i : Inode, (ldb_filecache_cleanup_loop env l w).inodes[ino]? = some i →
        i.mtime = env.now := by
  induction l generalizing w with
  | nil => cases he
  | cons x rest ih =>
    obtain ⟨k, p⟩ := x
    obtain ⟨hcur, path, hk⟩ := hr (k, p) (List.mem_cons_self _ _)
    have hkey := path2key_of_key2path k path hk
    have hcur' : tbl_get (path2key path) w.kv = some p := by rw [hkey]; exact hcur
    have hr1 := loop_ready_step env w k path p rest hget hdel hr hnd hk
    have hnd1 := (List.pairwise_cons.1 hnd).2
    have hfn1 := (List.pairwise_cons.1 hfn).2
    have hloop : ldb_filecache_cleanup_loop env ((k, p) :: rest) w =
        ldb_filecache_cleanup_loop env rest (ldb_filecache_cleanup_visit env w path p) := by
      conv => lhs; unfold ldb_filecache_cleanup_loop
      simp only [hk]
    rw [hloop] at h ⊢
    rcases List.mem_cons.1 he with hhead | htail
    · subst hhead
      have h1 := loop_kv_shrink env hget hdel rest _ hr1 hnd1 _ _ h
      rcases cleanup_visit_cases env w path p hget hdel hcur' with
        ⟨-, hkv, -, -⟩ | ⟨-, -, hkv, -, -⟩ | ⟨ino, hex, hyoung, hkv, hn, hi⟩
      · rw [hkv, hkey, tbl_get_del_self] at h1; cases h1
      · rw [hkv, hkey, tbl_get_del_self] at h1; cases h1
      · refine ⟨hyoung, ino, ?_, ?_⟩
        · rw [loop_names_keep env hget hdel rest _ hr1 hnd1 p.filename, hn]
          · exact hex
          · intro e' he' heq
            exact absurd heq.symm ((List.pairwise_cons.1 hfn).1 e' he')
        · intro i hi'
          have hrel := loop_inodes_rel env hget hdel rest _ hr1 hnd1 ino
          cases hw1 : (ldb_filecache_cleanup_visit env w path p).inodes[ino]? with
          | none =>
            rw [hrel.1 hw1] at hi'
            cases hi'
          | some i1 =>
            obtain ⟨i2, hi2, -, hm⟩ := hrel.2 i1 hw1
            rw [hi'] at hi2
            injection hi2 with hi2
            subst hi2
            have hstamp : i1.mtime = env.now := by
              rw [hi] at hw1
              cases hwi : w.inodes[ino]? with
              | none =>
                simp [inode_touch, hwi] at hw1
              | some i0 =>
                rw [inode_touch_self _ _ _ _ hwi] at hw1
                injection hw1 with hw1
                rw [← hw1]
            rcases hm with hm | hm
            · rw [hm, hstamp]
            · exact hm
    · exact ih _ hr1 hnd1 hfn1 htail h

/-- A key is not before its own prefix. -/
theorem key_lt_prefix : ∀ (pre s : List Char), key_lt (pre ++ s) pre = false
  | [], [] => rfl
  | [], _ :: _ => rfl
  | p :: ps, s => by
    simp only [List.cons_append]
    unfold key_lt
    simp only [lt_self_iff_false, ↓reduceIte]
    exact key_lt_prefix ps s

theorem mem_cleanup_visited (w : World) (k : List Char) (p : ldb_filecache_pdata) :
    (k, p) ∈ cleanup_visited w ↔ tbl_get k w.kv = some p ∧ (key2path k).isSome = true := by
  unfold cleanup_visited
  rw [List.mem_filter, mem_leveldb_iter_seek]
  constructor
  · rintro ⟨⟨h1, -⟩, h2⟩
    exact ⟨h1, h2⟩
  · rintro ⟨h1, h2⟩
    refine ⟨⟨h1, ?_⟩, h2⟩
    obtain ⟨path, hpath⟩ := Option.isSome_iff_exists.1 h2
    rw [← path2key_of_key2path k path hpath]
    exact key_lt_prefix _ _

theorem cleanup_visited_ready (w : World) : loop_ready (cleanup_visited w) w := by
  intro e he
  obtain ⟨h1, h2⟩ := (mem_cleanup_visited w e.1 e.2).1 he
  exact ⟨h1, Option.isSome_iff_exists.1 h2⟩

theorem cleanup_visited_keys (w : World) :
    List.Pairwise (fun a b => a.1 ≠ b.1) (cleanup_visited w) := by
  have h := (pairwise_leveldb_iter_seek w.kv filecache_prefix).filter
    (fun e => (key2path e.1).isSome)
  refine h.imp ?_
  intro a b hab heq
  rw [heq, key_lt_irrefl] at hab
  cases hab

theorem cleanup_visited_files (w : World) (h : no_shared_body w) :
    List.Pairwise (fun a b => a.2.filename ≠ b.2.filename) (cleanup_visited w) := by
  refine (cleanup_visited_keys w).imp_of_mem ?_
  intro a b ha hb hab heq
  obtain ⟨ha1, ha2⟩ := (mem_cleanup_visited w a.1 a.2).1 ha
  obtain ⟨hb1, hb2⟩ := (mem_cleanup_visited w b.1 b.2).1 hb
  exact hab (h a.1 b.1 a.2 b.2 ha1 hb1 ha2 hb2 heq)

/-- The function `ldb_filecache_cleanup` is the orphan pass after the visits. -/
theorem ldb_filecache_cleanup_eq (env : Env) (w : World) (cache_path : List Char) :
    ldb_filecache_cleanup env w cache_path =
      (cleanup_orphans (ldb_filecache_cleanup_loop env (cleanup_visited w) w) cache_path
        env.now).2 := by
  unfold ldb_filecache_cleanup cleanup_visited
  simp only
  rw [cleanup_loop_filter env _ w (pairwise_leveldb_iter_seek _ _)]
  intro e he
  exact ((mem_leveldb_iter_seek w.kv filecache_prefix e.1 e.2).1 he).2

/-- After `ldb_filecache_cleanup` with a working leveldb and unshared body files, every file
entry left has not aged out and names a body file that exists. -/
theorem cleanup_kept (env : Env) (w : World) (cache_path : List Char)
    (hget : env.get_err = false) (hdel : env.del_err = false) (h1 : no_shared_body w)
    (k : List Char) (p : ldb_filecache_pdata)
    (hk : (key2path k).isSome = true)
    (hp : tbl_get k (ldb_filecache_cleanup env w cache_path).kv = some p) :
    ¬ (env.now - p.last_server_update > AGE_OUT_THRESHOLD) ∧
    ∃ ino, tbl_get p.filename (ldb_filecache_cleanup env w cache_path).names = some ino := by
  rw [ldb_filecache_cleanup_eq] at hp ⊢
  rw [(cleanup_orphans_frame _ _ _).1] at hp
  have hr := cleanup_visited_ready w
  have hnd := cleanup_visited_keys w
  have hp0 := loop_kv_shrink env hget hdel _ w hr hnd k p hp
  have hmem : (k, p) ∈ cleanup_visited w := (mem_cleanup_visited w k p).2 ⟨hp0, hk⟩
  obtain ⟨hyoung, ino, hino, hst⟩ := loop_kept_stamped env hget hdel _ w hr hnd
    (cleanup_visited_files w h1) (k, p) hmem p hp
  refine ⟨hyoung, ino, ?_⟩
  rw [cleanup_orphans_names]
  have ho : is_orphan (ldb_filecache_cleanup_loop env (cleanup_visited w) w) env.now p.filename
      = false := by
    unfold is_orphan posix_stat_mtime
    simp only at hino
    rw [hino]
    cases hi : (ldb_filecache_cleanup_loop env (cleanup_visited w) w).inodes[ino]? with
    | none => simp only [hi, Option.map]
    | some i =>
      have := hst i hi
      simp only [hi, Option.map, this, lt_self_iff_false, decide_False]
  simp only [ho, Bool.false_eq_true, and_false, ↓reduceIte]
  exact hino

/-- After `cleanup_orphans` no file directly in `cache_path/files` is an orphan. -/
theorem cleanup_orphans_clean (w : World) (cache_path : List Char) (T : Int)
    (n d : List Char) (hd : dir_entry_name (cache_path ++ "/files".toList) n = some d) :
    is_orphan (cleanup_orphans w cache_path T).2 T n = false := by
  cases hn : tbl_get n (cleanup_orphans w cache_path T).2.names with
  | none => simp [is_orphan, posix_stat_mtime, hn]
  | some ino =>
    have h := cleanup_orphans_names w cache_path T n
    rw [hn] at h
    by_cases ho : is_orphan w T n = true
    · rw [if_pos ⟨by rw [hd]; rfl, ho⟩] at h
      cases h
    · have hcongr : is_orphan (cleanup_orphans w cache_path T).2 T n = is_orphan w T n := by
        unfold is_orphan
        rw [posix_stat_mtime_congr w _ n _ (cleanup_orphans_frame _ _ _).2]
        rw [hn, h, if_neg (fun hh => ho hh.2)]
      rw [hcongr]
      simpa using ho

/-- A table with one binding binds that key only. -/
theorem tbl_get_single {α β : Type} [DecidableEq α] (a k : α) (b v : β)
    (h : tbl_get k [(a, b)] = some v) : k = a ∧ v = b := by
  by_cases hk : a = k
  · simp only [tbl_get, hk, ↓reduceIte, Option.some.injEq] at h
    exact ⟨hk.symm, h.symm⟩
  · simp [tbl_get, hk] at h

theorem ex_world_no_shared_body : no_shared_body ex_world := by
  intro k1 k2 p1 p2 h1 h2 _ _ _
  rw [(tbl_get_single _ _ _ _ h1).1, (tbl_get_single _ _ _ _ h2).1]

theorem ex_world_files_referenced (env : Env) (n d : List Char) (ino : Nat)
    (_hd : dir_entry_name ("/c".toList ++ "/files".toList) n = some d)
    (hn : tbl_get n ex_world.names = some ino) :
    (∃ k p, (key2path k).isSome = true ∧ tbl_get k ex_world.kv = some p ∧ p.filename = n) ∨
    (is_orphan ex_world env.now n = true ∧ ∀ n', tbl_get n' ex_world.names = some ino → n' = n) := by
  left
  have := (tbl_get_single _ _ _ _ hn).1
  exact ⟨"fc:/a".toList, ex_entry, by decide, by decide, this.symm⟩

theorem foldl_callback_updated_children (lib : Lib) (rs : List (List Char × stat × Nat))
    (c : StatCache) :
    (rs.foldl (getdir_propfind_callback lib) c).updated_children = c.updated_children := by
  induction rs generalizing c with
  | nil => rfl
  | cons r rs ih =>
    rw [List.foldl_cons, ih]
    unfold getdir_propfind_callback
    split_ifs <;> rfl

theorem update_directory_mark_last_failure (env : DavEnv) (d : Dav) (path : List Char)
    (ts : Int) : (update_directory_mark env d path ts).2.last_failure = d.last_failure := by
  unfold update_directory_mark
  cases env.updated_children_error <;> rfl

theorem update_directory_complete_last_failure (lib : Lib) (env : DavEnv) (d : Dav)
    (path : List Char) :
    (update_directory_complete lib env d path).2.last_failure = d.last_failure := by
  unfold update_directory_complete
  simp only [stat_cache_get_local_generation, simple_propfind_with_redirect]
  split_ifs
  · rfl
  · cases env.delete_older_error
    · simp only [update_directory_mark_last_failure]
    · rfl

theorem update_directory_last_failure (cfg : fusedav_config) (lib : Lib) (env : DavEnv)
    (d : Dav) (path : List Char) (a : Bool) :
    (update_directory cfg lib env d path a).2.last_failure = d.last_failure := by
  unfold update_directory
  simp only [simple_propfind_with_redirect]
  by_cases hb : (a && cfg.progressive_propfind) = true
  · rw [if_pos hb]
    cases env.read_updated_error with
    | some code => rfl
    | none =>
      simp only
      split_ifs
      · simp only [update_directory_mark_last_failure]
      · simp only [update_directory_complete_last_failure]
      · rfl
  · rw [if_neg hb]
    exact update_directory_complete_last_failure lib env d path

theorem dav_readdir_enumerate_last_failure (lib : Lib) (env : DavEnv) (d : Dav)
    (path : List Char) (b : Bool) :
    (dav_readdir_enumerate lib env d path b).2.last_failure = d.last_failure := rfl

theorem update_directory_mark_updated_children (env : DavEnv) (d : Dav) (path : List Char)
    (ts : Int) :
    ((update_directory_mark env d path ts).1 = none →
      (update_directory_mark env d path ts).2.cache.updated_children
        = tbl_put path ts d.cache.updated_children) ∧
    ((update_directory_mark env d path ts).1 ≠ none →
      (update_directory_mark env d path ts).2.cache.updated_children
        = d.cache.updated_children) := by
  unfold update_directory_mark
  cases env.updated_children_error <;> simp [stat_cache_updated_children]

theorem update_directory_complete_updated_children (lib : Lib) (env : DavEnv) (d : Dav)
    (path : List Char) :
    ((update_directory_complete lib env d path).1 = none →
      (update_directory_complete lib env d path).2.cache.updated_children
        = tbl_put path env.time_complete d.cache.updated_children) ∧
    ((update_directory_complete lib env d path).1 ≠ none →
      (update_directory_complete lib env d path).2.cache.updated_children
        = d.cache.updated_children) := by
  unfold update_directory_complete
  simp only [stat_cache_get_local_generation, simple_propfind_with_redirect]
  split_ifs
  · simp [foldl_callback_updated_children]
  · cases env.delete_older_error
    · have h := update_directory_mark_updated_children env
        { cache := stat_cache_delete_older
            (env.complete.responses.foldl (getdir_propfind_callback lib)
              { d.cache with generation := d.cache.generation + 1 }) path d.cache.generation,
          last_failure := d.last_failure,
          calls := d.calls ++ [DavCall.get_local_generation d.cache.generation,
            DavCall.propfind path none PROPFIND_DEPTH_ONE] ++
            [DavCall.delete_older path d.cache.generation] } path env.time_complete
      simpa [stat_cache_delete_older, foldl_callback_updated_children] using h
    · simp [foldl_callback_updated_children]

theorem update_directory_mark_calls (env : DavEnv) (d : Dav) (path : List Char) (ts : Int) :
    (update_directory_mark env d path ts).1 = env.updated_children_error ∧
    (update_directory_mark env d path ts).2.calls
      = d.calls ++ [DavCall.updated_children path ts] := by
  unfold update_directory_mark
  cases env.updated_children_error <;> simp

theorem update_directory_complete_calls (lib : Lib) (env : DavEnv) (d : Dav)
    (path : List Char) :
    (env.complete.result < 0 ∨ env.inject_1 = true →
      (update_directory_complete lib env d path).1 = some EIO ∧
      (update_directory_complete lib env d path).2.calls = d.calls ++
        [DavCall.get_local_generation d.cache.generation,
         DavCall.propfind path none PROPFIND_DEPTH_ONE]) ∧
    (¬ (env.complete.result < 0 ∨ env.inject_1 = true) →
      (update_directory_complete lib env d path).2.calls = d.calls ++
        [DavCall.get_local_generation d.cache.generation,
         DavCall.propfind path none PROPFIND_DEPTH_ONE,
         DavCall.delete_older path d.cache.generation] ++
        (if env.delete_older_error = none
          then [DavCall.updated_children path env.time_complete] else [])) := by
  unfold update_directory_complete
  simp only [stat_cache_get_local_generation, simple_propfind_with_redirect]
  constructor
  · intro h
    rw [if_pos h]
    exact ⟨rfl, rfl⟩
  · intro h
    rw [if_neg h]
    cases hd : env.delete_older_error
    · simp [(update_directory_mark_calls env _ path env.time_complete).2]
    · simp

/-- For a timestamp of at least `CLOCK_SKEW` the number printed under `%lu` is the
difference `t - CLOCK_SKEW`. -/
theorem changes_since_of_ge (t : Int) (h1 : 10 ≤ t) (h2 : t < 2 ^ 63) :
    (changes_since t : Int) = t - 10 := by
  unfold changes_since CLOCK_SKEW
  have h3 : (0 : Int) ≤ t - 10 := by omega
  have h4 : t - 10 < 2 ^ 64 := by
    have : (2 : Int) ^ 63 < 2 ^ 64 := by norm_num
    omega
  rw [Int.emod_eq_of_lt h3 h4, Int.toNat_of_nonneg h3]

/-- For a timestamp below `CLOCK_SKEW` the difference is negative, and `%lu` prints it
modulo `2^64`. -/
theorem changes_since_of_lt (t : Int) (h1 : t < 10) (h2 : - 2 ^ 63 ≤ t) :
    (changes_since t : Int) = t - 10 + 2 ^ 64 := by
  unfold changes_since CLOCK_SKEW
  have h3 : (0 : Int) ≤ t - 10 + 2 ^ 64 := by
    have : (2 : Int) ^ 63 < 2 ^ 64 := by norm_num
    omega
  have h4 : t - 10 + 2 ^ 64 < 2 ^ 64 := by omega
  have h5 : (t - 10) % 2 ^ 64 = t - 10 + 2 ^ 64 := by
    rw [← Int.add_emod_self, Int.emod_eq_of_lt h3 h4]
  rw [h5, Int.toNat_of_nonneg h3]

/-! ## The claims on the maintenance sweep and on the directory refresh -/

/-- C11, evaluation at the failing input: in the example world the path "/a" has a file
entry whose body file exists.  After `ldb_filecache_pdata_move` from "/a" to "/b" the key of
"/b" holds the body file name and the entity-tag of that entry with
`last_server_update = now` (100), and the key of "/a" is absent; but the body file named by
the moved entry is no longer on disk, because `ldb_filecache_delete` on the old path has
unlinked it. -/
theorem C11_move_unlinks_body :
    tbl_get (path2key "/a".toList) ex_world.kv = some ex_entry ∧
    tbl_get ex_entry.filename ex_world.names = some 0 ∧
    tbl_get (path2key "/b".toList)
      (ldb_filecache_pdata_move ex_env ex_world "/a".toList "/b".toList).2.kv
      = some { filename := ex_entry.filename, etag := ex_entry.etag, last_server_update := 100 } ∧
    tbl_get (path2key "/a".toList)
      (ldb_filecache_pdata_move ex_env ex_world "/a".toList "/b".toList).2.kv = none ∧
    tbl_get ex_entry.filename
      (ldb_filecache_pdata_move ex_env ex_world "/a".toList "/b".toList).2.names = none := by
  decide

/-- C12 (amended). `use_saint_mode` returns true if and only if
`now ≤ last_failure + 10`, for every clock reading `now` and every stored `last_failure`
(sums of `time_t` taken without overflow). -/
theorem C12_use_saint_mode (last_failure now : Int) :
    use_saint_mode last_failure now = true ↔ now ≤ last_failure + 10 := by
  simp [use_saint_mode, SAINT_MODE_DURATION]

/-- C12, counterexample: at the instant `now = last_failure + 10` (here 60 and 50)
`use_saint_mode` returns true, although `now < last_failure + 10` is false. -/
theorem C12_boundary_counterexample :
    use_saint_mode 50 60 = true ∧ ¬ ((60 : Int) < 50 + 10) := by decide

/-- C13 (amended). While grace is enabled and saint mode is active, `dav_readdir` on a
directory of which the stat cache holds at least one child returns 0, leaves the stat cache and
`last_failure` as they were, and makes exactly these calls: the filler for ".", the filler
for "..", one `stat_cache_enumerate` with freshness ignored, and the filler for each child
held in the stat cache.  No PROPFIND is issued. -/
theorem C13_readdir_saint_mode (cfg : fusedav_config) (lib : Lib) (env : DavEnv) (d : Dav)
    (p path : List Char)
    (hgrace : cfg.grace = true)
    (hsaint : use_saint_mode d.last_failure env.monotonic_use = true)
    (hp : path_cvt lib (some p) = some path)
    (hchildren : d.cache.entries.filterMap (fun e => dir_entry_name path e.1) ≠ []) :
    dav_readdir cfg lib env d (some p) =
      (0, (⟨d.cache, d.last_failure, d.calls ++
        [DavCall.filler ".".toList, DavCall.filler "..".toList, DavCall.enumerate path true] ++
        (d.cache.entries.filterMap (fun e => dir_entry_name path e.1)).map
          (fun n => DavCall.filler (lib.unescape n))⟩ : Dav)) := by
  have he : ∀ d1 : Dav, d1.cache = d.cache →
      dav_readdir_enumerate lib env d1 path true =
        (0, (⟨d1.cache, d1.last_failure, d1.calls ++ [DavCall.enumerate path true] ++
          (d.cache.entries.filterMap (fun e => dir_entry_name path e.1)).map
            (fun n => DavCall.filler (lib.unescape n))⟩ : Dav)) := by
    intro d1 h1
    unfold dav_readdir_enumerate stat_cache_enumerate
    rw [h1]
    simp only [Bool.not_true, Bool.false_and, if_neg hchildren, Bool.false_eq_true, if_false]
    rfl
  unfold dav_readdir
  simp only [hp, hgrace, hsaint, Bool.and_self]
  rw [he ⟨d.cache, d.last_failure,
    d.calls ++ [DavCall.filler ".".toList, DavCall.filler "..".toList]⟩ rfl]
  simp only [lt_self_iff_false, if_false, List.append_assoc, List.cons_append, List.nil_append,
    List.singleton_append]

/-- C13, witness: the example state holds the child "x" of "/d"; the listing is ".",
"..", "x" and nothing else happens. -/
theorem C13_readdir_saint_mode_witness :
    dav_readdir ex_cfg ex_lib ex_dav_env ex_dav (some "/d".toList) =
      (0, ⟨ex_dav.cache, 50,
        [DavCall.filler ".".toList, DavCall.filler "..".toList,
         DavCall.enumerate "/d".toList true, DavCall.filler "x".toList]⟩) :=
  C13_readdir_saint_mode ex_cfg ex_lib ex_dav_env ex_dav "/d".toList "/d".toList rfl (by decide)
    (by decide) (by decide)

/-- C13, counterexample: grace is enabled and saint mode is active (`last_failure = 50`,
monotonic clock 55), and the stat cache is empty.  `stat_cache_enumerate` reports that it has
no data, so `dav_readdir` on "/d" calls `update_directory`, which issues a complete PROPFIND;
the child "z" that the server lists is emitted. -/
theorem C13_empty_cache_counterexample :
    ex_cfg.grace = true ∧
    use_saint_mode ex_dav_empty.last_failure ex_dav_env.monotonic_use = true ∧
    (dav_readdir ex_cfg ex_lib ex_dav_env ex_dav_empty (some "/d".toList)).2.calls =
      [DavCall.filler ".".toList, DavCall.filler "..".toList,
       DavCall.enumerate "/d".toList true,
       DavCall.get_local_generation 0,
       DavCall.propfind "/d".toList none 1,
       DavCall.delete_older "/d".toList 0,
       DavCall.updated_children "/d".toList 1002,
       DavCall.enumerate "/d".toList true,
       DavCall.filler "z".toList] := by
  decide

/-- C14. Inside `dav_readdir`, when the first enumeration returns a negative value and
`update_directory` then sets an error `code`: with grace enabled `dav_readdir` returns 0,
`last_failure` is the reading of the monotonic clock taken by `set_saint_mode`, the stat cache
is the one `update_directory` left, and after the calls of `update_directory` the stat cache
is enumerated once more with freshness ignored, its names going to the filler; with grace
disabled `dav_readdir` returns `- code`, the state is the one `update_directory` left (there
is no further enumeration) and `last_failure` is the one `dav_readdir` started with. -/
theorem C14_readdir_update_fails (cfg : fusedav_config) (lib : Lib) (env : DavEnv)
    (d d2 d3 : Dav) (p path : List Char) (ret code : Int)
    (hp : path_cvt lib (some p) = some path)
    (henum : dav_readdir_enumerate lib env
      { d with calls := d.calls ++ [DavCall.filler ".".toList, DavCall.filler "..".toList] }
      path (cfg.grace && use_saint_mode d.last_failure env.monotonic_use) = (ret, d2))
    (hret : ret < 0)
    (hupd : update_directory cfg lib env d2 path (decide (ret = - STAT_CACHE_OLD_DATA))
      = (some code, d3)) :
    (cfg.grace = true →
      (dav_readdir cfg lib env d (some p)).1 = 0 ∧
      (dav_readdir cfg lib env d (some p)).2.last_failure = env.monotonic_set ∧
      (dav_readdir cfg lib env d (some p)).2.cache = d3.cache ∧
      (dav_readdir cfg lib env d (some p)).2.calls =
        d3.calls ++ [DavCall.enumerate path true] ++
        (stat_cache_enumerate lib d3.cache env.time_enumerate path true).2.map
          (getdir_cache_callback lib)) ∧
    (cfg.grace = false →
      dav_readdir cfg lib env d (some p) = (- code, d3) ∧
      d3.last_failure = d.last_failure) := by
  have hlf : d3.last_failure = d.last_failure := by
    have h1 := update_directory_last_failure cfg lib env d2 path
      (decide (ret = - STAT_CACHE_OLD_DATA))
    rw [hupd] at h1
    have h2 := dav_readdir_enumerate_last_failure lib env
      { d with calls := d.calls ++ [DavCall.filler ".".toList, DavCall.filler "..".toList] }
      path (cfg.grace && use_saint_mode d.last_failure env.monotonic_use)
    rw [henum] at h2
    exact h1.trans h2
  have hrd : dav_readdir cfg lib env d (some p) =
      match cfg.grace with
      | false => (processed_gerror code, d3)
      | true =>
        (0, (dav_readdir_enumerate lib env (set_saint_mode d3 env.monotonic_set) path true).2) := by
    unfold dav_readdir
    simp only [hp]
    rw [henum]
    simp only [if_pos hret]
    rw [hupd]
    cases cfg.grace <;> rfl
  constructor
  · intro hg
    rw [hrd, hg]
    exact ⟨rfl, rfl, rfl, rfl⟩
  · intro hg
    rw [hrd, hg]
    exact ⟨rfl, hlf⟩

/-- C14, witness: both listings fail with the stat cache too old.  Without grace
`dav_readdir` returns -5 (`-EIO`) and stops after the failed windowed PROPFIND; with grace
it returns 0, sets `last_failure` to 56 and lists the cached child "x" after a second
enumeration. -/
theorem C14_readdir_update_fails_witness :
    dav_readdir ex_cfg_no_grace ex_lib ex_dav_env_fail ex_dav (some "/d".toList) =
      (-5, ⟨ex_dav.cache, 50,
        [DavCall.filler ".".toList, DavCall.filler "..".toList,
         DavCall.enumerate "/d".toList false,
         DavCall.read_updated_children "/d".toList,
         DavCall.propfind "/d".toList (some 890) 1]⟩) ∧
    (dav_readdir ex_cfg ex_lib ex_dav_env_fail_late ex_dav (some "/d".toList)).1 = 0 ∧
    (dav_readdir ex_cfg ex_lib ex_dav_env_fail_late ex_dav (some "/d".toList)).2.last_failure
      = 56 ∧
    (dav_readdir ex_cfg ex_lib ex_dav_env_fail_late ex_dav (some "/d".toList)).2.calls =
      [DavCall.filler ".".toList, DavCall.filler "..".toList,
       DavCall.enumerate "/d".toList false,
       DavCall.read_updated_children "/d".toList,
       DavCall.propfind "/d".toList (some 890) 1,
       DavCall.enumerate "/d".toList true,
       DavCall.filler "x".toList] :=
  ⟨((C14_readdir_update_fails ex_cfg_no_grace ex_lib ex_dav_env_fail ex_dav
      ⟨ex_dav.cache, 50,
        [DavCall.filler ".".toList, DavCall.filler "..".toList,
         DavCall.enumerate "/d".toList false]⟩
      ⟨ex_dav.cache, 50,
        [DavCall.filler ".".toList, DavCall.filler "..".toList,
         DavCall.enumerate "/d".toList false,
         DavCall.read_updated_children "/d".toList,
         DavCall.propfind "/d".toList (some 890) 1]⟩
      "/d".toList "/d".toList (-2) 5 (by decide) (by decide) (by decide) (by decide)).2 rfl).1,
    ((C14_readdir_update_fails ex_cfg ex_lib ex_dav_env_fail_late ex_dav
      ⟨ex_dav.cache, 50,
        [DavCall.filler ".".toList, DavCall.filler "..".toList,
         DavCall.enumerate "/d".toList false]⟩
      ⟨ex_dav.cache, 50,
        [DavCall.filler ".".toList, DavCall.filler "..".toList,
         DavCall.enumerate "/d".toList false,
         DavCall.read_updated_children "/d".toList,
         DavCall.propfind "/d".toList (some 890) 1]⟩
      "/d".toList "/d".toList (-2) 5 (by decide) (by decide) (by decide) (by decide)).1 rfl).1,
    ((C14_readdir_update_fails ex_cfg ex_lib ex_dav_env_fail_late ex_dav
      ⟨ex_dav.cache, 50,
        [DavCall.filler ".".toList, DavCall.filler "..".toList,
         DavCall.enumerate "/d".toList false]⟩
      ⟨ex_dav.cache, 50,
        [DavCall.filler ".".toList, DavCall.filler "..".toList,
         DavCall.enumerate "/d".toList false,
         DavCall.read_updated_children "/d".toList,
         DavCall.propfind "/d".toList (some 890) 1]⟩
      "/d".toList "/d".toList (-2) 5 (by decide) (by decide) (by decide) (by decide)).1 rfl).2.1,
    by decide⟩

/-- C15. `update_directory` writes the children-updated timestamp of the directory exactly
when it sets no error.  When it sets no error, the stored timestamps are the old ones with the
directory bound to the clock reading taken before the listing that succeeded: the reading
taken before the windowed listing when that listing returned 0, else the reading taken before
the complete listing.  When it sets an error (windowed listing, complete listing,
`stat_cache_delete_older` or any other failure) the stored timestamps are unchanged. -/
theorem C15_children_timestamp (cfg : fusedav_config) (lib : Lib) (env : DavEnv) (d : Dav)
    (path : List Char) (attempt : Bool) :
    ((update_directory cfg lib env d path attempt).1 = none →
      (update_directory cfg lib env d path attempt).2.cache.updated_children =
        tbl_put path
          (if (attempt && cfg.progressive_propfind && decide (env.progressive.result = 0)) = true
            then env.time_progressive else env.time_complete)
          d.cache.updated_children) ∧
    ((update_directory cfg lib env d path attempt).1 ≠ none →
      (update_directory cfg lib env d path attempt).2.cache.updated_children =
        d.cache.updated_children) := by
  unfold update_directory
  simp only [simple_propfind_with_redirect]
  by_cases hb : (attempt && cfg.progressive_propfind) = true
  · rw [if_pos hb]
    cases hr : env.read_updated_error with
    | some code => simp
    | none =>
      simp only
      by_cases h0 : env.progressive.result = 0 ∧ env.inject_0 = false
      · rw [if_pos h0]
        have h := update_directory_mark_updated_children env
          { cache := env.progressive.responses.foldl (getdir_propfind_callback lib) d.cache,
            last_failure := d.last_failure,
            calls := d.calls ++ [DavCall.read_updated_children path] ++
              [DavCall.propfind path (some (changes_since
                (stat_cache_read_updated_children d.cache path))) PROPFIND_DEPTH_ONE] }
          path env.time_progressive
        simpa [hb, h0.1, foldl_callback_updated_children] using h
      · rw [if_neg h0]
        by_cases h1 : env.progressive.result = - ESTALE ∧ env.inject_0 = false
        · rw [if_pos h1]
          have h := update_directory_complete_updated_children lib env
            { cache := env.progressive.responses.foldl (getdir_propfind_callback lib) d.cache,
              last_failure := d.last_failure,
              calls := d.calls ++ [DavCall.read_updated_children path] ++
                [DavCall.propfind path (some (changes_since
                  (stat_cache_read_updated_children d.cache path))) PROPFIND_DEPTH_ONE] }
            path
          have hne : ¬ env.progressive.result = 0 := by
            rw [h1.1]; decide
          simpa [hb, hne, foldl_callback_updated_children] using h
        · rw [if_neg h1]
          simp [foldl_callback_updated_children]
  · rw [if_neg hb]
    have h := update_directory_complete_updated_children lib env d path
    simpa [hb] using h

/-- C15, witness: on the example state (timestamp 900 for "/d") a successful windowed
listing stores 1001, a stale window followed by a successful complete listing stores 1002,
and a failed listing leaves 900. -/
theorem C15_children_timestamp_witness :
    (update_directory ex_cfg ex_lib ex_dav_env ex_dav "/d".toList true).2.cache.updated_children
      = [("/d".toList, 1001)] ∧
    (update_directory ex_cfg ex_lib ex_dav_env_stale ex_dav "/d".toList true).2.cache.updated_children
      = [("/d".toList, 1002)] ∧
    (update_directory ex_cfg ex_lib ex_dav_env_fail ex_dav "/d".toList true).2.cache.updated_children
      = [("/d".toList, 900)] :=
  ⟨(C15_children_timestamp ex_cfg ex_lib ex_dav_env ex_dav "/d".toList true).1 (by decide),
   (C15_children_timestamp ex_cfg ex_lib ex_dav_env_stale ex_dav "/d".toList true).1 (by decide),
   (C15_children_timestamp ex_cfg ex_lib ex_dav_env_fail ex_dav "/d".toList true).2 (by decide)⟩

/-- C16. In `update_directory` with `attempt_progessive_update` set and
`progressive_propfind` configured, when the stored children-updated timestamp `t` is read
without error and is a clock reading with `10 ≤ t < 2^63`: a windowed PROPFIND is requested
whose `changes_since` is the number `t - 10`.  If it returns 0 and no error is injected, the
only further call is the write of the timestamp: no complete PROPFIND is issued.  If it
returns `-ESTALE` and no error is injected, the generation is sampled and the complete
PROPFIND is issued, and no PROPFIND follows it.  On any other result, or with an injected
error, `update_directory` sets `EIO` and makes no further call.  When
`attempt_progessive_update` is false or `progressive_propfind` is off, the first calls are
the generation sample and the complete PROPFIND, and no other PROPFIND is issued. -/
theorem C16_progressive_listing (cfg : fusedav_config) (lib : Lib) (env : DavEnv) (d : Dav)
    (path : List Char) (attempt : Bool) :
    (attempt = true → cfg.progressive_propfind = true → env.read_updated_error = none →
      10 ≤ stat_cache_read_updated_children d.cache path →
      stat_cache_read_updated_children d.cache path < 2 ^ 63 →
      ∃ n : Nat, (n : Int) = stat_cache_read_updated_children d.cache path - 10 ∧
      (env.progressive.result = 0 → env.inject_0 = false →
        (update_directory cfg lib env d path attempt).1 = env.updated_children_error ∧
        (update_directory cfg lib env d path attempt).2.calls = d.calls ++
          [DavCall.read_updated_children path,
           DavCall.propfind path (some n) 1,
           DavCall.updated_children path env.time_progressive]) ∧
      (env.progressive.result = - ESTALE → env.inject_0 = false →
        ∃ rest, (update_directory cfg lib env d path attempt).2.calls = d.calls ++
          [DavCall.read_updated_children path,
           DavCall.propfind path (some n) 1,
           DavCall.get_local_generation
             (env.progressive.responses.foldl (getdir_propfind_callback lib) d.cache).generation,
           DavCall.propfind path none 1] ++ rest ∧
          ∀ c ∈ rest, is_propfind c = false) ∧
      (¬ (env.progressive.result = 0 ∨ env.progressive.result = - ESTALE) ∨
          env.inject_0 = true →
        (update_directory cfg lib env d path attempt).1 = some EIO ∧
        (update_directory cfg lib env d path attempt).2.calls = d.calls ++
          [DavCall.read_updated_children path,
           DavCall.propfind path (some n) 1])) ∧
    (attempt = false ∨ cfg.progressive_propfind = false →
      ∃ rest, (update_directory cfg lib env d path attempt).2.calls = d.calls ++
        [DavCall.get_local_generation d.cache.generation, DavCall.propfind path none 1] ++ rest ∧
        ∀ c ∈ rest, is_propfind c = false) := by
  have hcomplete : ∀ d0 : Dav, ∃ rest,
      (update_directory_complete lib env d0 path).2.calls = d0.calls ++
        [DavCall.get_local_generation d0.cache.generation, DavCall.propfind path none 1] ++ rest ∧
      ∀ c ∈ rest, is_propfind c = false := by
    intro d0
    have h := update_directory_complete_calls lib env d0 path
    by_cases hf : env.complete.result < 0 ∨ env.inject_1 = true
    · exact ⟨[], by rw [(h.1 hf).2]; simp [PROPFIND_DEPTH_ONE], by simp⟩
    · refine ⟨[DavCall.delete_older path d0.cache.generation] ++
        (if env.delete_older_error = none
          then [DavCall.updated_children path env.time_complete] else []), ?_, ?_⟩
      · rw [h.2 hf]; simp [PROPFIND_DEPTH_ONE]
      · intro c hc
        split_ifs at hc
        · simp only [List.singleton_append, List.mem_cons, List.mem_singleton,
            List.not_mem_nil, or_false] at hc
          rcases hc with hc | hc <;> subst hc <;> rfl
        · simp only [List.append_nil, List.mem_singleton] at hc
          subst hc; rfl
  refine ⟨?_, ?_⟩
  · intro ha hp hr h10 hmax
    have hb : (attempt && cfg.progressive_propfind) = true := by rw [ha, hp]; rfl
    refine ⟨changes_since (stat_cache_read_updated_children d.cache path),
      changes_since_of_ge _ h10 hmax, ?_, ?_, ?_⟩
    · intro h0 hi
      unfold update_directory
      rw [if_pos hb]
      simp only [hr, simple_propfind_with_redirect]
      rw [if_pos ⟨h0, hi⟩]
      have h := update_directory_mark_calls env
        { cache := env.progressive.responses.foldl (getdir_propfind_callback lib) d.cache,
          last_failure := d.last_failure,
          calls := d.calls ++ [DavCall.read_updated_children path] ++
            [DavCall.propfind path (some (changes_since
              (stat_cache_read_updated_children d.cache path))) PROPFIND_DEPTH_ONE] }
        path env.time_progressive
      refine ⟨h.1, ?_⟩
      rw [h.2]
      simp [PROPFIND_DEPTH_ONE]
    · intro h0 hi
      unfold update_directory
      rw [if_pos hb]
      simp only [hr, simple_propfind_with_redirect]
      have hne : ¬ (env.progressive.result = 0 ∧ env.inject_0 = false) := by
        rw [h0]; intro h; exact absurd h.1 (by decide)
      rw [if_neg hne, if_pos ⟨h0, hi⟩]
      obtain ⟨rest, h1, h2⟩ := hcomplete
        { cache := env.progressive.responses.foldl (getdir_propfind_callback lib) d.cache,
          last_failure := d.last_failure,
          calls := d.calls ++ [DavCall.read_updated_children path] ++
            [DavCall.propfind path (some (changes_since
              (stat_cache_read_updated_children d.cache path))) PROPFIND_DEPTH_ONE] }
      refine ⟨rest, ?_, h2⟩
      rw [h1]
      simp [PROPFIND_DEPTH_ONE]
    · intro h0
      unfold update_directory
      rw [if_pos hb]
      simp only [hr, simple_propfind_with_redirect]
      have hne : ¬ (env.progressive.result = 0 ∧ env.inject_0 = false) := by
        rintro ⟨h1, h2⟩
        rcases h0 with h0 | h0
        · exact h0 (Or.inl h1)
        · rw [h2] at h0; exact absurd h0 (by decide)
      have hne2 : ¬ (env.progressive.result = - ESTALE ∧ env.inject_0 = false) := by
        rintro ⟨h1, h2⟩
        rcases h0 with h0 | h0
        · exact h0 (Or.inr h1)
        · rw [h2] at h0; exact absurd h0 (by decide)
      rw [if_neg hne, if_neg hne2]
      exact ⟨rfl, by simp [PROPFIND_DEPTH_ONE]⟩
  · intro h
    have hb : ¬ (attempt && cfg.progressive_propfind) = true := by
      rcases h with h | h <;> simp [h]
    unfold update_directory
    rw [if_neg hb]
    exact hcomplete d

/-- C16, witness: with the stored timestamp 900 the windowed PROPFIND carries
`changes_since=890`; it succeeds and only the timestamp write follows. -/
theorem C16_progressive_listing_witness :
    stat_cache_read_updated_children ex_dav.cache "/d".toList = 900 ∧
    (update_directory ex_cfg ex_lib ex_dav_env ex_dav "/d".toList true).1 = none ∧
    (update_directory ex_cfg ex_lib ex_dav_env ex_dav "/d".toList true).2.calls =
      [DavCall.read_updated_children "/d".toList,
       DavCall.propfind "/d".toList (some 890) 1,
       DavCall.updated_children "/d".toList 1001] := by
  obtain ⟨n, hn, h1, -, -⟩ :=
    (C16_progressive_listing ex_cfg ex_lib ex_dav_env ex_dav "/d".toList true).1 rfl rfl rfl
      (by decide) (by decide)
  have ht : stat_cache_read_updated_children ex_dav.cache "/d".toList = 900 := by decide
  rw [ht] at hn
  have hn2 : n = 890 := by omega
  subst hn2
  exact ⟨ht, h1 rfl rfl⟩

/-- C17. The full-refresh path of `update_directory` is `update_directory_complete`: it is
all of `update_directory` when no windowed listing is attempted, and it is entered after a
windowed listing that returned `-ESTALE`.  In it the local generation is sampled first and the
complete PROPFIND is issued next.  When the listing failed (negative result, or injected
error) `update_directory` sets `EIO` and these two are its only calls:
`stat_cache_delete_older` is not called.  When the listing succeeded,
`stat_cache_delete_older` is called next, once, with the directory path and exactly that
sample, and the only call that can follow is the write of the timestamp. -/
theorem C17_full_refresh (cfg : fusedav_config) (lib : Lib) (env : DavEnv) (d : Dav)
    (path : List Char) (attempt : Bool) :
    ((attempt && cfg.progressive_propfind) = false →
      update_directory cfg lib env d path attempt = update_directory_complete lib env d path) ∧
    (attempt = true → cfg.progressive_propfind = true → env.read_updated_error = none →
      env.progressive.result = - ESTALE → env.inject_0 = false →
      update_directory cfg lib env d path attempt =
        update_directory_complete lib env
          ⟨env.progressive.responses.foldl (getdir_propfind_callback lib) d.cache,
            d.last_failure,
            d.calls ++ [DavCall.read_updated_children path,
              DavCall.propfind path
                (some (changes_since (stat_cache_read_updated_children d.cache path))) 1]⟩
          path) ∧
    (env.complete.result < 0 ∨ env.inject_1 = true →
      (update_directory_complete lib env d path).1 = some EIO ∧
      (update_directory_complete lib env d path).2.calls = d.calls ++
        [DavCall.get_local_generation d.cache.generation,
         DavCall.propfind path none 1]) ∧
    (¬ (env.complete.result < 0 ∨ env.inject_1 = true) →
      (update_directory_complete lib env d path).2.calls = d.calls ++
        [DavCall.get_local_generation d.cache.generation,
         DavCall.propfind path none 1,
         DavCall.delete_older path d.cache.generation] ++
        (if env.delete_older_error = none
          then [DavCall.updated_children path env.time_complete] else [])) := by
  refine ⟨?_, ?_, (update_directory_complete_calls lib env d path).1,
    (update_directory_complete_calls lib env d path).2⟩
  · intro hb
    unfold update_directory
    rw [if_neg (by rw [hb]; decide)]
  · intro ha hp hr h0 hi
    have hb : (attempt && cfg.progressive_propfind) = true := by rw [ha, hp]; rfl
    have hne : ¬ (env.progressive.result = 0 ∧ env.inject_0 = false) := by
      rw [h0]; intro h; exact absurd h.1 (by decide)
    unfold update_directory
    rw [if_pos hb]
    simp only [hr, simple_propfind_with_redirect]
    rw [if_neg hne, if_pos ⟨h0, hi⟩]
    simp [PROPFIND_DEPTH_ONE]

/-- C17, witness: on the example state (generation 7) a successful complete listing is
followed by `stat_cache_delete_older("/d", 7)`; a failed one sets `EIO` after the sample and
the PROPFIND. -/
theorem C17_full_refresh_witness :
    (update_directory ex_cfg ex_lib ex_dav_env ex_dav "/d".toList false).2.calls =
      [DavCall.get_local_generation 7,
       DavCall.propfind "/d".toList none 1,
       DavCall.delete_older "/d".toList 7,
       DavCall.updated_children "/d".toList 1002] ∧
    update_directory ex_cfg ex_lib ex_dav_env_fail ex_dav "/d".toList false =
      (some EIO, { ex_dav with
        cache := { ex_dav.cache with generation := 8 },
        calls := [DavCall.get_local_generation 7, DavCall.propfind "/d".toList none 1] }) :=
  ⟨((C17_full_refresh ex_cfg ex_lib ex_dav_env ex_dav "/d".toList false).1 rfl).symm ▸
      (C17_full_refresh ex_cfg ex_lib ex_dav_env ex_dav "/d".toList false).2.2.2 (by decide),
    by
      rw [(C17_full_refresh ex_cfg ex_lib ex_dav_env_fail ex_dav "/d".toList false).1 rfl]
      decide⟩

/-- C18. For a file entry visited by the loop of `ldb_filecache_cleanup` at time `now`
(leveldb deleting without error): if its body file does not exist the entry is deleted;
otherwise if `now - last_server_update > 691200` the entry is deleted and its body file is
unlinked; otherwise (also at an age of exactly 691200 seconds) the store and the directory
are unchanged, so the entry is kept as it is, and the mtime of its body file is `now`. -/
theorem C18_cleanup_visit (env : Env) (w : World) (path : List Char)
    (p : ldb_filecache_pdata) (hdel : env.del_err = false) :
    (tbl_get p.filename w.names = none →
      tbl_get (path2key path) (ldb_filecache_cleanup_visit env w path p).kv = none) ∧
    (∀ ino, tbl_get p.filename w.names = some ino →
      env.now - p.last_server_update > 691200 →
      tbl_get (path2key path) (ldb_filecache_cleanup_visit env w path p).kv = none ∧
      tbl_get p.filename (ldb_filecache_cleanup_visit env w path p).names = none) ∧
    (∀ ino i, tbl_get p.filename w.names = some ino → w.inodes[ino]? = some i →
      env.now - p.last_server_update ≤ 691200 →
      (ldb_filecache_cleanup_visit env w path p).kv = w.kv ∧
      (ldb_filecache_cleanup_visit env w path p).names = w.names ∧
      posix_stat_mtime (ldb_filecache_cleanup_visit env w path p) p.filename = some env.now) := by
  refine ⟨?_, ?_, ?_⟩
  · intro hmiss
    unfold ldb_filecache_cleanup_visit posix_access
    simp only [hmiss]
    rw [if_pos (by decide), ldb_filecache_delete_kv _ _ _ hdel]
    exact tbl_get_del_self _ _
  · intro ino hex hold
    have hold' : env.now - p.last_server_update > AGE_OUT_THRESHOLD := hold
    unfold ldb_filecache_cleanup_visit posix_access
    simp only [hex, ne_eq, not_true_eq_false, ↓reduceIte, hold']
    constructor
    · rw [(posix_unlink_frame _ _).1, ldb_filecache_delete_kv _ _ _ hdel]
      exact tbl_get_del_self _ _
    · rw [posix_unlink_names]
      exact tbl_get_del_self _ _
  · intro ino i hex hino hyoung
    have hyoung' : ¬ (env.now - p.last_server_update > AGE_OUT_THRESHOLD) := by
      simp only [AGE_OUT_THRESHOLD]; omega
    obtain ⟨h1, h2, h3⟩ := cleanup_visit_kept env w path p ino hex hyoung'
    refine ⟨h1, h2, ?_⟩
    unfold posix_stat_mtime
    rw [h2, hex]
    simp only [h3, inode_touch_self env.now ino w.inodes i hino, Option.map]

/-- C18, witness: the entry of the example world was revalidated at time 90.  Visited at
time 691290, at an age of exactly 691200 seconds, it is kept and its body file is stamped;
visited one second later the entry is deleted and the body file unlinked. -/
theorem C18_cleanup_visit_witness :
    ex_env_691290.now - ex_entry.last_server_update = 691200 ∧
    ((ldb_filecache_cleanup_visit ex_env_691290 ex_world "/a".toList ex_entry).kv = ex_world.kv ∧
      (ldb_filecache_cleanup_visit ex_env_691290 ex_world "/a".toList ex_entry).names
        = ex_world.names ∧
      posix_stat_mtime (ldb_filecache_cleanup_visit ex_env_691290 ex_world "/a".toList ex_entry)
        ex_entry.filename = some 691290) ∧
    (tbl_get (path2key "/a".toList)
        (ldb_filecache_cleanup_visit ex_env_691291 ex_world "/a".toList ex_entry).kv = none ∧
      tbl_get ex_entry.filename
        (ldb_filecache_cleanup_visit ex_env_691291 ex_world "/a".toList ex_entry).names = none) :=
  ⟨by decide,
    (C18_cleanup_visit ex_env_691290 ex_world "/a".toList ex_entry rfl).2.2 0 ⟨[7, 8, 9], 90⟩
      (by decide) (by decide) (by decide),
    (C18_cleanup_visit ex_env_691291 ex_world "/a".toList ex_entry rfl).2.1 0
      (by decide) (by decide)⟩

/-- C19. In `ldb_filecache_cleanup` started at time `now`, for every file directly under
`cache_path/files/` whose mtime, as `stat` reads it in the orphan pass, is `m`: if
`m < now` the file is unlinked, and if `now ≤ m` the orphan pass leaves its name as it was.
Run on the state holding one body file with mtime 5 and no entry naming it, at time 100, the
cleanup unlinks that file and leaves the store as it was. -/
theorem C19_orphan_pass (env : Env) (w : World) (cache_path n d : List Char) (m : Int)
    (hd : dir_entry_name (cache_path ++ "/files".toList) n = some d)
    (hm : posix_stat_mtime
      (ldb_filecache_cleanup_loop env (leveldb_iter_seek w.kv filecache_prefix) w) n = some m) :
    (m < env.now → tbl_get n (ldb_filecache_cleanup env w cache_path).names = none) ∧
    (env.now ≤ m → tbl_get n (ldb_filecache_cleanup env w cache_path).names =
      tbl_get n
        (ldb_filecache_cleanup_loop env (leveldb_iter_seek w.kv filecache_prefix) w).names) ∧
    (ldb_filecache_cleanup ex_env ex_orphan_world "/c".toList).names = [] ∧
    (ldb_filecache_cleanup ex_env ex_orphan_world "/c".toList).kv = ex_orphan_world.kv := by
  have hcl : ldb_filecache_cleanup env w cache_path =
      (cleanup_orphans (ldb_filecache_cleanup_loop env
        (leveldb_iter_seek w.kv filecache_prefix) w) cache_path env.now).2 := rfl
  refine ⟨?_, ?_, by decide, by decide⟩
  · intro hlt
    rw [hcl, cleanup_orphans_names]
    have ho : is_orphan (ldb_filecache_cleanup_loop env
        (leveldb_iter_seek w.kv filecache_prefix) w) env.now n = true := by
      simp only [is_orphan, hm, hlt, decide_True]
    rw [if_pos ⟨by rw [hd]; rfl, ho⟩]
  · intro hge
    rw [hcl, cleanup_orphans_names]
    have ho : ¬ is_orphan (ldb_filecache_cleanup_loop env
        (leveldb_iter_seek w.kv filecache_prefix) w) env.now n = true := by
      have : ¬ m < env.now := by omega
      simp only [is_orphan, hm, this, decide_False, Bool.false_eq_true, not_false_eq_true]
    rw [if_neg (fun hh => ho hh.2)]

/-- C19, witness: the unreferenced body file with mtime 5 is unlinked by a cleanup started
at time 100, and kept by a cleanup started at time 5. -/
theorem C19_orphan_pass_witness :
    dir_entry_name ("/c".toList ++ "/files".toList) "/c/files/fusedav-cache-orphan".toList
      = some "fusedav-cache-orphan".toList ∧
    tbl_get "/c/files/fusedav-cache-orphan".toList
      (ldb_filecache_cleanup ex_env ex_orphan_world "/c".toList).names = none ∧
    tbl_get "/c/files/fusedav-cache-orphan".toList
      (ldb_filecache_cleanup ex_env_5 ex_orphan_world "/c".toList).names = some 0 :=
  ⟨by decide,
    (C19_orphan_pass ex_env ex_orphan_world "/c".toList "/c/files/fusedav-cache-orphan".toList
      "fusedav-cache-orphan".toList 5 (by decide) (by decide)).1 (by decide),
    (C19_orphan_pass ex_env_5 ex_orphan_world "/c".toList "/c/files/fusedav-cache-orphan".toList
      "fusedav-cache-orphan".toList 5 (by decide) (by decide)).2.1 (by decide)⟩

/-- C20 (amended). Let `ldb_filecache_cleanup` run at time `now` with leveldb reading and
deleting without error, from a state in which no two file entries name the same body file and
every file directly under `cache_path/files/` either is named by a file entry or has an mtime
strictly earlier than `now` and no second name.  Afterwards every file entry left in the
store names a body file that exists, and every file directly under `cache_path/files/` is
named by a file entry left in the store. -/
theorem C20_cleanup_invariant (env : Env) (w : World) (cache_path : List Char)
    (hget : env.get_err = false) (hdel : env.del_err = false)
    (h1 : no_shared_body w)
    (h2 : ∀ (n d : List Char) (ino : Nat),
      dir_entry_name (cache_path ++ "/files".toList) n = some d →
      tbl_get n w.names = some ino →
      (∃ k p, (key2path k).isSome = true ∧ tbl_get k w.kv = some p ∧ p.filename = n) ∨
      (is_orphan w env.now n = true ∧ ∀ n', tbl_get n' w.names = some ino → n' = n)) :
    (∀ (k : List Char) (p : ldb_filecache_pdata), (key2path k).isSome = true →
      tbl_get k (ldb_filecache_cleanup env w cache_path).kv = some p →
      ∃ ino, tbl_get p.filename (ldb_filecache_cleanup env w cache_path).names = some ino) ∧
    (∀ (n d : List Char) (ino : Nat),
      dir_entry_name (cache_path ++ "/files".toList) n = some d →
      tbl_get n (ldb_filecache_cleanup env w cache_path).names = some ino →
      ∃ k p, (key2path k).isSome = true ∧
        tbl_get k (ldb_filecache_cleanup env w cache_path).kv = some p ∧ p.filename = n) := by
  constructor
  · intro k p hk hp
    exact (cleanup_kept env w cache_path hget hdel h1 k p hk hp).2
  · intro n d ino hd hn
    have hr := cleanup_visited_ready w
    have hnd := cleanup_visited_keys w
    rw [ldb_filecache_cleanup_eq] at hn ⊢
    rw [(cleanup_orphans_frame _ _ _).1]
    rw [cleanup_orphans_names] at hn
    have hno : ¬ is_orphan (ldb_filecache_cleanup_loop env (cleanup_visited w) w) env.now n
        = true := by
      intro ho
      rw [if_pos ⟨by rw [hd]; rfl, ho⟩] at hn
      cases hn
    rw [if_neg (fun hh => hno hh.2)] at hn
    have hn0 := loop_names_shrink env hget hdel _ w hr hnd n ino hn
    by_cases href : ∃ e ∈ cleanup_visited w, e.2.filename = n
    · obtain ⟨e, he, hen⟩ := href
      refine ⟨e.1, e.2, ((mem_cleanup_visited w e.1 e.2).1 he).2, ?_, hen⟩
      exact loop_entry_of_file env hget hdel _ w hr hnd e he ino (by rw [hen]; exact hn)
    · exfalso
      rcases h2 n d ino hd hn0 with ⟨k, p, hk, hp, hpn⟩ | ⟨ho, huniq⟩
      · exact href ⟨(k, p), (mem_cleanup_visited w k p).2 ⟨hp, hk⟩, hpn⟩
      · apply hno
        have hunt := loop_inode_untouched env hget hdel _ w hr hnd ino (by
          intro e he heq
          exact href ⟨e, he, huniq _ heq⟩)
        unfold is_orphan posix_stat_mtime at ho ⊢
        rw [hn0] at ho
        rw [hn]
        simp only at ho ⊢
        rw [hunt]
        exact ho

/-- C20, witness: the example world satisfies the conditions, and after the cleanup its
entry "fc:/a" is still there and names a file that exists. -/
theorem C20_cleanup_invariant_witness :
    no_shared_body ex_world ∧
    tbl_get ("fc:/a".toList) (ldb_filecache_cleanup ex_env ex_world "/c".toList).kv = some ex_entry ∧
    ∃ ino, tbl_get ex_entry.filename (ldb_filecache_cleanup ex_env ex_world "/c".toList).names
      = some ino :=
  ⟨ex_world_no_shared_body, by decide,
    (C20_cleanup_invariant ex_env ex_world "/c".toList rfl rfl ex_world_no_shared_body
      (ex_world_files_referenced ex_env)).1 "fc:/a".toList ex_entry (by decide) (by decide)⟩

/-- C20, counterexample: (1) a body file with mtime 5 that no entry names survives a
cleanup started at time 5, so a file under `files/` is named by no entry; (2) when two
entries name the same body file and one of them has aged out, the cleanup started at time
700000 unlinks the body file and leaves the other entry, which then names no file. -/
theorem C20_unreferenced_recent_file_counterexample :
    (ex_orphan_world.kv = [("st:/a".toList, ⟨[], [], 0⟩)] ∧
      posix_stat_mtime ex_orphan_world "/c/files/fusedav-cache-orphan".toList = some 5 ∧
      (ldb_filecache_cleanup ex_env_5 ex_orphan_world "/c".toList).kv
        = [("st:/a".toList, ⟨[], [], 0⟩)] ∧
      tbl_get "/c/files/fusedav-cache-orphan".toList
        (ldb_filecache_cleanup ex_env_5 ex_orphan_world "/c".toList).names = some 0) ∧
    (tbl_get "fc:/a".toList (ldb_filecache_cleanup ex_env_700000 ex_shared_world "/c".toList).kv
        = some ⟨ex_old_name, [], 100000⟩ ∧
      tbl_get ex_old_name
        (ldb_filecache_cleanup ex_env_700000 ex_shared_world "/c".toList).names = none) := by
  decide

/-! ## Lemmas on the callbacks of fusedav.c and on the frame of the sweep -/

/-- The key of a path gives the path back. -/
theorem key2path_path2key (p : List Char) : key2path (path2key p) = some p := by
  simp [key2path, path2key, filecache_prefix]

/-- A key that does not start with "fc:" has no path. -/
theorem key2path_none (k : List Char) (h : filecache_prefix.isPrefixOf k = false) :
    key2path k = none := by
  unfold key2path
  rw [if_neg (by rw [h]; decide)]

/-- The store after `ldb_filecache_delete` is the old store, with or without the key of
the path. -/
theorem ldb_filecache_delete_kv_cases (env : Env) (w : World) (path : List Char) :
    (ldb_filecache_delete env w path).2.kv = w.kv ∨
    (ldb_filecache_delete env w path).2.kv = tbl_del (path2key path) w.kv := by
  unfold ldb_filecache_delete
  cases hd : env.del_err
  · right
    simp only [Bool.false_eq_true, ↓reduceIte]
    cases ldb_filecache_pdata_get env w path with
    | none => rfl
    | some p => exact (posix_unlink_frame _ _).1
  · left
    simp only [↓reduceIte]
    cases ldb_filecache_pdata_get env w path with
    | none => rfl
    | some p => exact (posix_unlink_frame _ _).1

/-- The store after the visit of one entry is the old store, with or without the key of
the path visited. -/
theorem cleanup_visit_kv_cases (env : Env) (w : World) (path : List Char)
    (p : ldb_filecache_pdata) :
    (ldb_filecache_cleanup_visit env w path p).kv = w.kv ∨
    (ldb_filecache_cleanup_visit env w path p).kv = tbl_del (path2key path) w.kv := by
  unfold ldb_filecache_cleanup_visit posix_access
  cases hn : tbl_get p.filename w.names with
  | none =>
    simp only
    rw [if_pos (by decide)]
    exact ldb_filecache_delete_kv_cases env { w with errno := ENOENT } path
  | some ino =>
    simp only
    rw [if_neg (by decide)]
    split_ifs
    · rw [(posix_unlink_frame _ _).1]
      exact ldb_filecache_delete_kv_cases env w path
    · left
      unfold posix_utime
      rw [hn]

/-- The cleanup loop leaves every key alone that does not start with "fc:". -/
theorem cleanup_loop_kv_frame (env : Env) (l : List (List Char × ldb_filecache_pdata))
    (w : World) (k : List Char) (hk : key2path k = none) :
    tbl_get k (ldb_filecache_cleanup_loop env l w).kv = tbl_get k w.kv := by
  induction l generalizing w with
  | nil => rfl
  | cons e rest ih =>
    obtain ⟨key, pdata⟩ := e
    unfold ldb_filecache_cleanup_loop
    cases hkey : key2path key with
    | none => rfl
    | some path =>
      simp only
      rw [ih]
      have hne : k ≠ path2key path := by
        intro h
        rw [h, key2path_path2key] at hk
        cases hk
      rcases cleanup_visit_kv_cases env w path pdata with h | h
      · rw [h]
      · rw [h, tbl_get_del_ne hne]

/-- On entries whose keys all start with "fc:" the cleanup loop is the visit of every
entry in turn. -/
theorem cleanup_loop_foldl (env : Env) (l : List (List Char × ldb_filecache_pdata))
    (w : World) (h : ∀ e ∈ l, (key2path e.1).isSome = true) :
    ldb_filecache_cleanup_loop env l w =
      l.foldl (fun w' e => ldb_filecache_cleanup_visit env w' (e.1.drop 3) e.2) w := by
  induction l generalizing w with
  | nil => rfl
  | cons e rest ih =>
    obtain ⟨key, pdata⟩ := e
    have hk := h (key, pdata) (List.mem_cons_self _ _)
    have hpath : key2path key = some (key.drop 3) := by
      unfold key2path at hk ⊢
      split_ifs at hk ⊢
      · rfl
      · cases hk
    unfold ldb_filecache_cleanup_loop
    simp only [hpath, List.foldl_cons]
    exact ih _ (fun e he => h e (List.mem_cons_of_mem _ he))

/-- An error code that is propagated into an empty slot is set. -/
theorem g_propagate_some (code : Int) :
    g_propagate_prefixed_error none (some code) = some code := rfl

/-- The mode that `fill_stat_generic` gives a directory of unspecified mode. -/
theorem fill_stat_generic_dir_mode (now : Int) :
    (fill_stat_generic now 0 true).st_mode = S_IFDIR := by
  simp [fill_stat_generic, stat_zero]

/-- When `get_stat_from_cache` returns 0 it has set no error and the record has a non-zero
mode; with freshness ignored it returns 0 whenever it sets no error. -/
theorem get_stat_from_cache_spec (lib : Lib) (c : StatCache) (now : Int)
    (err : Option Int) (path : List Char) (stbuf : stat) (b : Bool)
    (ret : Int) (e : Option Int) (st : stat)
    (h : get_stat_from_cache lib c now err path stbuf b = (ret, e, st)) :
    (ret = 0 → e = none ∧ st.st_mode ≠ 0) ∧ (b = true → e = none → ret = 0) := by
  unfold get_stat_from_cache at h
  cases err with
  | some code =>
    simp only [Prod.mk.injEq, g_propagate_some] at h
    obtain ⟨h1, h2, -⟩ := h
    subst h1 h2
    exact ⟨fun h0 => absurd h0 (by decide), fun _ h0 => by cases h0⟩
  | none =>
    simp only at h
    cases hv : stat_cache_value_get lib c now path b with
    | none =>
      rw [hv] at h
      simp only at h
      cases b
      · simp only [Bool.false_eq_true, if_false, Prod.mk.injEq] at h
        obtain ⟨h1, h2, -⟩ := h
        subst h1 h2
        exact ⟨fun h0 => absurd h0 (by decide), fun h0 => by cases h0⟩
      · simp only [if_true, Prod.mk.injEq] at h
        obtain ⟨h1, h2, -⟩ := h
        subst h1 h2
        exact ⟨fun h0 => absurd h0 (by decide), fun _ h0 => by cases h0⟩
    | some response =>
      rw [hv] at h
      simp only at h
      by_cases hm : response.st.st_mode = 0
      · rw [if_pos hm] at h
        simp only [Prod.mk.injEq] at h
        obtain ⟨h1, h2, -⟩ := h
        subst h1 h2
        exact ⟨fun h0 => absurd h0 (by decide), fun _ h0 => by cases h0⟩
      · rw [if_neg hm] at h
        simp only [Prod.mk.injEq] at h
        obtain ⟨h1, h2, h3⟩ := h
        subst h1 h2 h3
        exact ⟨fun _ => ⟨rfl, hm⟩, fun _ _ => rfl⟩

/-- The end of `get_stat` sets an error or fills a record of non-zero mode. -/
theorem get_stat_retry_outcome (lib : Lib) (env : StatEnv) (d : Dav) (path : List Char)
    (stbuf : stat) :
    (get_stat_retry lib env d path stbuf).1 ≠ none ∨
    (get_stat_retry lib env d path stbuf).2.1.st_mode ≠ 0 := by
  unfold get_stat_retry
  rcases hh : get_stat_from_cache lib d.cache env.time_get env.get_error_after path stbuf true
    with ⟨ret, e, st⟩
  have hs := get_stat_from_cache_spec _ _ _ _ _ _ _ _ _ _ hh
  simp only
  cases e with
  | some code => left; simp [g_propagate_some]
  | none =>
    right
    have h0 := hs.2 rfl rfl
    simp only [h0, if_true]
    exact (hs.1 h0).2

/-- The zero-depth branch of `get_stat` sets an error or fills a record of non-zero mode,
unless the PROPFIND and the `stat_cache_delete` after it both fail. -/
theorem get_stat_zero_depth_outcome (lib : Lib) (env : StatEnv) (d : Dav) (path : List Char)
    (stbuf : stat) :
    (get_stat_zero_depth lib env d path stbuf).1 ≠ none ∨
    (get_stat_zero_depth lib env d path stbuf).2.1.st_mode ≠ 0 ∨
    (env.zero_depth.result < 0 ∧ env.delete_error ≠ none) := by
  unfold get_stat_zero_depth
  simp only
  by_cases hres : env.zero_depth.result < 0
  · rw [if_pos hres]
    cases hd : env.delete_error with
    | some code => right; right; exact ⟨hres, by simp⟩
    | none => left; simp
  · rw [if_neg hres]
    rcases hh : get_stat_from_cache lib
      (env.zero_depth.responses.foldl getattr_propfind_callback d.cache)
      env.time_get env.get_error_after path stbuf true with ⟨ret, e, st⟩
    have hs := get_stat_from_cache_spec _ _ _ _ _ _ _ _ _ _ hh
    simp only
    cases e with
    | some code => left; simp [g_propagate_some]
    | none => right; left; exact (hs.1 (hs.2 rfl rfl)).2

/-- The parent-refresh branch of `get_stat` sets an error or fills a record of non-zero
mode. -/
theorem get_stat_parent_outcome (cfg : fusedav_config) (lib : Lib) (env : StatEnv) (d : Dav)
    (path : List Char) (stbuf : stat) :
    (get_stat_parent cfg lib env d path stbuf).1 ≠ none ∨
    (get_stat_parent cfg lib env d path stbuf).2.1.st_mode ≠ 0 := by
  unfold get_stat_parent
  simp only
  cases env.parent_read_error with
  | some code => left; simp [g_propagate_some]
  | none =>
    simp only
    rcases hr : get_stat_refresh cfg lib env
      { cache := d.cache, last_failure := d.last_failure,
        calls := d.calls ++
          [DavCall.read_updated_children (strip_trailing_slash (lib.path_parent path)).1] }
      (strip_trailing_slash (lib.path_parent path)).1
      (stat_cache_read_updated_children d.cache
        (strip_trailing_slash (lib.path_parent path)).1) with ⟨stop, d2⟩
    cases stop with
    | some code => left; simp [g_propagate_some]
    | none => exact get_stat_retry_outcome lib env d2 path stbuf

/-- The outcome of `get_stat` is an error or a record of non-zero mode, unless the
zero-depth PROPFIND and the `stat_cache_delete` after it both fail. -/
theorem get_stat_outcome (cfg : fusedav_config) (lib : Lib) (env : StatEnv) (d : Dav)
    (path : List Char) :
    (get_stat cfg lib env d path).1 ≠ none ∨
    (get_stat cfg lib env d path).2.1.st_mode ≠ 0 ∨
    (path ≠ lib.base_directory ∧ cfg.refresh_dir_for_file_stat = false ∧
      env.zero_depth.result < 0 ∧ env.delete_error ≠ none) := by
  unfold get_stat
  simp only
  by_cases hb : path = lib.base_directory
  · right; left
    simp only [hb, decide_True, if_true]
    rw [fill_stat_generic_dir_mode]
    decide
  · simp only [hb, decide_False, Bool.false_eq_true, if_false, Bool.or_false]
    rcases hh : get_stat_from_cache lib d.cache env.time_get env.get_error path stat_zero
        (cfg.grace && use_saint_mode d.last_failure env.dir.monotonic_use) with ⟨ret, e, st⟩
    have hs := get_stat_from_cache_spec _ _ _ _ _ _ _ _ _ _ hh
    simp only
    cases e with
    | some code => left; simp [g_propagate_some]
    | none =>
      simp only
      by_cases hret : ret = 0
      · right; left
        rw [if_pos hret]
        exact (hs.1 hret).2
      · rw [if_neg hret]
        cases hr : cfg.refresh_dir_for_file_stat
        · simp only [Bool.not_false, if_true]
          rcases get_stat_zero_depth_outcome lib env d path st with h | h | h
          · exact Or.inl h
          · exact Or.inr (Or.inl h)
          · exact Or.inr (Or.inr ⟨hb, by simp, h⟩)
        · simp only [Bool.not_true, Bool.false_eq_true, if_false]
          rcases get_stat_parent_outcome cfg lib env d path st with h | h
          · exact Or.inl h
          · exact Or.inr (Or.inl h)

/-- Nothing added. -/
theorem no_request_added_refl (a : List DavCall) : no_request_added a a :=
  ⟨[], by simp, by simp⟩

/-- Additions compose. -/
theorem no_request_added_trans {a b c : List DavCall} (h1 : no_request_added a b)
    (h2 : no_request_added b c) : no_request_added a c := by
  obtain ⟨r1, e1, n1⟩ := h1
  obtain ⟨r2, e2, n2⟩ := h2
  refine ⟨r1 ++ r2, by rw [e2, e1, List.append_assoc], ?_⟩
  intro x hx
  rcases List.mem_append.1 hx with h | h
  · exact n1 x h
  · exact n2 x h

/-- Calls that are not requests may be added. -/
theorem no_request_added_append (a rest : List DavCall)
    (h : ∀ c ∈ rest, is_request c = false) : no_request_added a (a ++ rest) :=
  ⟨rest, rfl, h⟩

/-- The call that writes the timestamp is the only call at the end of `update_directory`. -/
theorem update_directory_mark_no_request (env : DavEnv) (d : Dav) (path : List Char)
    (ts : Int) : no_request_added d.calls (update_directory_mark env d path ts).2.calls := by
  rw [(update_directory_mark_calls env d path ts).2]
  apply no_request_added_append
  intro c hc
  rw [List.mem_singleton] at hc
  subst hc; rfl

/-- The full-refresh block of `update_directory` sends no request other than PROPFIND. -/
theorem update_directory_complete_no_request (lib : Lib) (env : DavEnv) (d : Dav)
    (path : List Char) :
    no_request_added d.calls (update_directory_complete lib env d path).2.calls := by
  have h := update_directory_complete_calls lib env d path
  by_cases hf : env.complete.result < 0 ∨ env.inject_1 = true
  · rw [(h.1 hf).2]
    apply no_request_added_append
    intro c hc
    simp only [List.mem_cons, List.mem_singleton, List.not_mem_nil, or_false] at hc
    rcases hc with hc | hc <;> subst hc <;> rfl
  · rw [h.2 hf, List.append_assoc]
    apply no_request_added_append
    intro c hc
    split_ifs at hc
    · simp only [List.cons_append, List.nil_append, List.mem_cons, List.mem_singleton,
        List.not_mem_nil, or_false] at hc
      rcases hc with hc | hc | hc | hc <;> subst hc <;> rfl
    · simp only [List.append_nil, List.mem_cons, List.mem_singleton, List.not_mem_nil,
        or_false] at hc
      rcases hc with hc | hc | hc <;> subst hc <;> rfl

/-- The function `update_directory` sends no request other than PROPFIND. -/
theorem update_directory_no_request (cfg : fusedav_config) (lib : Lib) (env : DavEnv)
    (d : Dav) (path : List Char) (a : Bool) :
    no_request_added d.calls (update_directory cfg lib env d path a).2.calls := by
  unfold update_directory
  simp only [simple_propfind_with_redirect]
  by_cases hb : (a && cfg.progressive_propfind) = true
  · rw [if_pos hb]
    have h1 : ∀ c ∈ [DavCall.read_updated_children path], is_request c = false := by
      intro c hc
      rw [List.mem_singleton] at hc
      subst hc; rfl
    cases env.read_updated_error with
    | some code => exact no_request_added_append _ _ h1
    | none =>
      simp only
      have h2 : no_request_added d.calls
          (d.calls ++ [DavCall.read_updated_children path] ++
            [DavCall.propfind path
              (some (changes_since (stat_cache_read_updated_children d.cache path)))
              PROPFIND_DEPTH_ONE]) := by
        rw [List.append_assoc]
        apply no_request_added_append
        intro c hc
        simp only [List.cons_append, List.nil_append, List.mem_cons, List.mem_singleton,
          List.not_mem_nil, or_false] at hc
        rcases hc with hc | hc <;> subst hc <;> rfl
      split_ifs
      · exact no_request_added_trans h2 (update_directory_mark_no_request env _ path _)
      · exact no_request_added_trans h2 (update_directory_complete_no_request lib env _ path)
      · exact h2
  · rw [if_neg hb]
    exact update_directory_complete_no_request lib env d path

/-- The zero-depth branch of `get_stat` sends no request other than PROPFIND. -/
theorem get_stat_zero_depth_no_request (lib : Lib) (env : StatEnv) (d : Dav)
    (path : List Char) (st : stat) :
    no_request_added d.calls (get_stat_zero_depth lib env d path st).2.2.calls := by
  unfold get_stat_zero_depth
  simp only
  have h1 : no_request_added d.calls
      (d.calls ++ [DavCall.propfind path none PROPFIND_DEPTH_ZERO]) := by
    apply no_request_added_append
    intro c hc
    rw [List.mem_singleton] at hc
    subst hc; rfl
  by_cases hres : env.zero_depth.result < 0
  · rw [if_pos hres]
    cases env.delete_error <;> exact h1
  · rw [if_neg hres]
    rcases get_stat_from_cache lib
      (env.zero_depth.responses.foldl getattr_propfind_callback d.cache)
      env.time_get env.get_error_after path st true with ⟨ret2, e2, st2⟩
    cases e2 <;> exact h1

/-- The refresh of the parent in `get_stat` sends no request other than PROPFIND. -/
theorem get_stat_refresh_no_request (cfg : fusedav_config) (lib : Lib) (env : StatEnv)
    (d : Dav) (parent_path : List Char) (ts : Int) :
    no_request_added d.calls (get_stat_refresh cfg lib env d parent_path ts).2.calls := by
  unfold get_stat_refresh
  by_cases hold : ts < env.time_parent - lib.negative_ttl
  · rw [if_pos hold]
    have h3 := update_directory_no_request cfg lib env.dir d parent_path (decide (ts > 0))
    rcases hu : update_directory cfg lib env.dir d parent_path (decide (ts > 0)) with ⟨ge, d2⟩
    rw [hu] at h3
    cases ge with
    | none => exact h3
    | some code =>
      simp only
      by_cases hc : code ≠ EIO ∨ cfg.grace = false
      · rw [if_pos hc]; exact h3
      · rw [if_neg hc]; exact h3
  · rw [if_neg hold]
    exact no_request_added_refl _

/-- The end of `get_stat` makes no call. -/
theorem get_stat_retry_calls (lib : Lib) (env : StatEnv) (d : Dav) (path : List Char)
    (st : stat) : (get_stat_retry lib env d path st).2.2 = d := by
  unfold get_stat_retry
  rcases get_stat_from_cache lib d.cache env.time_get env.get_error_after path st true
    with ⟨ret2, e2, st2⟩
  cases e2 with
  | some code => rfl
  | none =>
    simp only
    split_ifs <;> rfl

/-- The parent-refresh branch of `get_stat` sends no request other than PROPFIND. -/
theorem get_stat_parent_no_request (cfg : fusedav_config) (lib : Lib) (env : StatEnv)
    (d : Dav) (path : List Char) (st : stat) :
    no_request_added d.calls (get_stat_parent cfg lib env d path st).2.2.calls := by
  unfold get_stat_parent
  simp only
  have h1 : no_request_added d.calls
      (d.calls ++
        [DavCall.read_updated_children (strip_trailing_slash (lib.path_parent path)).1]) := by
    apply no_request_added_append
    intro c hc
    rw [List.mem_singleton] at hc
    subst hc; rfl
  cases env.parent_read_error with
  | some code => exact h1
  | none =>
    simp only
    have h2 := get_stat_refresh_no_request cfg lib env
      { cache := d.cache, last_failure := d.last_failure,
        calls := d.calls ++
          [DavCall.read_updated_children (strip_trailing_slash (lib.path_parent path)).1] }
      (strip_trailing_slash (lib.path_parent path)).1
      (stat_cache_read_updated_children d.cache
        (strip_trailing_slash (lib.path_parent path)).1)
    rcases hr : get_stat_refresh cfg lib env
      { cache := d.cache, last_failure := d.last_failure,
        calls := d.calls ++
          [DavCall.read_updated_children (strip_trailing_slash (lib.path_parent path)).1] }
      (strip_trailing_slash (lib.path_parent path)).1
      (stat_cache_read_updated_children d.cache
        (strip_trailing_slash (lib.path_parent path)).1) with ⟨stop, d2⟩
    rw [hr] at h2
    cases stop with
    | some code => exact no_request_added_trans h1 h2
    | none =>
      simp only
      rw [get_stat_retry_calls]
      exact no_request_added_trans h1 h2

/-- The function `get_stat` sends no request other than PROPFIND. -/
theorem get_stat_no_request (cfg : fusedav_config) (lib : Lib) (env : StatEnv) (d : Dav)
    (path : List Char) : no_request_added d.calls (get_stat cfg lib env d path).2.2.calls := by
  unfold get_stat
  simp only
  by_cases hb : path = lib.base_directory
  · simp only [hb, decide_True, if_true]
    exact no_request_added_refl _
  · simp only [hb, decide_False, Bool.false_eq_true, if_false, Bool.or_false]
    rcases hh : get_stat_from_cache lib d.cache env.time_get env.get_error path stat_zero
        (cfg.grace && use_saint_mode d.last_failure env.dir.monotonic_use) with ⟨ret, e, st⟩
    simp only
    cases e with
    | some code => exact no_request_added_refl _
    | none =>
      simp only
      by_cases hret : ret = 0
      · rw [if_pos hret]
        exact no_request_added_refl _
      · rw [if_neg hret]
        cases hr : cfg.refresh_dir_for_file_stat
        · simp only [Bool.not_false, if_true]
          exact get_stat_zero_depth_no_request lib env d path st
        · simp only [Bool.not_true, Bool.false_eq_true, if_false]
          exact get_stat_parent_no_request cfg lib env d path st

/-- With freshness ignored `stat_cache_value_get` is the lookup of the path. -/
theorem stat_cache_value_get_ignoring (lib : Lib) (c : StatCache) (now : Int)
    (path : List Char) :
    stat_cache_value_get lib c now path true = tbl_get path c.entries := by
  unfold stat_cache_value_get
  cases tbl_get path c.entries <;> simp

/-- The records after `stat_cache_set`. -/
theorem stat_cache_set_entries (c : StatCache) (path : List Char) (st : stat) :
    (stat_cache_set c path st).entries = tbl_put path ⟨st, c.generation⟩ c.entries := rfl

/-- `getattr_propfind_callback` writes no children-updated timestamp. -/
theorem foldl_getattr_updated_children (rs : List (List Char × stat × Nat)) (c : StatCache) :
    (rs.foldl getattr_propfind_callback c).updated_children = c.updated_children := by
  induction rs generalizing c with
  | nil => rfl
  | cons r rs ih =>
    rw [List.foldl_cons, ih]
    unfold getattr_propfind_callback
    split_ifs <;> rfl

/-- The only children-updated timestamp that `update_directory` can write is that of its
directory. -/
theorem update_directory_only_timestamp (cfg : fusedav_config) (lib : Lib) (env : DavEnv)
    (d : Dav) (path : List Char) (a : Bool) :
    only_timestamp_of path d.cache.updated_children
      (update_directory cfg lib env d path a).2.cache.updated_children := by
  have hmark : ∀ (d0 : Dav) (ts : Int),
      d0.cache.updated_children = d.cache.updated_children →
      only_timestamp_of path d.cache.updated_children
        (update_directory_mark env d0 path ts).2.cache.updated_children := by
    intro d0 ts h0
    have h := update_directory_mark_updated_children env d0 path ts
    by_cases he : (update_directory_mark env d0 path ts).1 = none
    · exact Or.inr ⟨ts, by rw [h.1 he, h0]⟩
    · exact Or.inl (by rw [h.2 he, h0])
  have hcomplete : ∀ d0 : Dav,
      d0.cache.updated_children = d.cache.updated_children →
      only_timestamp_of path d.cache.updated_children
        (update_directory_complete lib env d0 path).2.cache.updated_children := by
    intro d0 h0
    have h := update_directory_complete_updated_children lib env d0 path
    by_cases he : (update_directory_complete lib env d0 path).1 = none
    · exact Or.inr ⟨env.time_complete, by rw [h.1 he, h0]⟩
    · exact Or.inl (by rw [h.2 he, h0])
  unfold update_directory
  simp only [simple_propfind_with_redirect]
  by_cases hb : (a && cfg.progressive_propfind) = true
  · rw [if_pos hb]
    cases env.read_updated_error with
    | some code => exact Or.inl rfl
    | none =>
      simp only
      split_ifs
      · exact hmark _ _ (foldl_callback_updated_children lib _ _)
      · exact hcomplete _ (foldl_callback_updated_children lib _ _)
      · exact Or.inl (foldl_callback_updated_children lib _ _)
  · rw [if_neg hb]
    exact hcomplete d rfl

/-- The zero-depth branch of `get_stat` writes no children-updated timestamp. -/
theorem get_stat_zero_depth_updated_children (lib : Lib) (env : StatEnv) (d : Dav)
    (path : List Char) (st : stat) :
    (get_stat_zero_depth lib env d path st).2.2.cache.updated_children
      = d.cache.updated_children := by
  unfold get_stat_zero_depth
  simp only
  by_cases hres : env.zero_depth.result < 0
  · rw [if_pos hres]
    cases env.delete_error
    · simp [stat_cache_delete, foldl_getattr_updated_children]
    · simp [foldl_getattr_updated_children]
  · rw [if_neg hres]
    rcases get_stat_from_cache lib
      (env.zero_depth.responses.foldl getattr_propfind_callback d.cache)
      env.time_get env.get_error_after path st true with ⟨ret2, e2, st2⟩
    cases e2 <;> simp [foldl_getattr_updated_children]

/-- The refresh of the parent in `get_stat` can write the timestamp of the parent only. -/
theorem get_stat_refresh_only_timestamp (cfg : fusedav_config) (lib : Lib) (env : StatEnv)
    (d : Dav) (parent_path : List Char) (ts : Int) :
    only_timestamp_of parent_path d.cache.updated_children
      (get_stat_refresh cfg lib env d parent_path ts).2.cache.updated_children := by
  unfold get_stat_refresh
  by_cases hold : ts < env.time_parent - lib.negative_ttl
  · rw [if_pos hold]
    have h3 := update_directory_only_timestamp cfg lib env.dir d parent_path (decide (ts > 0))
    rcases hu : update_directory cfg lib env.dir d parent_path (decide (ts > 0)) with ⟨ge, d2⟩
    rw [hu] at h3
    cases ge with
    | none => exact h3
    | some code =>
      simp only
      by_cases hc : code ≠ EIO ∨ cfg.grace = false
      · rw [if_pos hc]; exact h3
      · rw [if_neg hc]; exact h3
  · rw [if_neg hold]
    exact Or.inl rfl

/-- The only children-updated timestamp that `get_stat` can write is that of the parent of
the path. -/
theorem get_stat_only_timestamp (cfg : fusedav_config) (lib : Lib) (env : StatEnv) (d : Dav)
    (path : List Char) :
    only_timestamp_of (strip_trailing_slash (lib.path_parent path)).1
      d.cache.updated_children (get_stat cfg lib env d path).2.2.cache.updated_children := by
  unfold get_stat
  simp only
  by_cases hb : path = lib.base_directory
  · simp only [hb, decide_True, if_true]
    exact Or.inl rfl
  · simp only [hb, decide_False, Bool.false_eq_true, if_false, Bool.or_false]
    rcases hh : get_stat_from_cache lib d.cache env.time_get env.get_error path stat_zero
        (cfg.grace && use_saint_mode d.last_failure env.dir.monotonic_use) with ⟨ret, e, st⟩
    simp only
    cases e with
    | some code => exact Or.inl rfl
    | none =>
      simp only
      by_cases hret : ret = 0
      · rw [if_pos hret]
        exact Or.inl rfl
      · rw [if_neg hret]
        cases hr : cfg.refresh_dir_for_file_stat
        · simp only [Bool.not_false, if_true]
          exact Or.inl (get_stat_zero_depth_updated_children lib env d path st)
        · simp only [Bool.not_true, Bool.false_eq_true, if_false]
          unfold get_stat_parent
          simp only
          cases env.parent_read_error with
          | some code => exact Or.inl rfl
          | none =>
            simp only
            have h2 := get_stat_refresh_only_timestamp cfg lib env
              { cache := d.cache, last_failure := d.last_failure,
                calls := d.calls ++
                  [DavCall.read_updated_children
                    (strip_trailing_slash (lib.path_parent path)).1] }
              (strip_trailing_slash (lib.path_parent path)).1
              (stat_cache_read_updated_children d.cache
                (strip_trailing_slash (lib.path_parent path)).1)
            rcases hr : get_stat_refresh cfg lib env
              { cache := d.cache, last_failure := d.last_failure,
                calls := d.calls ++
                  [DavCall.read_updated_children
                    (strip_trailing_slash (lib.path_parent path)).1] }
              (strip_trailing_slash (lib.path_parent path)).1
              (stat_cache_read_updated_children d.cache
                (strip_trailing_slash (lib.path_parent path)).1) with ⟨stop, d2⟩
            rw [hr] at h2
            cases stop with
            | some code => exact h2
            | none =>
              simp only
              rw [get_stat_retry_calls]
              exact h2

/-- When the first lookup of `get_stat` finds the record, `get_stat` leaves the state as it
was. -/
theorem get_stat_hit_state (cfg : fusedav_config) (lib : Lib) (env : StatEnv) (d : Dav)
    (path : List Char)
    (h : (get_stat_from_cache lib d.cache env.time_get env.get_error path stat_zero
      (cfg.grace && use_saint_mode d.last_failure env.dir.monotonic_use)).1 = 0) :
    (get_stat cfg lib env d path).2.2 = d := by
  unfold get_stat
  simp only
  by_cases hb : path = lib.base_directory
  · simp only [hb, decide_True, if_true]
  · simp only [hb, decide_False, Bool.false_eq_true, if_false, Bool.or_false]
    rcases hh : get_stat_from_cache lib d.cache env.time_get env.get_error path stat_zero
        (cfg.grace && use_saint_mode d.last_failure env.dir.monotonic_use) with ⟨ret, e, st⟩
    rw [hh] at h
    simp only at h
    simp only
    cases e with
    | some code => rfl
    | none =>
      simp only
      rw [if_pos h]

/-- After a 200 followed by a retry, the second turn of the GET loop creates a second cache
file, which becomes the body of the entry, and unlinks the first. -/
theorem get_retry_second_file :
    (ldb_get_fresh_fd ex_env_retry ex_empty "/c".toList "/a".toList none 0).1 = 1 ∧
    (ldb_get_fresh_fd ex_env_retry ex_empty "/c".toList "/a".toList none 0).2.names =
      [("/c/files/fusedav-cache-def456".toList, 1)] ∧
    (ldb_get_fresh_fd ex_env_retry ex_empty "/c".toList "/a".toList none 0).2.kv =
      [("fc:/a".toList, ⟨"/c/files/fusedav-cache-def456".toList, "E2".toList, 100⟩)] ∧
    (ldb_get_fresh_fd ex_env_retry ex_empty "/c".toList "/a".toList none 0).2.requests =
      [Request.GET "/a".toList none, Request.GET "/a".toList none] := by
  decide

/-- For a directory `dav_rename` keys the stat cache with the path followed by a slash
(the variable `from` is reassigned before the local move): the directory "/d" is renamed to
"/e" and the MOVE succeeds; the local move looks up "/d/", which has no record, so the record
stays under "/d" and nothing is written under "/e", while the result is 0. -/
theorem dav_rename_directory_slash_key :
    S_ISDIR ex_st_dir.st_mode = true ∧
    tbl_get "/d".toList ex_dav_files.cache.entries = some ⟨ex_st_dir, 2⟩ ∧
    ex_rename_env.move = none ∧
    (dav_rename ex_cfg ex_lib ex_rename_env ex_dav_files "/d".toList "/e".toList).1 = 0 ∧
    tbl_get "/d".toList
      (dav_rename ex_cfg ex_lib ex_rename_env ex_dav_files "/d".toList
        "/e".toList).2.cache.entries = some ⟨ex_st_dir, 2⟩ ∧
    tbl_get "/e".toList
      (dav_rename ex_cfg ex_lib ex_rename_env ex_dav_files "/d".toList
        "/e".toList).2.cache.entries = none := by
  decide

/-! ## The claims on rename, rmdir, paths, sessions and get_stat -/

/-- C21 (amended). Running `ldb_filecache_cleanup` twice in succession at the same clock
reading, with leveldb reading and deleting without error, from a state in which no two file
entries name the same body file: the second run leaves the store (so the set of file entries)
and the directory (so the set of body files) exactly as the first run left them, and the
inodes differ at most in modification times. -/
theorem C21_cleanup_twice_same_clock (env env2 : Env) (w : World) (cache_path : List Char)
    (hget : env.get_err = false) (hdel : env.del_err = false)
    (hget2 : env2.get_err = false) (hdel2 : env2.del_err = false)
    (hnow : env2.now = env.now) (h1 : no_shared_body w) :
    (ldb_filecache_cleanup env2 (ldb_filecache_cleanup env w cache_path) cache_path).kv
      = (ldb_filecache_cleanup env w cache_path).kv ∧
    (ldb_filecache_cleanup env2 (ldb_filecache_cleanup env w cache_path) cache_path).names
      = (ldb_filecache_cleanup env w cache_path).names ∧
    stamp_rel env.now (ldb_filecache_cleanup env w cache_path).inodes
      (ldb_filecache_cleanup env2 (ldb_filecache_cleanup env w cache_path) cache_path).inodes := by
  have hr := cleanup_visited_ready (ldb_filecache_cleanup env w cache_path)
  have hnd := cleanup_visited_keys (ldb_filecache_cleanup env w cache_path)
  have hall : ∀ e ∈ cleanup_visited (ldb_filecache_cleanup env w cache_path),
      (∃ ino, tbl_get e.2.filename (ldb_filecache_cleanup env w cache_path).names = some ino) ∧
      ¬ (env2.now - e.2.last_server_update > AGE_OUT_THRESHOLD) := by
    intro e he
    obtain ⟨he1, he2⟩ := (mem_cleanup_visited _ e.1 e.2).1 he
    obtain ⟨hy, hex⟩ := cleanup_kept env w cache_path hget hdel h1 e.1 e.2 he2 he1
    rw [hnow]
    exact ⟨hex, hy⟩
  obtain ⟨hkv, hnames⟩ := loop_unchanged env2 hget2 hdel2 _ _ hr hnd hall
  have hrel := loop_inodes_rel env2 hget2 hdel2 _ _ hr hnd
  rw [hnow] at hrel
  have hnone : (cleanup_orphans (ldb_filecache_cleanup_loop env2
      (cleanup_visited (ldb_filecache_cleanup env w cache_path))
      (ldb_filecache_cleanup env w cache_path)) cache_path env2.now).2 =
      ldb_filecache_cleanup_loop env2
        (cleanup_visited (ldb_filecache_cleanup env w cache_path))
        (ldb_filecache_cleanup env w cache_path) := by
    apply cleanup_orphans_none
    intro n d hd
    have hclean : is_orphan (ldb_filecache_cleanup env w cache_path) env.now n = false := by
      rw [ldb_filecache_cleanup_eq]
      exact cleanup_orphans_clean _ _ _ n d hd
    rw [hnow]
    unfold is_orphan posix_stat_mtime at hclean ⊢
    rw [hnames]
    cases hn : tbl_get n (ldb_filecache_cleanup env w cache_path).names with
    | none => rfl
    | some ino =>
      rw [hn] at hclean
      simp only at hclean ⊢
      cases h1i : (ldb_filecache_cleanup env w cache_path).inodes[ino]? with
      | none =>
        rw [(hrel ino).1 h1i]
        rfl
      | some i =>
        obtain ⟨i', hi', -, hm⟩ := (hrel ino).2 i h1i
        rw [hi']
        rw [h1i] at hclean
        simp only [Option.map, decide_eq_false_iff_not] at hclean ⊢
        rcases hm with hm | hm
        · rw [hm]; exact hclean
        · rw [hm]; exact lt_irrefl _
  rw [ldb_filecache_cleanup_eq env2, hnone]
  exact ⟨hkv, hnames, hrel⟩

/-- C21, witness: on the example world the second cleanup leaves the store and the
directory as the first one left them. -/
theorem C21_cleanup_twice_same_clock_witness :
    no_shared_body ex_world ∧
    (ldb_filecache_cleanup ex_env (ldb_filecache_cleanup ex_env ex_world "/c".toList)
      "/c".toList).kv = (ldb_filecache_cleanup ex_env ex_world "/c".toList).kv ∧
    (ldb_filecache_cleanup ex_env (ldb_filecache_cleanup ex_env ex_world "/c".toList)
      "/c".toList).names = (ldb_filecache_cleanup ex_env ex_world "/c".toList).names :=
  ⟨ex_world_no_shared_body,
    (C21_cleanup_twice_same_clock ex_env ex_env ex_world "/c".toList rfl rfl rfl rfl rfl
      ex_world_no_shared_body).1,
    (C21_cleanup_twice_same_clock ex_env ex_env ex_world "/c".toList rfl rfl rfl rfl rfl
      ex_world_no_shared_body).2.1⟩

/-- C21, counterexample: (1) two entries name the same body file and one of them has aged
out; the first run at time 700000 leaves the entry "fc:/a", the second run at the same time
deletes it, because its body file is gone.  (2) When the clock advances between the runs,
from 691290 to 691291, the entry that the first run kept at an age of 691200 seconds is
deleted by the second run. -/
theorem C21_second_run_deletes_counterexample :
    ((ldb_filecache_cleanup ex_env_700000 ex_shared_world "/c".toList).kv
        = [("fc:/a".toList, ⟨ex_old_name, [], 100000⟩)] ∧
      (ldb_filecache_cleanup ex_env_700000
        (ldb_filecache_cleanup ex_env_700000 ex_shared_world "/c".toList) "/c".toList).kv = []) ∧
    ((ldb_filecache_cleanup ex_env_691290 ex_world "/c".toList).kv = ex_world.kv ∧
      (ldb_filecache_cleanup ex_env_691291
        (ldb_filecache_cleanup ex_env_691290 ex_world "/c".toList) "/c".toList).kv = []) := by
  decide

/-- C22 (amended). In `dav_rename`, after `get_stat` set no error and a session was
obtained: if the MOVE succeeded the result is 0; if the MOVE failed with response code 404 or
500 the result is 0 when the local move ended with `local_ret = 0`, and else it is `-EIO`,
the initial value of `server_ret`, whatever the error of the local move; if the MOVE failed
with another code the result is `-EIO`.  A local move whose source has no stat-cache record
ends with `local_ret = -ENOENT`. -/
theorem C22_rename_result (cfg : fusedav_config) (lib : Lib) (env : RenameEnv) (d d1 : Dav)
    (src dst : List Char) (st : stat)
    (hstat : get_stat cfg lib env.stat d (path_cvt_str lib src) = (none, st, d1))
    (hsess : env.session_ok = true) :
    (env.move = none → (dav_rename cfg lib env d src dst).1 = 0) ∧
    (∀ code : Int, env.move = some code → code = 404 ∨ code = 500 →
      (dav_rename cfg lib env d src dst).1 =
        if (dav_rename_local lib env
            ⟨d1.cache, d1.last_failure, d1.calls ++
              [DavCall.request "MOVE".toList (dav_rename_from st (path_cvt_str lib src))
                (some (path_cvt_str lib dst))]⟩
            (dav_rename_from st (path_cvt_str lib src)) (path_cvt_str lib dst)).1 = 0
        then 0 else - EIO) ∧
    (∀ code : Int, env.move = some code → ¬ (code = 404 ∨ code = 500) →
      (dav_rename cfg lib env d src dst).1 = - EIO) ∧
    (∀ d2 : Dav, env.value_get_error = none →
      tbl_get (dav_rename_from st (path_cvt_str lib src)) d2.cache.entries = none →
      (dav_rename_local lib env d2 (dav_rename_from st (path_cvt_str lib src))
        (path_cvt_str lib dst)).1 = - ENOENT) := by
  refine ⟨?_, ?_, ?_, ?_⟩
  · intro hm
    unfold dav_rename
    simp only [hstat, hsess, hm, Bool.not_true, Bool.false_eq_true, if_false]
    simp [dav_rename_finish]
  · intro code hm hc
    unfold dav_rename
    simp only [hstat, hsess, hm, Bool.not_true, Bool.false_eq_true, if_false, if_pos hc]
    unfold dav_rename_finish
    have hne : ¬ (- EIO = (0 : Int)) := by decide
    simp only [hne, false_or]
  · intro code hm hc
    unfold dav_rename
    simp only [hstat, hsess, hm, Bool.not_true, Bool.false_eq_true, if_false, if_neg hc]
    decide
  · intro d2 hg hnone
    unfold dav_rename_local
    simp only [hg, stat_cache_value_get_ignoring, hnone]

/-- C22, witness: renaming the regular file "/a" returns 0 when the MOVE succeeds, and
also when the MOVE fails with 404 and the local move succeeds. -/
theorem C22_rename_result_witness :
    (dav_rename ex_cfg ex_lib ex_rename_env ex_dav_files "/a".toList "/b".toList).1 = 0 ∧
    (dav_rename ex_cfg ex_lib ex_rename_env_404 ex_dav_files "/a".toList "/b".toList).1 = 0 :=
  ⟨(C22_rename_result ex_cfg ex_lib ex_rename_env ex_dav_files ex_dav_files "/a".toList
      "/b".toList ex_st (by decide) rfl).1 rfl,
    ((C22_rename_result ex_cfg ex_lib ex_rename_env_404 ex_dav_files ex_dav_files "/a".toList
      "/b".toList ex_st (by decide) rfl).2.1 404 rfl (Or.inl rfl)).trans (by decide)⟩

/-- C22, counterexample: the directory "/d" is renamed, the MOVE fails with 404, and the
stat cache has no record under "/d/", so the local move fails with `-ENOENT`; `dav_rename`
returns `-EIO`, not `-ENOENT`. -/
theorem C22_local_error_counterexample :
    ex_rename_env_404.move = some 404 ∧
    tbl_get "/d/".toList ex_dav_files.cache.entries = none ∧
    (dav_rename_local ex_lib ex_rename_env_404
      ⟨ex_dav_files.cache, 50, [DavCall.request "MOVE".toList "/d/".toList (some "/e".toList)]⟩
      "/d/".toList "/e".toList).1 = - ENOENT ∧
    (dav_rename ex_cfg ex_lib ex_rename_env_404 ex_dav_files "/d".toList "/e".toList).1
      = - EIO ∧
    - EIO ≠ - ENOENT := by
  decide

/-- C23 (amended). For `dav_rename(a, b)` of a path that `get_stat` reports as not a
directory, with `a` and `b` different after `path_cvt`, a session obtained, a MOVE that
succeeded or failed with 404 or 500, and the stat-cache lookup, write and delete of the local
move setting no error: if the stat cache holds a record under `a` when `get_stat` returns,
then afterwards it holds no record under `a` and holds under `b` a record with the stat data
of that record; the result is 0 when the MOVE succeeded or `filecache_pdata_move` set no
error. -/
theorem C23_rename_moves_entry (cfg : fusedav_config) (lib : Lib) (env : RenameEnv)
    (d d1 : Dav) (src dst : List Char) (st : stat) (e : stat_entry)
    (hstat : get_stat cfg lib env.stat d (path_cvt_str lib src) = (none, st, d1))
    (hreg : S_ISDIR st.st_mode = false)
    (hsess : env.session_ok = true)
    (hmove : env.move = none ∨ env.move = some 404 ∨ env.move = some 500)
    (hget : env.value_get_error = none) (hset : env.value_set_error = none)
    (hdel : env.delete_error = none)
    (hentry : tbl_get (path_cvt_str lib src) d1.cache.entries = some e)
    (hne : path_cvt_str lib src ≠ path_cvt_str lib dst) :
    tbl_get (path_cvt_str lib src) (dav_rename cfg lib env d src dst).2.cache.entries = none ∧
    (tbl_get (path_cvt_str lib dst)
      (dav_rename cfg lib env d src dst).2.cache.entries).map stat_entry.st = some e.st ∧
    (env.move = none ∨ env.pdata_move_error = none →
      (dav_rename cfg lib env d src dst).1 = 0) := by
  have hfrom : dav_rename_from st (path_cvt_str lib src) = path_cvt_str lib src := by
    unfold dav_rename_from
    rw [hreg]; rfl
  have hloc : ∀ d2 : Dav, d2.cache = d1.cache →
      tbl_get (path_cvt_str lib src)
        (dav_rename_local lib env d2 (path_cvt_str lib src)
          (path_cvt_str lib dst)).2.cache.entries = none ∧
      (tbl_get (path_cvt_str lib dst)
        (dav_rename_local lib env d2 (path_cvt_str lib src)
          (path_cvt_str lib dst)).2.cache.entries).map stat_entry.st = some e.st ∧
      (env.pdata_move_error = none →
        (dav_rename_local lib env d2 (path_cvt_str lib src) (path_cvt_str lib dst)).1 = 0) := by
    intro d2 hc
    unfold dav_rename_local
    simp only [hget, hset, hdel, stat_cache_value_get_ignoring, hc, hentry]
    have h1 : tbl_get (path_cvt_str lib src)
        (stat_cache_delete (stat_cache_set d1.cache (path_cvt_str lib dst) e.st)
          (path_cvt_str lib src)).entries = none := by
      unfold stat_cache_delete
      exact tbl_get_del_self _ _
    have h2 : (tbl_get (path_cvt_str lib dst)
        (stat_cache_delete (stat_cache_set d1.cache (path_cvt_str lib dst) e.st)
          (path_cvt_str lib src)).entries).map stat_entry.st = some e.st := by
      unfold stat_cache_delete
      simp only
      rw [tbl_get_del_ne (fun h => hne h.symm), stat_cache_set_entries, tbl_get_put_self]
      rfl
    cases env.pdata_move_error with
    | none => exact ⟨h1, h2, fun _ => rfl⟩
    | some code => exact ⟨h1, h2, fun h => by cases h⟩
  unfold dav_rename
  simp only [hstat, hsess, hfrom, Bool.not_true, Bool.false_eq_true, if_false]
  rcases hmove with hm | hm | hm
  · simp only [hm]
    obtain ⟨h1, h2, -⟩ := hloc
      ⟨d1.cache, d1.last_failure, d1.calls ++
        [DavCall.request "MOVE".toList (path_cvt_str lib src) (some (path_cvt_str lib dst))]⟩ rfl
    refine ⟨h1, h2, fun _ => ?_⟩
    simp [dav_rename_finish]
  · simp only [hm, true_or, if_true]
    obtain ⟨h1, h2, h3⟩ := hloc
      ⟨d1.cache, d1.last_failure, d1.calls ++
        [DavCall.request "MOVE".toList (path_cvt_str lib src) (some (path_cvt_str lib dst))]⟩ rfl
    refine ⟨h1, h2, fun h => ?_⟩
    rcases h with h | h
    · cases h
    · simp only [dav_rename_finish, h3 h, or_true, if_true]
  · simp only [hm, or_true, if_true]
    obtain ⟨h1, h2, h3⟩ := hloc
      ⟨d1.cache, d1.last_failure, d1.calls ++
        [DavCall.request "MOVE".toList (path_cvt_str lib src) (some (path_cvt_str lib dst))]⟩ rfl
    refine ⟨h1, h2, fun h => ?_⟩
    rcases h with h | h
    · cases h
    · simp only [dav_rename_finish, h3 h, or_true, if_true]

/-- C23, witness: the MOVE of the regular file "/a" to "/b" fails with 404; afterwards the
stat cache has no record under "/a", the stat data of "/a" under "/b", and the result is
0. -/
theorem C23_rename_moves_entry_witness :
    tbl_get "/a".toList
      (dav_rename ex_cfg ex_lib ex_rename_env_404 ex_dav_files "/a".toList
        "/b".toList).2.cache.entries = none ∧
    (tbl_get "/b".toList
      (dav_rename ex_cfg ex_lib ex_rename_env_404 ex_dav_files "/a".toList
        "/b".toList).2.cache.entries).map stat_entry.st = some ex_st ∧
    (dav_rename ex_cfg ex_lib ex_rename_env_404 ex_dav_files "/a".toList "/b".toList).1 = 0 :=
  ⟨(C23_rename_moves_entry ex_cfg ex_lib ex_rename_env_404 ex_dav_files ex_dav_files
      "/a".toList "/b".toList ex_st ⟨ex_st, 1⟩ (by decide) (by decide) rfl
      (Or.inr (Or.inl rfl)) rfl rfl rfl (by decide) (by decide)).1,
    (C23_rename_moves_entry ex_cfg ex_lib ex_rename_env_404 ex_dav_files ex_dav_files
      "/a".toList "/b".toList ex_st ⟨ex_st, 1⟩ (by decide) (by decide) rfl
      (Or.inr (Or.inl rfl)) rfl rfl rfl (by decide) (by decide)).2.1,
    (C23_rename_moves_entry ex_cfg ex_lib ex_rename_env_404 ex_dav_files ex_dav_files
      "/a".toList "/b".toList ex_st ⟨ex_st, 1⟩ (by decide) (by decide) rfl
      (Or.inr (Or.inl rfl)) rfl rfl rfl (by decide) (by decide)).2.2 (Or.inr rfl)⟩

/-- C23, counterexample: the regular file "/a" is renamed to "/b", the MOVE succeeds and
the `stat_cache_value_set` of the local move fails.  `dav_rename` returns 0, because the MOVE
succeeded, but the stat cache still holds the record of "/a" and holds nothing under "/b". -/
theorem C23_local_move_failed_counterexample :
    S_ISDIR ex_st.st_mode = false ∧
    tbl_get "/a".toList ex_dav_files.cache.entries = some ⟨ex_st, 1⟩ ∧
    ex_rename_env_set_fails.move = none ∧
    (dav_rename ex_cfg ex_lib ex_rename_env_set_fails ex_dav_files "/a".toList
      "/b".toList).1 = 0 ∧
    tbl_get "/a".toList
      (dav_rename ex_cfg ex_lib ex_rename_env_set_fails ex_dav_files "/a".toList
        "/b".toList).2.cache.entries = some ⟨ex_st, 1⟩ ∧
    tbl_get "/b".toList
      (dav_rename ex_cfg ex_lib ex_rename_env_set_fails ex_dav_files "/a".toList
        "/b".toList).2.cache.entries = none := by
  decide

/-- C24 (amended). In `dav_rmdir`, when `get_stat` sets no error: if the record is a
directory and `stat_cache_dir_has_child` is true on the stat cache that `get_stat` left, the
result is `-ENOTEMPTY`, and if the record is not a directory the result is `-ENOTDIR`; in both
cases the state is the one `get_stat` left, so after `get_stat` has returned `dav_rmdir`
deletes no stat-cache record and writes no children-updated timestamp, and no DELETE or other
request has been sent (`get_stat` sends PROPFIND only).  The call of `get_stat` may refresh
the parent directory: the only children-updated timestamp that can be written during the call
is that of the parent of the path, and when the first lookup of `get_stat` finds the record
the state is left as it was. -/
theorem C24_rmdir_rejects (cfg : fusedav_config) (lib : Lib) (env : RmdirEnv) (d d1 : Dav)
    (path : List Char) (st : stat)
    (hstat : get_stat cfg lib env.stat d (path_cvt_str lib path) = (none, st, d1)) :
    (S_ISDIR st.st_mode = true →
      stat_cache_dir_has_child d1.cache (path_cvt_str lib path) = true →
      dav_rmdir cfg lib env d path = (- ENOTEMPTY, d1)) ∧
    (S_ISDIR st.st_mode = false → dav_rmdir cfg lib env d path = (- ENOTDIR, d1)) ∧
    no_request_added d.calls d1.calls ∧
    only_timestamp_of (strip_trailing_slash (lib.path_parent (path_cvt_str lib path))).1
      d.cache.updated_children d1.cache.updated_children ∧
    ((get_stat_from_cache lib d.cache env.stat.time_get env.stat.get_error
        (path_cvt_str lib path) stat_zero
        (cfg.grace && use_saint_mode d.last_failure env.stat.dir.monotonic_use)).1 = 0 →
      d1 = d) := by
  refine ⟨?_, ?_, ?_, ?_, ?_⟩
  · intro hdir hchild
    unfold dav_rmdir
    simp only [hstat, hdir, hchild, Bool.not_true, Bool.false_eq_true, if_false, if_true]
  · intro hdir
    unfold dav_rmdir
    simp only [hstat, hdir, Bool.not_false, if_true]
  · have h := get_stat_no_request cfg lib env.stat d (path_cvt_str lib path)
    rw [hstat] at h
    exact h
  · have h := get_stat_only_timestamp cfg lib env.stat d (path_cvt_str lib path)
    rw [hstat] at h
    exact h
  · intro hhit
    have h := get_stat_hit_state cfg lib env.stat d (path_cvt_str lib path) hhit
    rw [hstat] at h
    exact h

/-- C24, witness: `dav_rmdir` on the directory "/d", which has the child "/d/x", returns
-39 (`-ENOTEMPTY`), and on the regular file "/a" it returns -20 (`-ENOTDIR`); the state is
unchanged, the first lookup of `get_stat` finding the record.  On the directory "/p/d", whose
parent is refreshed by `get_stat`, it returns -39 with the state that `get_stat` left. -/
theorem C24_rmdir_rejects_witness :
    dav_rmdir ex_cfg ex_lib ex_rmdir_env ex_dav_files "/d".toList = (-39, ex_dav_files) ∧
    dav_rmdir ex_cfg ex_lib ex_rmdir_env ex_dav_files "/a".toList = (-20, ex_dav_files) ∧
    dav_rmdir ex_cfg_refresh ex_lib ex_rmdir_env_gone ex_dav_nested "/p/d".toList =
      (-39, (get_stat ex_cfg_refresh ex_lib ex_stat_env_gone ex_dav_nested
        "/p/d".toList).2.2) :=
  ⟨(C24_rmdir_rejects ex_cfg ex_lib ex_rmdir_env ex_dav_files ex_dav_files "/d".toList
      ex_st_dir (by decide)).1 (by decide) (by decide),
    (C24_rmdir_rejects ex_cfg ex_lib ex_rmdir_env ex_dav_files ex_dav_files "/a".toList
      ex_st (by decide)).2.1 (by decide),
    (C24_rmdir_rejects ex_cfg_refresh ex_lib ex_rmdir_env_gone ex_dav_nested
      (get_stat ex_cfg_refresh ex_lib ex_stat_env_gone ex_dav_nested "/p/d".toList).2.2
      "/p/d".toList ex_st_dir (by decide)).1 (by decide) (by decide)⟩

/-- C24, counterexample: `refresh_dir_for_file_stat` is on and "/p", the parent of the
directory "/p/d", was last listed at time 900, more than `STAT_CACHE_NEGATIVE_TTL` before the
clock reading 1000.  `dav_rmdir` on "/p/d", a directory record with the child "/p/d/x",
returns `-ENOTEMPTY`, and sends no DELETE; yet during the call `get_stat` refreshes "/p": the
windowed listing reports "/p/old" gone, so that record is deleted from the stat cache, and the
children-updated timestamp of "/p" is written (1001 instead of 900). -/
theorem C24_parent_refresh_counterexample :
    tbl_get "/p/d".toList ex_dav_nested.cache.entries = some ⟨ex_st_dir, 2⟩ ∧
    S_ISDIR ex_st_dir.st_mode = true ∧
    stat_cache_dir_has_child ex_dav_nested.cache "/p/d".toList = true ∧
    (dav_rmdir ex_cfg_refresh ex_lib ex_rmdir_env_gone ex_dav_nested "/p/d".toList).1
      = - ENOTEMPTY ∧
    tbl_get "/p/old".toList ex_dav_nested.cache.entries = some ⟨ex_st, 1⟩ ∧
    tbl_get "/p/old".toList
      (dav_rmdir ex_cfg_refresh ex_lib ex_rmdir_env_gone ex_dav_nested
        "/p/d".toList).2.cache.entries = none ∧
    tbl_get "/p".toList ex_dav_nested.cache.updated_children = some 900 ∧
    tbl_get "/p".toList
      (dav_rmdir ex_cfg_refresh ex_lib ex_rmdir_env_gone ex_dav_nested
        "/p/d".toList).2.cache.updated_children = some 1001 ∧
    (dav_rmdir ex_cfg_refresh ex_lib ex_rmdir_env_gone ex_dav_nested "/p/d".toList).2.calls =
      [DavCall.read_updated_children "/p".toList,
       DavCall.read_updated_children "/p".toList,
       DavCall.propfind "/p".toList (some 890) 1,
       DavCall.updated_children "/p".toList 1001] := by
  decide

/-- C25, evaluation at the failing input: with the base directory "/" the path "/d/" is
returned as "/d/", its trailing slash kept (the index `l - 1` counts the length of the base
directory although the base directory was not copied, so the byte tested is the terminating
NUL).  With the base directory "/b" the same path gives "/b/d"; the root "/" stays "/";
`path_cvt(NULL)` is NULL. -/
theorem C25_path_cvt_keeps_slash :
    ex_lib.base_directory = "/".toList ∧
    path_cvt ex_lib (some "/d/".toList) = some "/d/".toList ∧
    ex_lib_b.base_directory = "/b".toList ∧
    path_cvt ex_lib_b (some "/d/".toList) = some "/b/d".toList ∧
    path_cvt ex_lib (some "/".toList) = some "/".toList ∧
    path_cvt ex_lib none = none := by
  decide

/-- C26. `ldb_filecache_cleanup` leaves every key that does not start with "fc:" with the
value it had (or absent as it was).  Its loop over the iterator positioned at "fc:" is the
visit, in turn, of the entries of `cleanup_visited`, and these are exactly the entries of the
store whose key starts with "fc:".  `key2path (path2key p) = p` for every path `p`, and
`key2path k` is NULL for every key `k` that does not start with "fc:". -/
theorem C26_cleanup_frame (env : Env) (w : World) (cache_path : List Char) :
    (∀ k : List Char, filecache_prefix.isPrefixOf k = false →
      tbl_get k (ldb_filecache_cleanup env w cache_path).kv = tbl_get k w.kv) ∧
    ldb_filecache_cleanup_loop env (leveldb_iter_seek w.kv filecache_prefix) w =
      (cleanup_visited w).foldl
        (fun w' e => ldb_filecache_cleanup_visit env w' (e.1.drop 3) e.2) w ∧
    (∀ (k : List Char) (p : ldb_filecache_pdata), (k, p) ∈ cleanup_visited w ↔
      tbl_get k w.kv = some p ∧ filecache_prefix.isPrefixOf k = true) ∧
    (∀ p : List Char, key2path (path2key p) = some p) ∧
    (∀ k : List Char, filecache_prefix.isPrefixOf k = false → key2path k = none) := by
  refine ⟨?_, ?_, ?_, key2path_path2key, key2path_none⟩
  · intro k hk
    unfold ldb_filecache_cleanup
    simp only
    rw [(cleanup_orphans_frame _ _ _).1]
    exact cleanup_loop_kv_frame env _ w k (key2path_none k hk)
  · have h := cleanup_loop_filter env (leveldb_iter_seek w.kv filecache_prefix) w
      (pairwise_leveldb_iter_seek _ _)
      (fun e he => ((mem_leveldb_iter_seek w.kv filecache_prefix e.1 e.2).1 he).2)
    rw [h]
    exact cleanup_loop_foldl env _ w (fun e he => (List.mem_filter.1 he).2)
  · intro k p
    rw [mem_cleanup_visited, key2path_isSome]

/-- C27, evaluation at the failing input: the path "/a" has a fresh file entry and is
opened with `O_RDONLY`.  `ldb_filecache_open` returns 0 and the session is not writable, but
it is not readable either: the test `flags & O_RDONLY` is 0 for every value of the flags,
because `O_RDONLY` is 0, so `readable` is set only when the `O_RDWR` bit is set. -/
theorem C27_rdonly_session_not_readable :
    tbl_get (path2key "/a".toList) ex_world.kv = some ex_entry ∧
    ldb_filecache_open ex_env_93 ex_world "/c".toList "/a".toList O_RDONLY =
      (0, some ⟨1, false, false, false⟩, world_with_fd ex_world 0 O_RDONLY) ∧
    (∀ flags : Nat, has_flag flags O_RDONLY = false) := by
  refine ⟨by decide, by decide, ?_⟩
  intro flags
  simp [has_flag, O_RDONLY]

/-- C28 (amended). With `last_failure` at its initial value 0, at every reading of the
monotonic clock greater than 10 seconds `use_saint_mode` returns false, the freshness check is
not skipped (`config->grace && use_saint_mode()` is false) and `do_open` passes grace level 1
with grace enabled and 0 without, never 2. -/
theorem C28_no_saint_before_failure (cfg : fusedav_config) (now : Int) (h : 10 < now) :
    use_saint_mode 0 now = false ∧
    (cfg.grace && use_saint_mode 0 now) = false ∧
    do_open_grace_level cfg 0 now = (if cfg.grace = true then 1 else 0) := by
  have h1 : use_saint_mode 0 now = false := by
    simp [use_saint_mode, SAINT_MODE_DURATION]
    omega
  refine ⟨h1, by rw [h1]; simp, ?_⟩
  unfold do_open_grace_level
  rw [h1]
  cases cfg.grace <;> rfl

/-- C28, witness: at the clock reading 11. -/
theorem C28_no_saint_before_failure_witness :
    use_saint_mode 0 11 = false ∧
    (ex_cfg.grace && use_saint_mode 0 11) = false ∧
    do_open_grace_level ex_cfg 0 11 = 1 :=
  C28_no_saint_before_failure ex_cfg 11 (by decide)

/-- C28, counterexample: with `last_failure = 0` and the monotonic clock reading 10,
`use_saint_mode` returns true, the freshness check is skipped and `do_open` passes grace level
2. -/
theorem C28_early_clock_counterexample :
    use_saint_mode 0 10 = true ∧
    (ex_cfg.grace && use_saint_mode 0 10) = true ∧
    do_open_grace_level ex_cfg 0 10 = 2 := by
  decide

/-- C29, evaluation at the failing input: the path "/a" has a file entry, and
`ldb_filecache_pdata_move` to "/b" writes that entry under "/b"; the value returned is -1,
not 0.  The function returns -1 on every input: its variable `ret` is initialised to -1 and
never assigned. -/
theorem C29_move_returns_minus_one :
    tbl_get (path2key "/a".toList) ex_world.kv = some ex_entry ∧
    tbl_get (path2key "/b".toList)
      (ldb_filecache_pdata_move ex_env ex_world "/a".toList "/b".toList).2.kv
      = some { filename := ex_entry.filename, etag := ex_entry.etag, last_server_update := 100 } ∧
    (ldb_filecache_pdata_move ex_env ex_world "/a".toList "/b".toList).1 = -1 ∧
    (∀ (env : Env) (w : World) (old_path new_path : List Char),
      (ldb_filecache_pdata_move env w old_path new_path).1 = -1) := by
  refine ⟨by decide, by decide, by decide, ?_⟩
  intro env w old_path new_path
  unfold ldb_filecache_pdata_move
  cases ldb_filecache_pdata_get env w old_path with
  | none => rfl
  | some pdata =>
    simp only
    split_ifs <;> rfl

/-- C30, evaluation at the failing input: `refresh_dir_for_file_stat` is off, the path
"/f" is not in the stat cache, the zero-depth PROPFIND fails and the `stat_cache_delete` that
follows sets an error.  `get_stat` returns without setting an error and the record is all
zero, so its `st_mode` is 0. -/
theorem C30_get_stat_no_error_zero_mode :
    ex_cfg_no_grace.refresh_dir_for_file_stat = false ∧
    ex_stat_env_fail.zero_depth.result < 0 ∧
    ex_stat_env_fail.delete_error = some 5 ∧
    (get_stat ex_cfg_no_grace ex_lib ex_stat_env_fail ex_dav_files "/f".toList).1 = none ∧
    (get_stat ex_cfg_no_grace ex_lib ex_stat_env_fail ex_dav_files "/f".toList).2.1
      = stat_zero ∧
    (get_stat ex_cfg_no_grace ex_lib ex_stat_env_fail ex_dav_files "/f".toList).2.1.st_mode
      = 0 := by
  decide

end Fusedav
